import Mathlib

/-!
# Nexus miner sessions (`src/bot.js`)

A shallow embedding of the `NexusMiner` class and of the supervisor code of
`main`.  A session object becomes a record that is passed explicitly; an
`async` method becomes a function from the record (and from the answers of the
outside world) to the new record, together with its result or the message of
the error it throws.

The outside world is not modelled: every answer it gives (the clock, an HTTP
request, a page call, a screenshot) is an argument, so that a theorem holds for
all answers.  A `null` page makes a page call reject with a `TypeError`, which
is one of the rejections these answers range over.
-/

namespace NexusBot

/-! ## Host capabilities -/

/-- The parts of a parsed `URL` object that `parseProxy` reads. -/
structure ProxyURL where
  hostname : String
  port : String
  username : String
  password : String
  deriving DecidableEq, Repr

/-- Deterministic host functions: `formatTime(new Date())` at the n-th reading of
the clock, and the `new URL(..)` constructor (the message of the `TypeError`
when it throws). -/
structure Host where
  now : Nat → String
  parseURL : String → Except String ProxyURL

/-- The object `parseProxy` returns: `host`, `port` (`none` for `NaN`) and
`auth` (`none` for `undefined`). -/
structure ProxyConfig where
  host : String
  port : Option Nat
  auth : Option (String × String)
  deriving DecidableEq, Repr

/-! ## chalk

`chalk.red(s)` and its siblings at colour level 1 on a plain string: the text
between the opening and the closing escape sequence. -/

def esc : String := "\x1b["

def chalkCyan (s : String) : String := esc ++ "36m" ++ s ++ esc ++ "39m"
def chalkYellow (s : String) : String := esc ++ "33m" ++ s ++ esc ++ "39m"
def chalkRed (s : String) : String := esc ++ "31m" ++ s ++ esc ++ "39m"
def chalkGreen (s : String) : String := esc ++ "32m" ++ s ++ esc ++ "39m"
/-- The chained style `chalk.bgCyan.black`. -/
def chalkBgCyanBlack (s : String) : String :=
  esc ++ "46m" ++ esc ++ "30m" ++ s ++ esc ++ "39m" ++ esc ++ "49m"
/-- The chained style `chalk.bgGreen.black`. -/
def chalkBgGreenBlack (s : String) : String :=
  esc ++ "42m" ++ esc ++ "30m" ++ s ++ esc ++ "39m" ++ esc ++ "49m"
/-- The chained style `chalk.bgYellow.black`. -/
def chalkBgYellowBlack (s : String) : String :=
  esc ++ "43m" ++ esc ++ "30m" ++ s ++ esc ++ "39m" ++ esc ++ "49m"

/-! ## JSON values (the content of `account.json`) -/

/-- A value produced by `JSON.parse`.  An object is its list of own properties
(keys distinct, as `JSON.parse` leaves them). -/
inductive JSON where
  | null
  | bool (b : Bool)
  | num (n : Int)
  | str (s : String)
  | arr (items : List JSON)
  | obj (fields : List (String × JSON))
  deriving Repr

/-- The value of `v || d` and of `!v` rests on truthiness: `null`, `false`, `0`
and `''` are falsy, everything else (objects and arrays included) is truthy. -/
def JSON.truthy : JSON → Bool
  | .null => false
  | .bool b => b
  | .num n => n != 0
  | .str s => s != ""
  | .arr _ => true
  | .obj _ => true

/-! ## Session state -/

/-- The object `this.userInfo`. -/
structure UserInfo where
  address : JSON
  points : String
  ip : String
  proxy : String
  ops : String
  status : String

/-- A call that leaves the process, recorded in the order it is made. -/
inductive Effect where
  /-- Call `axios.get(url, cfg)`: `proxy = none` when `cfg` has no `proxy` key, else
  the value `parseProxy` gave (`some none` for `null`). -/
  | httpGet (url : String) (proxy : Option (Option ProxyConfig))
  /-- Call `ProxyChain.anonymizeProxy(proxy)`. -/
  | anonymize (proxy : String)
  /-- Call `ProxyChain.closeAnonymizedProxy(endpoint, true)`. -/
  | closeAnonymized (endpoint : String)
  /-- Call `puppeteer.launch(launchOptions)` with its `args`. -/
  | launch (args : List String)
  /-- The two cache-clearing calls and `browser.close()` of `closeBrowser`. -/
  | browserClose
  /-- Call `page.goto('https://app.nexus.xyz/', ..)`. -/
  | goto
  /-- Call `page.screenshot`, with the file name up to the session id. -/
  | screenshot (name : String)
  /-- Call `page.evaluate` writing the two tokens to `localStorage`. -/
  | inject
  /-- Call `page.evaluate` looking for `#connect-toggle-button`. -/
  | evalToggle
  /-- Call `page.$eval(selector, ..)`. -/
  | readText (selector : String)
  deriving DecidableEq, Repr

/-- A `NexusMiner` object.  The fields up to `anonymizedProxy` are those the
constructor sets (the three display handles are left out: they are only passed
to the terminal library).  The fields after it record the surroundings of the
object: how often it has read the clock, the interval timers it has registered
with the event loop and not cleared, the next timer handle, the outside calls
it has made, whether the page in `page` belongs to a browser that was launched
with a `--proxy-server` argument, and the calls it has made on such a page. -/
structure NexusMiner where
  account : List (String × JSON)
  id : Nat
  proxy : String
  proxyIp : String
  userInfo : UserInfo
  isMining : Bool
  miningInterval : Option Nat
  toggleCheckInterval : Option Nat
  isDisplayed : Bool
  logs : List String
  browser : Bool
  page : Bool
  anonymizedProxy : Option String
  clockReads : Nat
  timers : List Nat
  nextTimer : Nat
  trace : List Effect
  pageProxied : Bool
  proxiedCalls : List Effect

/-- Property read `obj[key]` on an own property list (`undefined` is `none`). -/
def getField (fields : List (String × JSON)) (key : String) : Option JSON :=
  (fields.find? (fun kv => kv.1 == key)).map (·.2)

/-- The constructor: `new NexusMiner(account, id, proxy, proxyIp)`; an absent
argument is `none`, and `x || d` takes `d` for `null` and for `''`. -/
def NexusMiner.new (account : List (String × JSON)) (id : Nat)
    (proxy : Option String) (proxyIp : Option String) : NexusMiner :=
  let p := match proxy with
    | some s => if s = "" then "None" else s
    | none => "None"
  { account := account
    id := id
    proxy := p
    proxyIp := match proxyIp with
      | some s => if s = "" then "Unknown" else s
      | none => "Unknown"
    userInfo :=
      { address := match getField account "address" with
          | some v => if v.truthy then v else .str "-"
          | none => .str "-"
        points := "-"
        ip := "Unknown"
        proxy := p
        ops := "N/A"
        status := "INACTIVE" }
    isMining := false
    miningInterval := none
    toggleCheckInterval := none
    isDisplayed := false
    logs := []
    browser := false
    page := false
    anonymizedProxy := none
    clockReads := 0
    timers := []
    nextTimer := 0
    trace := []
    pageProxied := false
    proxiedCalls := [] }

/-! ## The log buffer -/

/-- The body of a match of `[^}]+\}` at the head of the input: the characters
up to the first `}` (at least one), and what follows that `}`. -/
def closeSpan : List Char → Option (List Char)
  | [] => none
  | c :: rest =>
    if c = '\x7d' then none
    else
      match rest.dropWhile (fun d => d != '\x7d') with
      | _ :: tail => some tail
      | [] => none

/-- The call `s.replace(/\{[^}]+\}/g, '')` on the characters of `s`: scanning from the
left, an opening brace followed by one or more characters other than the
closing brace and then a closing brace is removed; the scan goes on after it.
The first argument bounds the number of steps (one per character suffices). -/
def stripTagsAux : Nat → List Char → List Char
  | 0, cs => cs
  | _ + 1, [] => []
  | fuel + 1, c :: rest =>
    if c = '\x7b' then
      match closeSpan rest with
      | some tail => stripTagsAux fuel tail
      | none => c :: stripTagsAux fuel rest
    else c :: stripTagsAux fuel rest

/-- The value of `message.replace(/\{[^}]+\}/g, '')`. -/
def stripTags (s : String) : String :=
  ⟨stripTagsAux s.data.length s.data⟩

/-- The stored record of a message: the const `logMessage` of `addLog`. -/
def logRecord (timestamp message : String) : String :=
  "[" ++ timestamp ++ "] " ++ stripTags message

/-- The method `addLog(message)`: push the record, then one `shift` if the
length is over 200.  The write to the log pane does not touch the session. -/
def addLog (H : Host) (message : String) (m : NexusMiner) : NexusMiner :=
  let logMessage := logRecord (H.now m.clockReads) message
  let logs := m.logs ++ [logMessage]
  { m with
    logs := if logs.length > 200 then logs.tail else logs
    clockReads := m.clockReads + 1 }

/-- The method `refreshDisplay()`: it writes to the panes only. -/
def refreshDisplay (m : NexusMiner) : NexusMiner := m

/-- Appending the messages of a list one after the other. -/
def addLogs (H : Host) (messages : List String) (m : NexusMiner) : NexusMiner :=
  messages.foldl (fun s x => addLog H x s) m

/-- The records that a run of appends starting at clock reading `start` stores. -/
def recordsFrom (H : Host) (start : Nat) : List String → List String
  | [] => []
  | x :: xs => logRecord (H.now start) x :: recordsFrom H (start + 1) xs

/-! ## Answers of the outside world -/

/-- How the `try` block of `initPuppeteer` ends: normally, or with a rejection
of `puppeteer.launch`, of `browser.newPage`, or of one of the four page calls
after it. -/
inductive LaunchOutcome where
  | ok
  | launchFails (msg : String)
  | pageFails (msg : String)
  | setupFails (msg : String)

/-- One pass through the `try` block of `loginWithRetry`: `goto` is the
rejection of `page.goto` or `page.content` (if any), `content` the page
content, `shot` the rejection of the screenshot taken in the block (if one is
taken and rejects), `inject` the rejection of the token injection or of the
reload, `dashboard` the value of `loginSuccess`. -/
structure LoginAttempt where
  goto : Option String
  content : String
  shot : Option String
  inject : Option String
  dashboard : Bool

/-- One pass through the `try` block of `fetchUserInfo`: `goto` is the rejection
of `page.goto` (if any), `texts sel` the trimmed text `page.$eval(sel, ..)`
resolves to (`none` when it rejects). -/
structure FetchAttempt where
  goto : Option String
  texts : String → Option String

/-- The result of the `page.evaluate` call of `startMining`. -/
inductive ToggleOutcome where
  | found (wasOff : Bool)
  | notFound
  | rejects (msg : String)

/-- The answers of the outside world during one call of a session method.  An
`Option String` is the message of a rejection (`none`: the call resolves); the
functions of a number give the answer at the pass with that number (from 0) of
the retry loop.  For the two `ipify` requests the value is `response.data.ip`
(`""` when it is falsy). -/
structure Env where
  net : Nat → Option String
  anonymize : Except String String
  launch : LaunchOutcome
  login : Nat → LoginAttempt
  loginShot : Option String
  fetch : Nat → FetchAttempt
  fetchShot : Option String
  ipProxied : Except String String
  ipDirect : Except String String
  toggle : Nat → ToggleOutcome
  close : Option String

/-! ## Session methods -/

/-- The text `[${this.id}] ` that opens most log lines. -/
def tag (m : NexusMiner) : String := "[" ++ toString m.id ++ "] "

/-- Record an outside call. -/
def emit (e : Effect) (m : NexusMiner) : NexusMiner :=
  { m with trace := m.trace ++ [e] }

/-- Record a call on `this.page`: it is an outside call, and when the page
belongs to a browser launched with a `--proxy-server` argument it is also a
call on a page behind the proxy. -/
def pageCall (e : Effect) (m : NexusMiner) : NexusMiner :=
  { m with
    trace := m.trace ++ [e]
    proxiedCalls := if m.pageProxied then m.proxiedCalls ++ [e] else m.proxiedCalls }

/-- The launch arguments hold a `--proxy-server=..` entry. -/
def launchedWithProxy (args : List String) : Bool :=
  args.any (fun a => "--proxy-server=".data.isPrefixOf a.data)

/-- The call `parseInt(s)` for a string that is empty or starts with its decimal
digits (the `port` of a `URL` object is such): `none` is `NaN`. -/
def parseInt (s : String) : Option Nat :=
  let ds := s.data.takeWhile Char.isDigit
  if ds = [] then none else some (ds.foldl (fun n c => 10 * n + (c.toNat - 48)) 0)

/-- The method `parseProxy(proxy)`: the configuration object, or `null` (with a
log line) when `new URL` throws. -/
def parseProxy (H : Host) (proxy : String) (m : NexusMiner) : Option ProxyConfig × NexusMiner :=
  match H.parseURL proxy with
  | .ok u =>
    (some
      { host := u.hostname
        port := parseInt u.port
        auth := if u.username ≠ "" ∧ u.password ≠ "" then some (u.username, u.password) else none },
     m)
  | .error msg =>
    (none, addLog H (chalkRed (tag m ++ "Failed to parse proxy " ++ proxy ++ ": " ++ msg)) m)

/-- The `while` loop of `checkConnection`, entered with the value of `retries`.
The first argument counts the passes that are left: a pass that does not
return raises `retries` by one, so `maxRetries - retries` passes end the loop. -/
def checkConnectionFrom (H : Host) (E : Env) (maxRetries : Nat) :
    Nat → Nat → NexusMiner → Bool × NexusMiner
  | 0, _, m => (false, m)
  | fuel + 1, retries, m =>
    if retries < maxRetries then
      let m := addLog H (chalkCyan (tag m ++ "Checking network connectivity (Attempt "
        ++ toString (retries + 1) ++ ")...")) m
      let cm : Option (Option ProxyConfig) × NexusMiner :=
        if m.proxy ≠ "None" then ((parseProxy H m.proxy m).1 |> some, (parseProxy H m.proxy m).2)
        else (none, m)
      let m := emit (.httpGet "https://app.nexus.xyz/" cm.1) cm.2
      match E.net retries with
      | none => (true, addLog H (chalkGreen (tag m ++ "Network connection verified")) m)
      | some msg =>
        let retries := retries + 1
        let m := addLog H (chalkRed (tag m ++ "Network connection attempt " ++ toString retries
          ++ " failed: " ++ msg)) m
        if retries = maxRetries then (false, m)
        else checkConnectionFrom H E maxRetries fuel retries m
    else (false, m)

/-- The method `checkConnection(maxRetries)` (the default of `maxRetries` is 3). -/
def checkConnection (H : Host) (E : Env) (maxRetries : Nat) (m : NexusMiner) : Bool × NexusMiner :=
  checkConnectionFrom H E maxRetries maxRetries 0 m

/-- The three fixed entries of `launchOptions.args`. -/
def baseArgs : List String := ["--no-sandbox", "--disable-setuid-sandbox", "--disable-gpu"]

/-- The first half of `initPuppeteer`: the launch arguments, after the proxy has
been anonymised (or dropped when that fails). -/
def prepareLaunch (H : Host) (E : Env) (m : NexusMiner) : List String × NexusMiner :=
  if m.proxy ≠ "None" then
    let m := emit (.anonymize m.proxy) m
    match E.anonymize with
    | .ok endpoint =>
      (baseArgs ++ ["--proxy-server=" ++ endpoint], { m with anonymizedProxy := some endpoint })
    | .error msg =>
      let m := addLog H (chalkRed (tag m ++ "Failed to anonymize proxy " ++ m.proxy ++ ": " ++ msg)) m
      (baseArgs, { m with proxy := "None", userInfo := { m.userInfo with proxy := "None" } })
  else (baseArgs, m)

/-- The method `initPuppeteer()`: the error it rethrows, if any.  An assignment
to `this.page` brings in a page of the browser just launched; when `launch` or
`newPage` rejects, `this.page` keeps the page it had. -/
def initPuppeteer (H : Host) (E : Env) (m : NexusMiner) : Except String Unit × NexusMiner :=
  let am := prepareLaunch H E m
  let m := emit (.launch am.1) am.2
  let failed (msg : String) (m : NexusMiner) : Except String Unit × NexusMiner :=
    (.error msg, addLog H (chalkRed (tag m ++ "Failed to initialize browser: " ++ msg)) m)
  match E.launch with
  | .ok => (.ok (), { m with browser := true, page := true, pageProxied := launchedWithProxy am.1 })
  | .launchFails msg => failed msg m
  | .pageFails msg => failed msg { m with browser := true }
  | .setupFails msg =>
    failed msg { m with browser := true, page := true, pageProxied := launchedWithProxy am.1 }

/-- The method `closeBrowser()`.  The first two calls of its `try` block are
calls on `this.page`.  Rejections of `closeAnonymizedProxy` are swallowed by
its `.catch`. -/
def closeBrowser (H : Host) (E : Env) (m : NexusMiner) : NexusMiner :=
  let m :=
    if m.browser then
      let m := pageCall .browserClose m
      let m := match E.close with
        | none => addLog H (chalkYellow (tag m ++ "Browser closed")) m
        | some msg => addLog H (chalkRed (tag m ++ "Failed to close browser: " ++ msg)) m
      { m with browser := false, page := false, pageProxied := false }
    else m
  match m.anonymizedProxy with
  | some endpoint =>
    if endpoint ≠ "" then { emit (.closeAnonymized endpoint) m with anonymizedProxy := none } else m
  | none => m

/-- The call `s.includes(sub)`: `sub` occurs in `s` as a substring. -/
def includes (s sub : String) : Bool :=
  s.data.tails.any (fun t => sub.data.isPrefixOf t)

/-- The condition of the `if` on `pageContent` in `loginWithRetry`. -/
def blockDetected (pageContent : String) : Bool :=
  includes pageContent "captcha" || includes pageContent "verify you are not a bot" ||
    includes pageContent "Access Denied" || includes pageContent "403 Forbidden"

/-- One pass through the `try` block of `loginWithRetry`: `.ok` when it reaches
`return`, else the message of what it throws. -/
def loginAttempt (H : Host) (a : LoginAttempt) (m : NexusMiner) : Except String Unit × NexusMiner :=
  let m := addLog H (chalkCyan (tag m ++ "Accessing Nexus miner panel...")) m
  let m := pageCall .goto m
  match a.goto with
  | some msg => (.error msg, m)
  | none =>
    if blockDetected a.content then
      let m := addLog H (chalkRed (tag m ++ "CAPTCHA or access error detected")) m
      let m := pageCall (.screenshot "error-captcha") m
      match a.shot with
      | some msg => (.error msg, m)
      | none => (.error "CAPTCHA or access error", m)
    else
      let m := addLog H (chalkCyan (tag m ++ "Processing login credentials...")) m
      let m := pageCall .inject m
      match a.inject with
      | some msg => (.error msg, m)
      | none =>
        if !a.dashboard then
          let m := addLog H (chalkRed (tag m ++ "Dashboard elements not found")) m
          let m := pageCall (.screenshot "error-dashboard") m
          match a.shot with
          | some msg => (.error msg, m)
          | none => (.error "No dashboard elements found", m)
        else (.ok (), addLog H (chalkGreen (tag m ++ "Login successful")) m)

/-- The `while` loop of `loginWithRetry`, entered with the value of `retries`
(first argument: the passes that are left, as in `checkConnectionFrom`).  When
the loop ends without a `return` the method returns normally. -/
def loginWithRetryFrom (H : Host) (E : Env) (maxRetries : Nat) :
    Nat → Nat → NexusMiner → Except String Unit × NexusMiner
  | 0, _, m => (.ok (), m)
  | fuel + 1, retries, m =>
    if retries < maxRetries then
      match loginAttempt H (E.login retries) m with
      | (.ok _, m) => (.ok (), m)
      | (.error msg, m) =>
        let retries := retries + 1
        let m := addLog H (chalkRed (tag m ++ "Login attempt " ++ toString retries
          ++ " failed: " ++ msg)) m
        if retries = maxRetries then
          let m := addLog H (chalkRed (tag m
            ++ "Max login retries reached. Please check token or network.")) m
          let m := pageCall (.screenshot "error-login") m
          match E.loginShot with
          | some e => (.error e, m)
          | none => (.error "Login failed after maximum retries", m)
        else
          let m := addLog H (chalkYellow (tag m ++ "Retrying login...")) m
          loginWithRetryFrom H E maxRetries fuel retries m
    else (.ok (), m)

/-- The method `loginWithRetry(maxRetries)` (the default of `maxRetries` is 3). -/
def loginWithRetry (H : Host) (E : Env) (maxRetries : Nat) (m : NexusMiner) :
    Except String Unit × NexusMiner :=
  loginWithRetryFrom H E maxRetries maxRetries 0 m

/-- The const `pointsSelectors` of `fetchUserInfo`. -/
def pointsSelectors : List String :=
  ["#balance-display span", ".balance-display", "[data-testid=\"balance\"]"]

/-- The `for` loop over the selectors in `fetchUserInfo`, entered with the
current value of `points`: a text that resolves is assigned, and ends the loop
when it is not empty; a rejection is swallowed. -/
def readPoints (texts : String → Option String) : List String → String → NexusMiner → String × NexusMiner
  | [], points, m => (points, m)
  | selector :: rest, points, m =>
    let m := pageCall (.readText selector) m
    match texts selector with
    | some t => if t ≠ "" then (t, m) else readPoints texts rest t m
    | none => readPoints texts rest points m

/-- One pass through the `try` block of `fetchUserInfo`: `.ok` when it reaches
`return`, else the message of what it throws. -/
def fetchAttempt (H : Host) (a : FetchAttempt) (m : NexusMiner) : Except String Unit × NexusMiner :=
  let m := addLog H (chalkCyan (tag m ++ "Fetching user points...")) m
  let m := pageCall .goto m
  match a.goto with
  | some msg => (.error msg, m)
  | none =>
    let pm := readPoints a.texts pointsSelectors "-" m
    if pm.1 = "-" then (.error "Points data Not Found", pm.2)
    else
      let m := { pm.2 with userInfo := { pm.2.userInfo with points := pm.1 } }
      let m := addLog H (chalkGreen (tag m ++ "Points fetched successfully")) m
      (.ok (), refreshDisplay m)

/-- The `while` loop of `fetchUserInfo`, entered with the value of `retries`
(first argument: the passes that are left, as in `checkConnectionFrom`).  The
screenshot of the last `catch` is awaited outside any `try`: its rejection
leaves the method. -/
def fetchUserInfoFrom (H : Host) (E : Env) (maxRetries : Nat) :
    Nat → Nat → NexusMiner → Except String Unit × NexusMiner
  | 0, _, m => (.ok (), m)
  | fuel + 1, retries, m =>
    if retries < maxRetries then
      match fetchAttempt H (E.fetch retries) m with
      | (.ok _, m) => (.ok (), m)
      | (.error msg, m) =>
        let retries := retries + 1
        let m := addLog H (chalkRed (tag m ++ "Fetch points attempt " ++ toString retries
          ++ " failed: " ++ msg)) m
        if retries = maxRetries then
          let m := addLog H (chalkRed (tag m
            ++ "Max retries for fetching points. Points set to \"-\".")) m
          let m := { m with userInfo := { m.userInfo with points := "-" } }
          let m := pageCall (.screenshot "error-fetchpoints") m
          match E.fetchShot with
          | some e => (.error e, m)
          | none => (.ok (), refreshDisplay m)
        else fetchUserInfoFrom H E maxRetries fuel retries m
    else (.ok (), m)

/-- The method `fetchUserInfo(maxRetries)` (the default of `maxRetries` is 4). -/
def fetchUserInfo (H : Host) (E : Env) (maxRetries : Nat) (m : NexusMiner) :
    Except String Unit × NexusMiner :=
  fetchUserInfoFrom H E maxRetries maxRetries 0 m

/-- The second `try` of `fetchIpAddress`: the request without a proxy. -/
def fetchIpDirect (H : Host) (E : Env) (m : NexusMiner) : NexusMiner :=
  let m := emit (.httpGet "https://api.ipify.org?format=json" none) m
  match E.ipDirect with
  | .ok ip =>
    refreshDisplay { m with userInfo := { m.userInfo with ip := if ip ≠ "" then ip else "Unknown" } }
  | .error msg =>
    let m := { m with userInfo := { m.userInfo with ip := "Unknown" } }
    let m := addLog H (chalkRed (tag m ++ "Failed to fetch IP without proxy: " ++ msg)) m
    refreshDisplay m

/-- The method `fetchIpAddress()`. -/
def fetchIpAddress (H : Host) (E : Env) (m : NexusMiner) : NexusMiner :=
  if m.proxy ≠ "None" then
    let cm := parseProxy H m.proxy m
    let m := emit (.httpGet "https://api.ipify.org?format=json" (some cm.1)) cm.2
    match E.ipProxied with
    | .ok ip =>
      refreshDisplay { m with userInfo := { m.userInfo with
        ip := if ip ≠ "" then ip else if m.proxyIp ≠ "" then m.proxyIp else "Unknown" } }
    | .error msg =>
      fetchIpDirect H E (addLog H (chalkRed (tag m ++ "Failed to fetch IP with proxy: " ++ msg)) m)
  else fetchIpDirect H E m

/-- The call `setInterval(..)` of `startMining`: a fresh handle is registered
with the event loop and stored in `miningInterval`. -/
def setMiningInterval (m : NexusMiner) : NexusMiner :=
  { m with
    miningInterval := some m.nextTimer
    timers := m.timers ++ [m.nextTimer]
    nextTimer := m.nextTimer + 1 }

/-- The call `clearInterval(handle)`: the timer is taken off the event loop. -/
def clearInterval (handle : Nat) (m : NexusMiner) : NexusMiner :=
  { m with timers := m.timers.filter (fun h => h ≠ handle) }

/-- The `while` loop of `startMining`, entered with the values of `retries` and
`toggleFound` (`maxRetries` is the constant 3).  First argument: the passes
that are left; a pass either raises `retries` or sets `toggleFound`, which
ends the loop. -/
def startMiningFrom (H : Host) (E : Env) : Nat → Nat → Bool → NexusMiner → NexusMiner
  | 0, _, _, m => m
  | fuel + 1, retries, toggleFound, m =>
    if retries < 3 ∧ toggleFound = false then
      let m := pageCall .evalToggle m
      let failed (msg : String) (m : NexusMiner) : NexusMiner :=
        let retries := retries + 1
        let m := addLog H (chalkRed (tag m ++ "Start mining attempt " ++ toString retries
          ++ " failed: " ++ msg)) m
        if retries = 3 then
          let m := addLog H (chalkRed (tag m ++ "Max retries reached for start mining.")) m
          refreshDisplay { m with userInfo := { m.userInfo with status := "INACTIVE" } }
        else startMiningFrom H E fuel retries toggleFound m
      match E.toggle retries with
      | .found wasOff =>
        let m := addLog H (if wasOff then chalkGreen (tag m ++ "Mining Activated Successfully")
          else chalkCyan (tag m ++ "Mining Already Active")) m
        let m := { m with isMining := true, userInfo := { m.userInfo with status := "ACTIVE" } }
        let m := refreshDisplay m
        let m := setMiningInterval m
        let m := addLog H (chalkGreen (tag m ++ "Mining started")) m
        startMiningFrom H E fuel retries true m
      | .notFound => failed "Toggle button not found" m
      | .rejects msg => failed msg m
    else m

/-- The method `startMining()`. -/
def startMining (H : Host) (E : Env) (m : NexusMiner) : NexusMiner :=
  if m.isMining then addLog H (chalkYellow (tag m ++ "Mining already active")) m
  else
    let m := addLog H (chalkCyan (tag m ++ "Activating Mining Process...")) m
    startMiningFrom H E 3 0 false m

/-- The method `stopMining()`.  Nothing in its `try` block throws (the calls are
field writes, `clearInterval`, `refreshDisplay` and `addLog`), so the `catch`
is not entered. -/
def stopMining (H : Host) (m : NexusMiner) : NexusMiner :=
  if !m.isMining then addLog H (chalkYellow (tag m ++ "Mining not active")) m
  else
    let m := addLog H (chalkCyan (tag m ++ "Stopping Mining Process...")) m
    let m := { m with isMining := false, userInfo := { m.userInfo with status := "INACTIVE" } }
    let m := match m.miningInterval with
      | some h => { clearInterval h m with miningInterval := none }
      | none => m
    let m := match m.toggleCheckInterval with
      | some h => { clearInterval h m with toggleCheckInterval := none }
      | none => m
    let m := { m with userInfo := { m.userInfo with ops := "N/A" } }
    let m := refreshDisplay m
    addLog H (chalkYellow (tag m ++ "Mining stopped")) m

/-- The steps of `start()` and of `refreshAccount()` from `initPuppeteer` to the
second `refreshDisplay` (the timed waits between them change nothing). -/
def bootSession (H : Host) (E : Env) (m : NexusMiner) : Except String Unit × NexusMiner :=
  match initPuppeteer H E m with
  | (.error e, m) => (.error e, m)
  | (.ok _, m) =>
    match loginWithRetry H E 3 m with
    | (.error e, m) => (.error e, m)
    | (.ok _, m) =>
      match fetchUserInfo H E 4 m with
      | (.error e, m) => (.error e, m)
      | (.ok _, m) => (.ok (), refreshDisplay (fetchIpAddress H E m))

/-- The method `start()`: the message of the error it throws, if any. -/
def start (H : Host) (E : Env) (m : NexusMiner) : Except String Unit × NexusMiner :=
  let m := addLog H (chalkCyan ("Booting account [" ++ toString m.id ++ "] session...")) m
  let cm := checkConnection H E 3 m
  let m :=
    if !cm.1 then
      let m := addLog H (chalkYellow (tag cm.2
        ++ "Initial connection check failed. Using direct connection...")) cm.2
      { m with proxy := "None", userInfo := { m.userInfo with proxy := "None" } }
    else cm.2
  match bootSession H E m with
  | (.error e, m) => (.error e, m)
  | (.ok _, m) =>
    (.ok (), addLog H (chalkGreen ("Account [" ++ toString m.id ++ "] initialized successfully")) m)

/-- The method `refreshAccount()`: whatever its `try` block throws is caught and
logged. -/
def refreshAccount (H : Host) (E : Env) (m : NexusMiner) : NexusMiner :=
  let m := addLog H (chalkCyan (tag m ++ "Refreshing account...")) m
  let m := stopMining H m
  let m := closeBrowser H E m
  match bootSession H E m with
  | (.error e, m) => addLog H (chalkRed (tag m ++ "Failed to refresh account: " ++ e)) m
  | (.ok _, m) => addLog H (chalkGreen (tag m ++ "Account refreshed successfully")) m

/-! ## Loading the accounts -/

/-- What the first two statements of `loadAccounts` yield: a rejection of
`fs.readFile`, an exception of `JSON.parse` (each with its message), or the
parsed value. -/
inductive AccountFile where
  | unreadable (msg : String)
  | unparsable (msg : String)
  | parsed (value : JSON)

/-- The condition `acc[key]` is truthy, for an object with these own properties. -/
def fieldTruthy (fields : List (String × JSON)) (key : String) : Bool :=
  match getField fields key with
  | some v => v.truthy
  | none => false

/-- The callback of `accounts.forEach`: reading a property of `null` throws a
`TypeError`; on any other value that is not an object the three properties are
`undefined`. -/
def checkAccount : JSON → Except String Unit
  | .null => .error "Cannot read properties of null (reading 'address')"
  | .obj fields =>
    if !fieldTruthy fields "address" || !fieldTruthy fields "auth_token"
        || !fieldTruthy fields "min_auth_token" then
      .error "Account missing required fields"
    else .ok ()
  | _ => .error "Account missing required fields"

/-- The loop `accounts.forEach(..)`: it ends at the first callback that throws. -/
def checkAccounts : List JSON → Except String Unit
  | [] => .ok ()
  | acc :: rest =>
    match checkAccount acc with
    | .error e => .error e
    | .ok _ => checkAccounts rest

/-- Defining property `key` on an object under construction: an own property of
that name is overwritten in place, else the property is added at the end. -/
def setField (fields : List (String × JSON)) (key : String) (v : JSON) : List (String × JSON) :=
  if fields.any (fun kv => kv.1 == key) then
    fields.map (fun kv => if kv.1 == key then (key, v) else kv)
  else fields ++ [(key, v)]

/-- The object literal `{ id: index + 1, ...account }`: `id` is defined first,
then every own property of `account` in turn.  (The second case is not reached
from `loadAccounts`: the check before it lets only objects through.) -/
def withId (index : Nat) : JSON → List (String × JSON)
  | .obj fields => fields.foldl (fun o kv => setField o kv.1 kv.2) [("id", .num (index + 1))]
  | _ => [("id", .num (index + 1))]

/-- The call `accounts.map((account, index) => ..)` of `loadAccounts`, from
position `index` on. -/
def mapWithId (index : Nat) : List JSON → List (List (String × JSON))
  | [] => []
  | account :: rest => withId index account :: mapWithId (index + 1) rest

/-- The `try` block of `loadAccounts`. -/
def loadAccountsBody : AccountFile → Except String (List (List (String × JSON)))
  | .unreadable msg => .error msg
  | .unparsable msg => .error msg
  | .parsed (.arr accounts) =>
    if accounts.length = 0 then .error "account.json is empty or not an array"
    else
      match checkAccounts accounts with
      | .error e => .error e
      | .ok _ => .ok (mapWithId 0 accounts)
  | .parsed _ => .error "account.json is empty or not an array"

/-- The static method `loadAccounts()`: the list of account objects, or the
message of the error it throws. -/
def loadAccounts (file : AccountFile) : Except String (List (List (String × JSON))) :=
  match loadAccountsBody file with
  | .ok accounts => .ok accounts
  | .error msg => .error ("Failed to load account.json: " ++ msg)

/-! ## The supervisor (`main`) -/

/-- The two variables of `main` that hold the sessions and the selection. -/
structure Supervisor where
  miners : List NexusMiner
  activeIndex : Nat

/-- The call `accounts.map((account, index) => new NexusMiner(account, index + 1))`
of `main`, from position `index` on. -/
def createMiners (index : Nat) : List (List (String × JSON)) → List NexusMiner
  | [] => []
  | account :: rest => NexusMiner.new account (index + 1) none none :: createMiners (index + 1) rest

/-- The start of `main` up to the first display: `none` when `loadAccounts`
throws (`main` reports the message and returns before it creates a session). -/
def mainInit (file : AccountFile) : Option Supervisor :=
  match loadAccounts file with
  | .error _ => none
  | .ok accounts =>
    some
      { miners := match createMiners 0 accounts with
          | [] => []
          | first :: rest => refreshDisplay { first with isDisplayed := true } :: rest
        activeIndex := 0 }

/-- The call `firstMiner.addLog(message)` with `firstMiner = miners[0]`: on an
empty list `firstMiner` is `undefined` and the call throws. -/
def logFirst (H : Host) (message : String) : List NexusMiner → Except String (List NexusMiner)
  | [] => .error "Cannot read properties of undefined (reading 'addLog')"
  | first :: rest => .ok (addLog H message first :: rest)

/-- The loop `for (const miner of miners)` of case 1 of `runAutomation`; the
session at position `i` of the list gets the answers `Es i`.  An error thrown
by `miner.start()` leaves the loop. -/
def startAll (H : Host) (Es : Nat → Env) : Nat → List NexusMiner → Except String Unit × List NexusMiner
  | _, [] => (.ok (), [])
  | i, miner :: rest =>
    match start H (Es i) miner with
    | (.error e, miner) => (.error e, miner :: rest)
    | (.ok _, miner) =>
      let miner := startMining H (Es i) miner
      ((startAll H Es (i + 1) rest).1, miner :: (startAll H Es (i + 1) rest).2)

/-- The loop of case 2 of `runAutomation`. -/
def refreshAll (H : Host) (Es : Nat → Env) : Nat → List NexusMiner → List NexusMiner
  | _, [] => []
  | i, miner :: rest => refreshAccount H (Es i) miner :: refreshAll H Es (i + 1) rest

/-- The function `runAutomation(choice)` for the three batch choices: the
sessions afterwards, and the message of the error it throws, if any.  (Case 4
passes a key to the screen and any other value matches no case: the sessions
are not touched by `runAutomation` itself.) -/
def runAutomation (H : Host) (Es : Nat → Env) (choice : Nat) (miners : List NexusMiner) :
    Except String Unit × List NexusMiner :=
  match choice with
  | 1 =>
    match logFirst H (chalkBgCyanBlack " AUTOMATION: STARTING ALL ACCOUNTS ") miners with
    | .error e => (.error e, miners)
    | .ok miners =>
      match startAll H Es 0 miners with
      | (.error e, miners) => (.error e, miners)
      | (.ok _, miners) =>
        match logFirst H (chalkBgGreenBlack " AUTOMATION: ALL ACCOUNTS STARTED ") miners with
        | .error e => (.error e, miners)
        | .ok miners => (.ok (), miners)
  | 2 =>
    match logFirst H (chalkBgCyanBlack " AUTOMATION: REFRESHING ALL ACCOUNTS ") miners with
    | .error e => (.error e, miners)
    | .ok miners =>
      match logFirst H (chalkBgGreenBlack " AUTOMATION: ALL ACCOUNTS REFRESHED ")
          (refreshAll H Es 0 miners) with
      | .error e => (.error e, refreshAll H Es 0 miners)
      | .ok miners => (.ok (), miners)
  | 3 =>
    match logFirst H (chalkBgYellowBlack " AUTOMATION: STOPPING ALL ACCOUNTS ") miners with
    | .error e => (.error e, miners)
    | .ok miners =>
      match logFirst H (chalkBgGreenBlack " AUTOMATION: ALL ACCOUNTS STOPPED ")
          (miners.map (stopMining H)) with
      | .error e => (.error e, miners.map (stopMining H))
      | .ok miners => (.ok (), miners)
  | _ => (.ok (), miners)

/-! ## Sequences of session operations -/

/-- A call of one of the session's methods by its owner, with the answers of
the outside world during the call. -/
inductive Op where
  | start (E : Env)
  | refreshAccount (E : Env)
  | startMining (E : Env)
  | stopMining
  | closeBrowser (E : Env)
  | fetchIpAddress (E : Env)

/-- The session after the call (an error thrown by `start` goes to the caller;
the object keeps the state it had when the error was thrown). -/
def Op.run (H : Host) : Op → NexusMiner → NexusMiner
  | .start E, m => (NexusBot.start H E m).2
  | .refreshAccount E, m => NexusBot.refreshAccount H E m
  | .startMining E, m => NexusBot.startMining H E m
  | .stopMining, m => NexusBot.stopMining H m
  | .closeBrowser E, m => NexusBot.closeBrowser H E m
  | .fetchIpAddress E, m => NexusBot.fetchIpAddress H E m

/-- The session after a sequence of calls. -/
def runOps (H : Host) (ops : List Op) (m : NexusMiner) : NexusMiner :=
  ops.foldl (fun s op => op.run H s) m

/-- The call names the session's proxy in its arguments: a request to anonymise
it, a request whose configuration has a `proxy` entry, or a browser launch with
a `--proxy-server` argument.  A call on the page carries no such argument:
whether it is made on a page behind the proxy depends on the browser the page
belongs to, and is recorded when the call is made, in `proxiedCalls`. -/
def Effect.namesProxy : Effect → Bool
  | .httpGet _ (some _) => true
  | .anonymize _ => true
  | .launch args => launchedWithProxy args
  | _ => false

/-! ## Predicates and sample values used in the statements -/

/-- The state in which a pass of `startMining` that finds the toggle leaves the
session `s`, when the pass was entered in state `m`. -/
def Started (m s : NexusMiner) : Prop :=
  s.userInfo.status = "ACTIVE" ∧ s.isMining = true ∧ s.timers = m.timers ++ [m.nextTimer]
    ∧ s.miningInterval = some m.nextTimer ∧ s.toggleCheckInterval = m.toggleCheckInterval

/-- A host whose clock shows the number of the reading and whose `URL`
constructor accepts exactly `http://user:pw@10.0.0.1:8080`. -/
def sampleHost : Host :=
  { now := fun n => toString n
    parseURL := fun s =>
      if s = "http://user:pw@10.0.0.1:8080" then .ok ⟨"10.0.0.1", "8080", "user", "pw"⟩
      else .error "Invalid URL" }

/-- A login pass that succeeds. -/
def loginOk : LoginAttempt :=
  { goto := none, content := "<html><body>Nexus</body></html>", shot := none, inject := none,
    dashboard := true }

/-- A login pass in which no dashboard element appears. -/
def loginNoDashboard : LoginAttempt := { loginOk with dashboard := false }

/-- A stat-fetch pass in which the first selector yields `42`. -/
def fetchOk : FetchAttempt :=
  { goto := none, texts := fun sel => if sel = "#balance-display span" then some "42" else none }

/-- A stat-fetch pass in which no selector finds an element. -/
def fetchNothing : FetchAttempt := { goto := none, texts := fun _ => none }

/-- Answers of a world in which every call succeeds. -/
def sampleEnv : Env :=
  { net := fun _ => none
    anonymize := .ok "http://127.0.0.1:8000"
    launch := .ok
    login := fun _ => loginOk
    loginShot := none
    fetch := fun _ => fetchOk
    fetchShot := none
    ipProxied := .ok "10.0.0.1"
    ipDirect := .ok "192.0.2.7"
    toggle := fun _ => .found true
    close := none }

/-- The account object of the samples. -/
def sampleAccount : List (String × JSON) :=
  [("id", .num 1), ("address", .str "0xabc"), ("auth_token", .str "t1"),
   ("min_auth_token", .str "u1")]

/-- A new session, as `main` creates it. -/
def sampleMiner : NexusMiner := NexusMiner.new sampleAccount 1 none none

/-- How a session method moves the session from `m` to `s`, as far as the proxy
goes: the two proxy fields are both kept or both set to `None`; the outside
calls made are added to the trace, each of them is of the kind `R`, and none of
them names the proxy if the proxy was `None` at the start. -/
def Step (R : Effect → Prop) (m s : NexusMiner) : Prop :=
  ((s.proxy = m.proxy ∧ s.userInfo.proxy = m.userInfo.proxy)
      ∨ (s.proxy = "None" ∧ s.userInfo.proxy = "None"))
  ∧ ∃ t, s.trace = m.trace ++ t ∧ (∀ e ∈ t, R e)
      ∧ (m.proxy = "None" → ∀ e ∈ t, e.namesProxy = false)

/-- The outside calls of `checkConnection`: requests to the service root. -/
def Effect.isProbe : Effect → Bool
  | .httpGet url _ => url == "https://app.nexus.xyz/"
  | _ => false

/-- The outside calls of `initPuppeteer`. -/
def Effect.isLaunch : Effect → Bool
  | .anonymize _ => true
  | .launch _ => true
  | _ => false

/-- The outside calls of `loginWithRetry`. -/
def Effect.isLogin : Effect → Bool
  | .goto => true
  | .inject => true
  | .screenshot name => name == "error-captcha" || name == "error-dashboard" || name == "error-login"
  | _ => false

/-- The outside calls that only the stat fetch (`fetchUserInfo`) and the IP
fetch (`fetchIpAddress`) make: reading a selector, the screenshot of the stat
fetch, a request to `ipify`. -/
def Effect.isFetchOnly : Effect → Bool
  | .readText _ => true
  | .screenshot name => name == "error-fetchpoints"
  | .httpGet url _ => url == "https://api.ipify.org?format=json"
  | _ => false

/-- The session `s` differs from `m` at most in the log, the count of clock
readings and the trace of outside calls. -/
def SameButLog (m s : NexusMiner) : Prop :=
  s = { m with logs := s.logs, clockReads := s.clockReads, trace := s.trace }

/-- The session `s` differs from `m` at most in the log, the count of clock
readings, the trace of outside calls and the record of calls on a page behind
the proxy. -/
def SameButCalls (m s : NexusMiner) : Prop :=
  s = { m with logs := s.logs, clockReads := s.clockReads, trace := s.trace,
               proxiedCalls := s.proxiedCalls }

/-- The pass through the `try` block of `loginWithRetry` fails: navigation
rejects, a block marker is in the page content, the injection or the reload
rejects, or no dashboard element appears. -/
def LoginAttempt.fails (a : LoginAttempt) : Bool :=
  a.goto.isSome || blockDetected a.content || a.inject.isSome || !a.dashboard

/-- The pass through the `try` block of `fetchUserInfo` fails: navigation
rejects, or the value of `points` after the selector loop is `-`. -/
def FetchAttempt.fails (a : FetchAttempt) (m : NexusMiner) : Bool :=
  a.goto.isSome || (readPoints a.texts pointsSelectors "-" m).1 == "-"

/-- The fields of a session that mining and the two fetches write: the timers
and their handles, `isMining`, and the points and IP shown. -/
def miningState (m : NexusMiner) : List Nat × Nat × Option Nat × Option Nat × Bool × String × String :=
  (m.timers, m.nextTimer, m.miningInterval, m.toggleCheckInterval, m.isMining, m.userInfo.points,
    m.userInfo.ip)

/-- Answers in which no selector finds a points element on any pass and the
screenshot after the last pass rejects (the page is gone). -/
def screenshotFailsEnv : Env :=
  { sampleEnv with
    fetch := fun _ => fetchNothing
    fetchShot := some "Protocol error (Page.captureScreenshot): Target closed" }

/-- A second new session. -/
def secondMiner : NexusMiner :=
  NexusMiner.new [("address", .str "0xdef"), ("auth_token", .str "t2"), ("min_auth_token", .str "u2")]
    2 none none

/-- Answers for a batch in which every login pass of the first session finds no
dashboard element and everything else succeeds. -/
def failFirstEnvs : Nat → Env :=
  fun i => if i = 0 then { sampleEnv with login := fun _ => loginNoDashboard } else sampleEnv

/-- The own properties of an entry of the account list: a value that is not an
object has none of the three required ones. -/
def ownFields : JSON → List (String × JSON)
  | .obj fields => fields
  | _ => []

/-- The three properties that `loadAccounts` requires of every record. -/
def requiredKeys : List String := ["address", "auth_token", "min_auth_token"]

/-- The property is missing or empty, in the words of the specification: the
record has no own property of that name, or its value is the empty string. -/
def missingOrEmpty (record : JSON) (key : String) : Bool :=
  match getField (ownFields record) key with
  | none => true
  | some (.str s) => s == ""
  | some _ => false

/-- The property is missing or falsy, as the check `!acc[key]` of the code reads
it: no own property of that name, or the value is `null`, `false`, `0` or the
empty string. -/
def missingOrFalsy (record : JSON) (key : String) : Bool :=
  !fieldTruthy (ownFields record) key

/-- The condition under which loading is to fail, given what makes a property
unacceptable: the file is unreadable or unparsable, the parsed value is not a
non-empty list, or some record has an unacceptable required property. -/
def loadRejects (bad : JSON → String → Bool) : AccountFile → Bool
  | .unreadable _ => true
  | .unparsable _ => true
  | .parsed (.arr items) =>
    items.isEmpty || items.any (fun record => requiredKeys.any (fun key => bad record key))
  | .parsed _ => true

/-- An account file whose only record has the number 0 as its address. -/
def zeroAddressFile : AccountFile :=
  .parsed (.arr [.obj [("address", .num 0), ("auth_token", .str "t1"), ("min_auth_token", .str "u1")]])

/-- An account file whose only record brings its own `id`. -/
def ownIdFile : AccountFile :=
  .parsed (.arr [.obj [("id", .num 7), ("address", .str "0xabc"), ("auth_token", .str "t1"),
    ("min_auth_token", .str "u1")]])

/-- An account file with two valid records without an `id`. -/
def twoAccountsFile : AccountFile :=
  .parsed (.arr
    [.obj [("address", .str "0xabc"), ("auth_token", .str "t1"), ("min_auth_token", .str "u1")],
     .obj [("address", .str "0xdef"), ("auth_token", .str "t2"), ("min_auth_token", .str "u2")]])

/-- The first line `startMining` logs on a session that is not mining. -/
def activatingLine (m : NexusMiner) : String := chalkCyan (tag m ++ "Activating Mining Process...")

/-- The line `startMining` logs when the pass with number `attempt` (from 1)
does not find the toggle. -/
def toggleFailureLine (m : NexusMiner) (attempt : Nat) : String :=
  chalkRed (tag m ++ "Start mining attempt " ++ toString attempt ++ " failed: "
    ++ "Toggle button not found")

/-- The line `startMining` logs when its retries are used up. -/
def maxRetriesLine (m : NexusMiner) : String :=
  chalkRed (tag m ++ "Max retries reached for start mining.")

/-- A stat-fetch pass in which the first selector finds an element with empty
text and the other two find none. -/
def fetchEmptyText : FetchAttempt :=
  { goto := none, texts := fun sel => if sel = "#balance-display span" then some "" else none }

/-- Answers in which every stat-fetch pass is `fetchEmptyText`. -/
def emptyTextEnv : Env := { sampleEnv with fetch := fun _ => fetchEmptyText }

/-- The four markers that `loginWithRetry` looks for in the page content. -/
def blockMarkers : List String :=
  ["captcha", "verify you are not a bot", "Access Denied", "403 Forbidden"]

/-- The string with every letter in lower case. -/
def lowerCase (s : String) : String := ⟨s.data.map Char.toLower⟩

/-- The string `sub` occurs in `s` when letter case is ignored. -/
def includesIgnoringCase (s sub : String) : Bool :=
  includes (lowerCase s) (lowerCase sub)

/-- A login pass on a page that shows the word CAPTCHA in capitals; every call
of the pass succeeds and the dashboard appears after the reload. -/
def loginCapitalCaptcha : LoginAttempt :=
  { loginOk with content := "<html><body>Please complete the CAPTCHA challenge</body></html>" }

/-- The assignment `miners[index].isDisplayed = value`: `none` when
`miners[index]` is `undefined`, where the assignment throws a `TypeError`. -/
def setDisplayed (index : Nat) (value : Bool) : List NexusMiner → Option (List NexusMiner)
  | [] => none
  | first :: rest =>
    match index with
    | 0 => some ({ first with isDisplayed := value } :: rest)
    | i + 1 => (setDisplayed i value rest).map (fun rest2 => first :: rest2)

/-- The function `switchAccount(newIndex)` of `main`: the two variables
afterwards, and the message of the error it throws, if any.  (The calls
`refreshDisplay()` and `updateFooter` write to the panes only.) -/
def switchAccount (newIndex : Nat) (s : Supervisor) : Except String Unit × Supervisor :=
  if s.miners.length = 0 then (.ok (), s)
  else
    match setDisplayed s.activeIndex false s.miners with
    | none => (.error "Cannot set properties of undefined (setting 'isDisplayed')", s)
    | some miners =>
      match setDisplayed newIndex true miners with
      | none =>
        (.error "Cannot set properties of undefined (setting 'isDisplayed')",
          { miners := miners, activeIndex := newIndex })
      | some miners2 => (.ok (), { miners := miners2, activeIndex := newIndex })

/-- The two navigation keys bound by `screen.key`. -/
inductive Key where
  | left
  | right
  deriving DecidableEq, Repr

/-- The handlers of the keys: `right` calls
`switchAccount((activeIndex + 1) % miners.length)` and `left` calls
`switchAccount((activeIndex - 1 + miners.length) % miners.length)`.  With at
least one session the left operand of the second `%` is not negative, so it is
the natural number `activeIndex + miners.length - 1`; with no session
`switchAccount` returns at once whatever its argument. -/
def pressKey : Key → Supervisor → Except String Unit × Supervisor
  | .right, s => switchAccount ((s.activeIndex + 1) % s.miners.length) s
  | .left, s => switchAccount ((s.activeIndex + s.miners.length - 1) % s.miners.length) s

/-- The two variables after a sequence of key presses. -/
def pressKeys (keys : List Key) (s : Supervisor) : Supervisor :=
  keys.foldl (fun t key => (pressKey key t).2) s

/-- The selection invariant: `activeIndex` is a position of the list, and the
session at a position has `isDisplayed` true exactly when the position is
`activeIndex`. -/
def Selected (s : Supervisor) : Prop :=
  s.activeIndex < s.miners.length
  ∧ ∀ i, i < s.miners.length →
      (s.miners.get? i).map (fun x => x.isDisplayed) = some (decide (i = s.activeIndex))

/-- How a session method moves the session from `m` to `s`, as far as the page
goes: `page` still belongs to the same browser; the calls made on a page behind
the proxy are added to `proxiedCalls`, each of them is of the kind `R`, and
there is none if the page was not behind the proxy at the start. -/
def PageStep (R : Effect → Prop) (m s : NexusMiner) : Prop :=
  s.pageProxied = m.pageProxied
  ∧ ∃ u, s.proxiedCalls = m.proxiedCalls ++ u ∧ (∀ e ∈ u, R e)
      ∧ (m.pageProxied = false → u = [])

/-- Answers of a world in which the service root cannot be reached and the
browser does not launch. -/
def unreachableEnv : Env :=
  { sampleEnv with
    net := fun _ => some "timeout"
    launch := .launchFails "Failed to launch the browser process" }

/-- A new session with a proxy. -/
def proxyMiner : NexusMiner :=
  NexusMiner.new sampleAccount 1 (some "http://user:pw@10.0.0.1:8080") none

/-- The session after a `start` that succeeds through the proxy and a second
`start` whose connection check fails three times and whose browser launch is
rejected. -/
def downgradedOnProxiedPage : NexusMiner :=
  runOps sampleHost [.start sampleEnv, .start unreachableEnv] proxyMiner

/-! ## Theorems -/

theorem addLogs_append (H : Host) (xs ys : List String) (m : NexusMiner) :
    addLogs H (xs ++ ys) m = addLogs H ys (addLogs H xs m) := by
  simp [addLogs, List.foldl_append]

theorem addLogs_clockReads (H : Host) (xs : List String) (m : NexusMiner) :
    (addLogs H xs m).clockReads = m.clockReads + xs.length := by
  induction xs generalizing m with
  | nil => simp [addLogs]
  | cons x xs ih =>
    have := ih (addLog H x m)
    simp only [addLogs, List.foldl_cons, List.length_cons] at this ⊢
    rw [this]; simp [addLog]; omega

theorem recordsFrom_length (H : Host) (s : Nat) (xs : List String) :
    (recordsFrom H s xs).length = xs.length := by
  induction xs generalizing s with
  | nil => rfl
  | cons x xs ih => simp [recordsFrom, ih]

theorem recordsFrom_snoc (H : Host) (s : Nat) (xs : List String) (x : String) :
    recordsFrom H s (xs ++ [x]) = recordsFrom H s xs ++ [logRecord (H.now (s + xs.length)) x] := by
  induction xs generalizing s with
  | nil => simp [recordsFrom]
  | cons y ys ih =>
    have e : s + 1 + ys.length = s + (ys.length + 1) := by omega
    have := ih (s + 1)
    show logRecord (H.now s) y :: recordsFrom H (s + 1) (ys ++ [x]) = _
    rw [this, e]; simp [recordsFrom]

/-- One push followed by the shift, on a buffer that holds the last 200 of `R`. -/
theorem push_shift (R : List String) (r : String) :
    (if (R.drop (R.length - 200) ++ [r]).length > 200
      then (R.drop (R.length - 200) ++ [r]).tail else R.drop (R.length - 200) ++ [r])
      = (R ++ [r]).drop ((R ++ [r]).length - 200) := by
  by_cases h : R.length < 200
  · have h0 : R.length - 200 = 0 := by omega
    have h1 : (R ++ [r]).length - 200 = 0 := by simp; omega
    rw [h0, h1]
    simp; omega
  · have hk : (R ++ [r]).length - 200 = (R.length - 200) + 1 := by simp; omega
    have hlen : (R.drop (R.length - 200) ++ [r]).length > 200 := by simp; omega
    rw [if_pos hlen, hk]
    rw [← List.drop_one, List.drop_append_of_le_length (by simp; omega), List.drop_drop,
      List.drop_append_of_le_length (by omega)]

theorem addLogs_logs (H : Host) (m : NexusMiner) (msgs : List String) (h : m.logs = []) :
    (addLogs H msgs m).logs
      = (recordsFrom H m.clockReads msgs).drop ((recordsFrom H m.clockReads msgs).length - 200) := by
  induction msgs using List.reverseRecOn with
  | nil => simp [addLogs, recordsFrom, h]
  | append_singleton xs x ih =>
    rw [addLogs_append, recordsFrom_snoc]
    show (addLog H x (addLogs H xs m)).logs = _
    simp only [addLog, ih, addLogs_clockReads]
    exact push_shift _ _

/-- C1: after `k` appends to a session whose log starts empty the log holds
exactly `min k 200` records, they are the records of the last `min k 200`
appended messages in arrival order, and the length is at most 200 after every
one of the appends. -/
theorem addLog_keeps_last_200 (H : Host) (m : NexusMiner) (msgs : List String)
    (h : m.logs = []) :
    (addLogs H msgs m).logs.length = min msgs.length 200
    ∧ (addLogs H msgs m).logs
        = (recordsFrom H m.clockReads msgs).drop (msgs.length - min msgs.length 200)
    ∧ ∀ j, (addLogs H (msgs.take j) m).logs.length ≤ 200 := by
  have key : ∀ xs : List String, (addLogs H xs m).logs.length = min xs.length 200 := by
    intro xs
    rw [addLogs_logs H m xs h, List.length_drop, recordsFrom_length]
    omega
  refine ⟨key msgs, ?_, ?_⟩
  · have e : msgs.length - min msgs.length 200 = msgs.length - 200 := by omega
    rw [addLogs_logs H m msgs h, recordsFrom_length, e]
  · intro j
    rw [key]
    omega

/-- C1, at an instance: 201 appends to the empty log of a new session. -/
theorem addLog_keeps_last_200_witness :
    (addLogs ⟨fun n => toString n, fun _ => .error "Invalid URL"⟩ (List.replicate 201 "x")
        (NexusMiner.new [] 1 none none)).logs.length = min (List.replicate 201 "x").length 200
    ∧ (addLogs ⟨fun n => toString n, fun _ => .error "Invalid URL"⟩ (List.replicate 201 "x")
        (NexusMiner.new [] 1 none none)).logs
        = (recordsFrom ⟨fun n => toString n, fun _ => .error "Invalid URL"⟩
            (NexusMiner.new [] 1 none none).clockReads (List.replicate 201 "x")).drop
            ((List.replicate 201 "x").length - min (List.replicate 201 "x").length 200)
    ∧ ∀ j, (addLogs ⟨fun n => toString n, fun _ => .error "Invalid URL"⟩
        ((List.replicate 201 "x").take j) (NexusMiner.new [] 1 none none)).logs.length ≤ 200 :=
  addLog_keeps_last_200 _ _ _ rfl

theorem startMiningFrom_found (H : Host) (E : Env) (fuel retries : Nat) (m : NexusMiner) :
    startMiningFrom H E fuel retries true m = m := by
  cases fuel <;> simp [startMiningFrom]

/-- The fields of a session on which mining rests are not touched by `addLog`. -/
theorem addLog_fields (H : Host) (msg : String) (m : NexusMiner) :
    (addLog H msg m).timers = m.timers ∧ (addLog H msg m).isMining = m.isMining
    ∧ (addLog H msg m).userInfo = m.userInfo ∧ (addLog H msg m).miningInterval = m.miningInterval
    ∧ (addLog H msg m).toggleCheckInterval = m.toggleCheckInterval
    ∧ (addLog H msg m).nextTimer = m.nextTimer := by
  simp [addLog]

theorem startMiningFrom_started (H : Host) (E : Env) (fuel : Nat) :
    ∀ (retries : Nat) (m : NexusMiner), retries + fuel = 3 →
      (∃ i, retries ≤ i ∧ i < 3 ∧ ∃ w, E.toggle i = .found w) →
      Started m (startMiningFrom H E fuel retries false m) := by
  induction fuel with
  | zero =>
    intro retries m hr ⟨i, h1, h2, _⟩
    omega
  | succ fuel ih =>
    intro retries m hr ⟨i, h1, h2, w, hw⟩
    have hlt : retries < 3 := by omega
    rw [startMiningFrom]
    simp only [hlt, true_and, if_true]
    cases ht : E.toggle retries with
    | found w0 =>
      simp only [startMiningFrom_found]
      simp [Started, addLog, emit, pageCall, setMiningInterval, refreshDisplay]
    | notFound =>
      have hne : retries ≠ i := by intro h; rw [h, hw] at ht; cases ht
      have hne3 : retries + 1 ≠ 3 := by omega
      simp only [hne3, if_false]
      have := ih (retries + 1) (addLog H (chalkRed (tag (pageCall .evalToggle m) ++ "Start mining attempt "
        ++ toString (retries + 1) ++ " failed: " ++ "Toggle button not found")) (pageCall .evalToggle m))
        (by omega) ⟨i, by omega, h2, w, hw⟩
      simpa [Started, addLog, emit, pageCall] using this
    | rejects msg =>
      have hne : retries ≠ i := by intro h; rw [h, hw] at ht; cases ht
      have hne3 : retries + 1 ≠ 3 := by omega
      simp only [hne3, if_false]
      have := ih (retries + 1) (addLog H (chalkRed (tag (pageCall .evalToggle m) ++ "Start mining attempt "
        ++ toString (retries + 1) ++ " failed: " ++ msg)) (pageCall .evalToggle m))
        (by omega) ⟨i, by omega, h2, w, hw⟩
      simpa [Started, addLog, emit, pageCall] using this

theorem stopMining_clears (H : Host) (s : NexusMiner) (h : Nat) (h1 : s.isMining = true)
    (h2 : s.timers = [h]) (h3 : s.miningInterval = some h) :
    (stopMining H s).timers = [] ∧ (stopMining H s).userInfo.status = "INACTIVE"
    ∧ (stopMining H s).userInfo.ops = "N/A" ∧ (stopMining H s).isMining = false
    ∧ (stopMining H s).miningInterval = none := by
  cases ht : s.toggleCheckInterval <;>
    simp [stopMining, h1, h2, h3, ht, addLog, clearInterval, refreshDisplay, List.filter_filter]

theorem startMining_of_mining (H : Host) (E : Env) (s : NexusMiner) (h : s.isMining = true) :
    startMining H E s = addLog H (chalkYellow (tag s ++ "Mining already active")) s := by
  simp [startMining, h]

/-- C2: on a session that is not mining and has no timer, a `startMining` that
finds the toggle on one of its three attempts leaves status `ACTIVE` and
exactly one registered timer (the one in `miningInterval`); a further
`startMining` registers none; a `stopMining` after either leaves no timer,
status `INACTIVE` and `ops` equal to `N/A`. -/
theorem startMining_registers_one_timer (H : Host) (E E2 : Env) (m : NexusMiner)
    (hm : m.isMining = false) (ht : m.timers = [])
    (hfound : ∃ i, i < 3 ∧ ∃ w, E.toggle i = .found w) :
    (startMining H E m).userInfo.status = "ACTIVE"
    ∧ (startMining H E m).isMining = true
    ∧ (startMining H E m).timers.length = 1
    ∧ (startMining H E m).miningInterval = (startMining H E m).timers.head?
    ∧ (startMining H E2 (startMining H E m)).timers = (startMining H E m).timers
    ∧ (startMining H E2 (startMining H E m)).userInfo.status = "ACTIVE"
    ∧ (stopMining H (startMining H E m)).timers = []
    ∧ (stopMining H (startMining H E m)).userInfo.status = "INACTIVE"
    ∧ (stopMining H (startMining H E m)).userInfo.ops = "N/A"
    ∧ (stopMining H (startMining H E2 (startMining H E m))).timers = []
    ∧ (stopMining H (startMining H E2 (startMining H E m))).userInfo.status = "INACTIVE"
    ∧ (stopMining H (startMining H E2 (startMining H E m))).userInfo.ops = "N/A" := by
  obtain ⟨i, hi, w, hw⟩ := hfound
  have hs : Started (addLog H (chalkCyan (tag m ++ "Activating Mining Process...")) m)
      (startMining H E m) := by
    unfold startMining
    simp only [hm, Bool.false_eq_true, if_false]
    exact startMiningFrom_started H E 3 0 _ (by omega) ⟨i, by omega, hi, w, hw⟩
  obtain ⟨s1, s2, s3, s4, -⟩ := hs
  simp only [(addLog_fields H _ m).1, (addLog_fields H _ m).2.2.2.2.2, ht, List.nil_append] at s3 s4
  have again : startMining H E2 (startMining H E m)
      = addLog H (chalkYellow (tag (startMining H E m) ++ "Mining already active"))
          (startMining H E m) := startMining_of_mining H E2 _ s2
  have a := addLog_fields H (chalkYellow (tag (startMining H E m) ++ "Mining already active"))
    (startMining H E m)
  have c1 := stopMining_clears H (startMining H E m) m.nextTimer s2 s3 s4
  have c2 := stopMining_clears H (startMining H E2 (startMining H E m)) m.nextTimer
    (by rw [again, a.2.1, s2]) (by rw [again, a.1, s3]) (by rw [again, a.2.2.2.1, s4])
  refine ⟨s1, s2, by rw [s3]; rfl, by rw [s3, s4]; rfl, by rw [again, a.1],
    by rw [again, a.2.2.1, s1], c1.1, c1.2.1, c1.2.2.1, c2.1, c2.2.1, c2.2.2.1⟩

/-- C2, at an instance: the new sample session, the toggle found at once. -/
theorem startMining_registers_one_timer_witness :
    (startMining sampleHost sampleEnv sampleMiner).userInfo.status = "ACTIVE"
    ∧ (startMining sampleHost sampleEnv sampleMiner).timers.length = 1
    ∧ (stopMining sampleHost (startMining sampleHost sampleEnv sampleMiner)).timers = [] :=
  have h := startMining_registers_one_timer sampleHost sampleEnv sampleEnv sampleMiner rfl rfl
    ⟨0, by decide, true, rfl⟩
  ⟨h.1, h.2.2.1, h.2.2.2.2.2.2.1⟩

/-- C3: `stopMining` on a session that is not mining is one `addLog` of the
"Mining not active" line: `userInfo`, `isMining`, the timers, the proxy and the
browser fields are unchanged and the log gets that one record.  After any
`stopMining` the session is not mining, so a second `stopMining` is such a
call: it adds that one line to the state the first one left. -/
theorem stopMining_idempotent (H : Host) (m : NexusMiner) (h : m.isMining = false) :
    stopMining H m = addLog H (chalkYellow (tag m ++ "Mining not active")) m
    ∧ (stopMining H m).userInfo = m.userInfo
    ∧ (stopMining H m).isMining = m.isMining
    ∧ (stopMining H m).timers = m.timers
    ∧ (stopMining H m).miningInterval = m.miningInterval
    ∧ (stopMining H m).toggleCheckInterval = m.toggleCheckInterval
    ∧ (stopMining H m).proxy = m.proxy
    ∧ (stopMining H m).proxyIp = m.proxyIp
    ∧ (stopMining H m).anonymizedProxy = m.anonymizedProxy
    ∧ (stopMining H m).browser = m.browser
    ∧ (stopMining H m).page = m.page
    ∧ (stopMining H m).trace = m.trace
    ∧ (m.logs.length < 200 → (stopMining H m).logs
        = m.logs ++ [logRecord (H.now m.clockReads) (chalkYellow (tag m ++ "Mining not active"))])
    ∧ ∀ m0 : NexusMiner, (stopMining H m0).isMining = false
        ∧ stopMining H (stopMining H m0)
          = addLog H (chalkYellow (tag (stopMining H m0) ++ "Mining not active")) (stopMining H m0) := by
  have one : ∀ s : NexusMiner, s.isMining = false →
      stopMining H s = addLog H (chalkYellow (tag s ++ "Mining not active")) s := by
    intro s hs
    simp [stopMining, hs]
  have off : ∀ m0 : NexusMiner, (stopMining H m0).isMining = false := by
    intro m0
    cases hm : m0.isMining
    · rw [one m0 hm]; simpa [addLog] using hm
    · cases h1 : m0.miningInterval <;> cases h2 : m0.toggleCheckInterval <;>
        simp [stopMining, hm, h1, h2, addLog, clearInterval, refreshDisplay]
  refine ⟨one m h, ?_, ?_, ?_, ?_, ?_, ?_, ?_, ?_, ?_, ?_, ?_, ?_, ?_⟩
  any_goals (rw [one m h]; simp [addLog]; done)
  · intro hl
    rw [one m h]
    simp only [addLog, List.length_append, List.length_singleton]
    rw [if_neg (by omega)]
  · intro m0
    exact ⟨off m0, one _ (off m0)⟩

/-- C3, at an instance: the new sample session, which is not mining. -/
theorem stopMining_idempotent_witness :
    (stopMining sampleHost sampleMiner).logs = ["[0] \x1b[33m[1] Mining not active\x1b[39m"]
    ∧ (stopMining sampleHost (stopMining sampleHost sampleMiner)).logs
      = ["[0] \x1b[33m[1] Mining not active\x1b[39m", "[1] \x1b[33m[1] Mining not active\x1b[39m"] :=
  have h := stopMining_idempotent sampleHost sampleMiner rfl
  ⟨by rw [h.1]; decide, by rw [(h.2.2.2.2.2.2.2.2.2.2.2.2.2 sampleMiner).2, h.1]; decide⟩

/-! ### Proxy fields and outside calls of every method -/

theorem step_refl (R : Effect → Prop) (m : NexusMiner) : Step R m m :=
  ⟨Or.inl ⟨rfl, rfl⟩, [], by simp, by simp, by simp⟩

theorem step_trans {R : Effect → Prop} {m s u : NexusMiner} (h1 : Step R m s) (h2 : Step R s u) :
    Step R m u := by
  obtain ⟨p1, t1, e1, r1, q1⟩ := h1
  obtain ⟨p2, t2, e2, r2, q2⟩ := h2
  refine ⟨?_, t1 ++ t2, by rw [e2, e1, List.append_assoc], ?_, ?_⟩
  · rcases p2 with ⟨a, b⟩ | ⟨a, b⟩
    · rcases p1 with ⟨c, d⟩ | ⟨c, d⟩
      · exact Or.inl ⟨a.trans c, b.trans d⟩
      · exact Or.inr ⟨a.trans c, b.trans d⟩
    · exact Or.inr ⟨a, b⟩
  · intro e he
    rcases List.mem_append.1 he with h | h
    · exact r1 e h
    · exact r2 e h
  · intro hm e he
    have hs : s.proxy = "None" := by
      rcases p1 with ⟨c, _⟩ | ⟨c, _⟩
      · rw [c, hm]
      · exact c
    rcases List.mem_append.1 he with h | h
    · exact q1 hm e h
    · exact q2 hs e h

theorem step_mono {R R2 : Effect → Prop} {m s : NexusMiner} (h : ∀ e, R e → R2 e)
    (h1 : Step R m s) : Step R2 m s := by
  obtain ⟨p1, t1, e1, r1, q1⟩ := h1
  exact ⟨p1, t1, e1, fun e he => h e (r1 e he), q1⟩

/-- A change that leaves the proxy fields and the trace as they are. -/
theorem step_of_same (R : Effect → Prop) {m s : NexusMiner} (hp : s.proxy = m.proxy)
    (hu : s.userInfo.proxy = m.userInfo.proxy) (ht : s.trace = m.trace) : Step R m s :=
  ⟨Or.inl ⟨hp, hu⟩, [], by simp [ht], by simp, by simp⟩

/-- The downgrade: both proxy fields are set to `None`. -/
theorem step_of_downgrade (R : Effect → Prop) {m s : NexusMiner} (hp : s.proxy = "None")
    (hu : s.userInfo.proxy = "None") (ht : s.trace = m.trace) : Step R m s :=
  ⟨Or.inr ⟨hp, hu⟩, [], by simp [ht], by simp, by simp⟩

theorem step_addLog (R : Effect → Prop) (H : Host) (msg : String) (m : NexusMiner) :
    Step R m (addLog H msg m) :=
  step_of_same R rfl rfl rfl

theorem step_emit {R : Effect → Prop} (e : Effect) (m : NexusMiner) (hR : R e)
    (hq : m.proxy = "None" → e.namesProxy = false) : Step R m (emit e m) :=
  ⟨Or.inl ⟨rfl, rfl⟩, [e], rfl, by simpa using hR, by simpa using hq⟩

theorem step_pageCall {R : Effect → Prop} (e : Effect) (m : NexusMiner) (hR : R e)
    (hq : m.proxy = "None" → e.namesProxy = false) : Step R m (pageCall e m) :=
  ⟨Or.inl ⟨rfl, rfl⟩, [e], rfl, by simpa using hR, by simpa using hq⟩

theorem step_parseProxy (R : Effect → Prop) (H : Host) (p : String) (m : NexusMiner) :
    Step R m (parseProxy H p m).2 := by
  unfold parseProxy
  cases H.parseURL p with
  | ok u => exact step_refl R m
  | error msg => exact step_addLog R H _ m

theorem parseProxy_proxy (H : Host) (p : String) (m : NexusMiner) :
    (parseProxy H p m).2.proxy = m.proxy := by
  unfold parseProxy
  cases H.parseURL p <;> rfl

theorem step_checkConnectionFrom (H : Host) (E : Env) (maxRetries fuel : Nat) :
    ∀ (retries : Nat) (m : NexusMiner),
      Step (fun e => e.isProbe = true) m (checkConnectionFrom H E maxRetries fuel retries m).2 := by
  induction fuel with
  | zero => intro retries m; exact step_refl _ m
  | succ fuel ih =>
    intro retries m
    rw [checkConnectionFrom]
    split
    · -- the request of this pass
      generalize hm1 : addLog H (chalkCyan (tag m ++ "Checking network connectivity (Attempt "
        ++ toString (retries + 1) ++ ")...")) m = m1
      have s1 : Step (fun e => e.isProbe = true) m m1 := hm1 ▸ step_addLog _ H _ m
      have s2 : Step (fun e => e.isProbe = true) m1
          (emit (.httpGet "https://app.nexus.xyz/"
            (if m1.proxy ≠ "None" then ((parseProxy H m1.proxy m1).1 |> some, (parseProxy H m1.proxy m1).2)
              else (none, m1)).1)
            (if m1.proxy ≠ "None" then ((parseProxy H m1.proxy m1).1 |> some, (parseProxy H m1.proxy m1).2)
              else (none, m1)).2) := by
        by_cases hp : m1.proxy = "None"
        · simp only [hp, ne_eq, not_true_eq_false, if_false]
          exact step_emit _ _ rfl (fun _ => rfl)
        · simp only [hp, ne_eq, not_false_eq_true, if_true]
          refine step_trans (step_parseProxy _ H _ m1) (step_emit _ _ rfl ?_)
          intro h
          rw [parseProxy_proxy] at h
          exact absurd h hp
      have s12 := step_trans s1 s2
      dsimp only
      cases E.net retries with
      | none => exact step_trans s12 (step_addLog _ H _ _)
      | some msg =>
        dsimp only
        split
        · exact step_trans s12 (step_addLog _ H _ _)
        · exact step_trans (step_trans s12 (step_addLog _ H _ _)) (ih _ _)
    · exact step_refl _ m

theorem step_prepareLaunch (H : Host) (E : Env) (m : NexusMiner) :
    Step (fun e => e.isLaunch = true) m (prepareLaunch H E m).2
    ∧ (m.proxy = "None" → (prepareLaunch H E m).1 = baseArgs) := by
  unfold prepareLaunch
  by_cases hp : m.proxy = "None"
  · simp only [hp, ne_eq, not_true_eq_false, if_false]
    exact ⟨step_refl _ m, fun _ => trivial⟩
  · simp only [hp, ne_eq, not_false_eq_true, if_true, false_implies, and_true]
    cases E.anonymize with
    | ok endpoint =>
      exact ⟨Or.inl ⟨rfl, rfl⟩, [.anonymize m.proxy], rfl, by simp [Effect.isLaunch],
        fun h => absurd h hp⟩
    | error msg =>
      exact ⟨Or.inr ⟨rfl, rfl⟩, [.anonymize m.proxy], rfl, by simp [Effect.isLaunch],
        fun h => absurd h hp⟩

theorem step_initPuppeteer (H : Host) (E : Env) (m : NexusMiner) :
    Step (fun e => e.isLaunch = true) m (initPuppeteer H E m).2 := by
  unfold initPuppeteer
  obtain ⟨s1, hargs⟩ := step_prepareLaunch H E m
  have s2 : Step (fun e => e.isLaunch = true) m
      (emit (.launch (prepareLaunch H E m).1) (prepareLaunch H E m).2) := by
    refine ⟨?_, ?_⟩
    · exact s1.1
    · obtain ⟨t, ht, hr, hq⟩ := s1.2
      refine ⟨t ++ [.launch (prepareLaunch H E m).1], by simp [emit, ht], ?_, ?_⟩
      · intro e he
        rcases List.mem_append.1 he with h | h
        · exact hr e h
        · rw [List.mem_singleton.1 h]; rfl
      · intro hm e he
        rcases List.mem_append.1 he with h | h
        · exact hq hm e h
        · rw [List.mem_singleton.1 h, hargs hm]; decide
  dsimp only
  cases E.launch with
  | ok => exact step_trans s2 (step_of_same _ rfl rfl rfl)
  | launchFails msg => exact step_trans s2 (step_addLog _ H _ _)
  | pageFails msg =>
    exact step_trans s2 (step_trans (step_of_same _ rfl rfl rfl) (step_addLog _ H _ _))
  | setupFails msg =>
    exact step_trans s2 (step_trans (step_of_same _ rfl rfl rfl) (step_addLog _ H _ _))

theorem step_closeBrowser (H : Host) (E : Env) (m : NexusMiner) :
    Step (fun _ => True) m (closeBrowser H E m) := by
  have key : ∀ s : NexusMiner, s.proxy = m.proxy → s.userInfo.proxy = m.userInfo.proxy →
      (∃ t, s.trace = m.trace ++ t ∧ ∀ e ∈ t, e.namesProxy = false) →
      Step (fun _ => True) m s :=
    fun s hp hu ⟨t, ht, hq⟩ => ⟨Or.inl ⟨hp, hu⟩, t, ht, fun _ _ => trivial, fun _ => hq⟩
  unfold closeBrowser
  cases hb : m.browser <;> cases hc : E.close <;> cases ha : m.anonymizedProxy
  all_goals simp only [Bool.false_eq_true, if_false, if_true, ha, emit, pageCall, addLog]
  all_goals try split
  all_goals first
    | (refine key _ rfl rfl ⟨[], (List.append_nil _).symm, ?_⟩; simp)
    | (refine key _ rfl rfl ⟨_, rfl, ?_⟩; simp [Effect.namesProxy])
    | (refine key _ rfl rfl ⟨_, List.append_assoc _ _ _, ?_⟩; simp [Effect.namesProxy])

theorem step_loginAttempt (H : Host) (a : LoginAttempt) (m : NexusMiner) :
    Step (fun e => e.isLogin = true) m (loginAttempt H a m).2 := by
  unfold loginAttempt
  have s1 : Step (fun e => e.isLogin = true) m
      (pageCall .goto (addLog H (chalkCyan (tag m ++ "Accessing Nexus miner panel...")) m)) :=
    step_trans (step_addLog _ H _ m) (step_pageCall _ _ rfl (fun _ => rfl))
  dsimp only
  cases a.goto with
  | some msg => exact s1
  | none =>
    dsimp only
    split
    · have s2 := step_trans s1 (step_trans (step_addLog _ H
        (chalkRed (tag (pageCall .goto (addLog H (chalkCyan (tag m ++ "Accessing Nexus miner panel...")) m))
          ++ "CAPTCHA or access error detected")) _)
        (step_pageCall (.screenshot "error-captcha") _ (by decide) (fun _ => rfl)))
      cases a.shot <;> exact s2
    · have s2 := step_trans s1 (step_trans (step_addLog _ H
        (chalkCyan (tag (pageCall .goto (addLog H (chalkCyan (tag m ++ "Accessing Nexus miner panel...")) m))
          ++ "Processing login credentials...")) _)
        (step_pageCall .inject _ (by decide) (fun _ => rfl)))
      cases a.inject with
      | some msg => exact s2
      | none =>
        dsimp only
        split
        · have s3 := step_trans s2 (step_trans (step_addLog _ H
            (chalkRed (tag (pageCall .inject (addLog H (chalkCyan (tag (pageCall .goto (addLog H
              (chalkCyan (tag m ++ "Accessing Nexus miner panel...")) m))
              ++ "Processing login credentials...")) (pageCall .goto (addLog H
              (chalkCyan (tag m ++ "Accessing Nexus miner panel...")) m))))
              ++ "Dashboard elements not found")) _)
            (step_pageCall (.screenshot "error-dashboard") _ (by decide) (fun _ => rfl)))
          cases a.shot <;> exact s3
        · exact step_trans s2 (step_addLog _ H _ _)

theorem step_loginWithRetryFrom (H : Host) (E : Env) (maxRetries fuel : Nat) :
    ∀ (retries : Nat) (m : NexusMiner),
      Step (fun e => e.isLogin = true) m (loginWithRetryFrom H E maxRetries fuel retries m).2 := by
  induction fuel with
  | zero => intro retries m; exact step_refl _ m
  | succ fuel ih =>
    intro retries m
    rw [loginWithRetryFrom]
    split
    · have s1 := step_loginAttempt H (E.login retries) m
      rcases hr : loginAttempt H (E.login retries) m with ⟨r, m1⟩
      rw [hr] at s1
      cases r with
      | ok u => exact s1
      | error msg =>
        dsimp only
        split
        · have s2 := step_trans s1 (step_trans (step_addLog _ H (chalkRed (tag m1 ++ "Login attempt "
            ++ toString (retries + 1) ++ " failed: " ++ msg)) m1)
            (step_trans (step_addLog _ H (chalkRed (tag (addLog H (chalkRed (tag m1 ++ "Login attempt "
              ++ toString (retries + 1) ++ " failed: " ++ msg)) m1)
              ++ "Max login retries reached. Please check token or network.")) _)
              (step_pageCall (.screenshot "error-login") _ (by decide) (fun _ => rfl))))
          cases E.loginShot <;> exact s2
        · exact step_trans s1 (step_trans (step_addLog _ H (chalkRed (tag m1 ++ "Login attempt "
            ++ toString (retries + 1) ++ " failed: " ++ msg)) m1)
            (step_trans (step_addLog _ H (chalkYellow (tag (addLog H (chalkRed (tag m1
              ++ "Login attempt " ++ toString (retries + 1) ++ " failed: " ++ msg)) m1)
              ++ "Retrying login...")) _) (ih _ _)))
    · exact step_refl _ m

theorem step_readPoints (texts : String → Option String) (sels : List String) :
    ∀ (points : String) (m : NexusMiner),
      Step (fun _ => True) m (readPoints texts sels points m).2 := by
  induction sels with
  | nil => intro points m; exact step_refl _ m
  | cons sel rest ih =>
    intro points m
    rw [readPoints]
    have s1 : Step (fun _ => True) m (pageCall (.readText sel) m) :=
      step_pageCall _ _ trivial (fun _ => rfl)
    cases texts sel with
    | none => exact step_trans s1 (ih _ _)
    | some t =>
      dsimp only
      split
      · exact s1
      · exact step_trans s1 (ih _ _)

theorem step_fetchAttempt (H : Host) (a : FetchAttempt) (m : NexusMiner) :
    Step (fun _ => True) m (fetchAttempt H a m).2 := by
  unfold fetchAttempt
  have s1 : Step (fun _ => True) m
      (pageCall .goto (addLog H (chalkCyan (tag m ++ "Fetching user points...")) m)) :=
    step_trans (step_addLog _ H _ m) (step_pageCall _ _ trivial (fun _ => rfl))
  dsimp only
  cases a.goto with
  | some msg => exact s1
  | none =>
    dsimp only
    have s2 := step_trans s1 (step_readPoints a.texts pointsSelectors "-" _)
    split
    · exact s2
    · exact step_trans s2 (step_trans (step_of_same _ rfl rfl rfl) (step_addLog _ H
        (chalkGreen (tag (readPoints a.texts pointsSelectors "-" (pageCall .goto (addLog H
          (chalkCyan (tag m ++ "Fetching user points...")) m))).2 ++ "Points fetched successfully")) _))

theorem step_fetchUserInfoFrom (H : Host) (E : Env) (maxRetries fuel : Nat) :
    ∀ (retries : Nat) (m : NexusMiner),
      Step (fun _ => True) m (fetchUserInfoFrom H E maxRetries fuel retries m).2 := by
  induction fuel with
  | zero => intro retries m; exact step_refl _ m
  | succ fuel ih =>
    intro retries m
    rw [fetchUserInfoFrom]
    split
    · have s1 := step_fetchAttempt H (E.fetch retries) m
      rcases hr : fetchAttempt H (E.fetch retries) m with ⟨r, m1⟩
      rw [hr] at s1
      cases r with
      | ok u => exact s1
      | error msg =>
        dsimp only
        have s2 := step_trans s1 (step_addLog _ H (chalkRed (tag m1 ++ "Fetch points attempt "
            ++ toString (retries + 1) ++ " failed: " ++ msg)) m1)
        split
        · have s3 := step_trans s2 (step_trans (step_addLog _ H (chalkRed (tag (addLog H (chalkRed
            (tag m1 ++ "Fetch points attempt " ++ toString (retries + 1) ++ " failed: " ++ msg)) m1)
            ++ "Max retries for fetching points. Points set to \"-\".")) _)
            (step_trans (step_of_same _ rfl rfl rfl)
              (step_pageCall (.screenshot "error-fetchpoints") _ trivial (fun _ => rfl))))
          cases E.fetchShot <;> exact s3
        · exact step_trans s2 (ih _ _)
    · exact step_refl _ m

theorem step_fetchIpDirect (H : Host) (E : Env) (m : NexusMiner) :
    Step (fun _ => True) m (fetchIpDirect H E m) := by
  unfold fetchIpDirect
  have s1 : Step (fun _ => True) m (emit (.httpGet "https://api.ipify.org?format=json" none) m) :=
    step_emit _ _ trivial (fun _ => rfl)
  dsimp only
  cases E.ipDirect with
  | ok ip => exact step_trans s1 (step_of_same _ rfl rfl rfl)
  | error msg =>
    exact step_trans s1 (step_trans (step_of_same _ rfl rfl rfl) (step_addLog _ H
      (chalkRed (tag (emit (.httpGet "https://api.ipify.org?format=json" none) m)
        ++ "Failed to fetch IP without proxy: " ++ msg)) _))

theorem step_fetchIpAddress (H : Host) (E : Env) (m : NexusMiner) :
    Step (fun _ => True) m (fetchIpAddress H E m) := by
  unfold fetchIpAddress
  by_cases hp : m.proxy = "None"
  · simp only [hp, ne_eq, not_true_eq_false, if_false]
    exact step_fetchIpDirect H E m
  · simp only [hp, ne_eq, not_false_eq_true, if_true]
    have s1 : Step (fun _ => True) m (emit (.httpGet "https://api.ipify.org?format=json"
        (some (parseProxy H m.proxy m).1)) (parseProxy H m.proxy m).2) := by
      refine step_trans (step_parseProxy _ H _ m) (step_emit _ _ trivial ?_)
      intro h
      rw [parseProxy_proxy] at h
      exact absurd h hp
    cases E.ipProxied with
    | ok ip => exact step_trans s1 (step_of_same _ rfl rfl rfl)
    | error msg =>
      exact step_trans s1 (step_trans (step_addLog _ H (chalkRed (tag (emit
        (.httpGet "https://api.ipify.org?format=json" (some (parseProxy H m.proxy m).1))
        (parseProxy H m.proxy m).2) ++ "Failed to fetch IP with proxy: " ++ msg)) _)
        (step_fetchIpDirect H E _))

theorem step_startMiningFrom (H : Host) (E : Env) (fuel : Nat) :
    ∀ (retries : Nat) (found : Bool) (m : NexusMiner),
      Step (fun _ => True) m (startMiningFrom H E fuel retries found m) := by
  induction fuel with
  | zero => intro retries found m; exact step_refl _ m
  | succ fuel ih =>
    intro retries found m
    rw [startMiningFrom]
    split
    · have s1 : Step (fun _ => True) m (pageCall .evalToggle m) :=
        step_pageCall _ _ trivial (fun _ => rfl)
      have fail : ∀ msg : String, Step (fun _ => True) m
          (if retries + 1 = 3 then
            refreshDisplay
              { addLog H (chalkRed (tag (addLog H (chalkRed (tag (pageCall .evalToggle m)
                    ++ "Start mining attempt " ++ toString (retries + 1) ++ " failed: " ++ msg))
                    (pageCall .evalToggle m)) ++ "Max retries reached for start mining."))
                  (addLog H (chalkRed (tag (pageCall .evalToggle m) ++ "Start mining attempt "
                    ++ toString (retries + 1) ++ " failed: " ++ msg)) (pageCall .evalToggle m)) with
                userInfo :=
                  { (addLog H (chalkRed (tag (addLog H (chalkRed (tag (pageCall .evalToggle m)
                      ++ "Start mining attempt " ++ toString (retries + 1) ++ " failed: " ++ msg))
                      (pageCall .evalToggle m)) ++ "Max retries reached for start mining."))
                    (addLog H (chalkRed (tag (pageCall .evalToggle m) ++ "Start mining attempt "
                      ++ toString (retries + 1) ++ " failed: " ++ msg))
                      (pageCall .evalToggle m))).userInfo with status := "INACTIVE" } }
          else startMiningFrom H E fuel (retries + 1) found
            (addLog H (chalkRed (tag (pageCall .evalToggle m) ++ "Start mining attempt "
              ++ toString (retries + 1) ++ " failed: " ++ msg)) (pageCall .evalToggle m))) := by
        intro msg
        have s2 := step_trans s1 (step_addLog _ H (chalkRed (tag (pageCall .evalToggle m)
          ++ "Start mining attempt " ++ toString (retries + 1) ++ " failed: " ++ msg)) _)
        split
        · exact step_trans s2 (step_trans (step_addLog _ H _ _) (step_of_same _ rfl rfl rfl))
        · exact step_trans s2 (ih _ _ _)
      dsimp only
      cases E.toggle retries with
      | found wasOff =>
        dsimp only
        rw [startMiningFrom_found]
        exact ⟨Or.inl ⟨rfl, rfl⟩, [.evalToggle], rfl, fun _ _ => trivial,
          fun _ => by simp [Effect.namesProxy]⟩
      | notFound => exact fail "Toggle button not found"
      | rejects msg => exact fail msg
    · exact step_refl _ m

theorem step_startMining (H : Host) (E : Env) (m : NexusMiner) :
    Step (fun _ => True) m (startMining H E m) := by
  unfold startMining
  split
  · exact step_addLog _ H _ m
  · exact step_trans (step_addLog _ H _ m) (step_startMiningFrom H E 3 0 false _)

theorem step_stopMining (H : Host) (m : NexusMiner) :
    Step (fun _ => True) m (stopMining H m) := by
  unfold stopMining
  split
  · exact step_addLog _ H _ m
  · refine step_of_same _ ?_ ?_ ?_ <;>
      cases h1 : m.miningInterval <;> cases h2 : m.toggleCheckInterval <;>
      simp [h1, h2, addLog, clearInterval, refreshDisplay]

theorem step_bootSession (H : Host) (E : Env) (m : NexusMiner) :
    Step (fun _ => True) m (bootSession H E m).2 := by
  unfold bootSession
  have s1 : Step (fun _ => True) m (initPuppeteer H E m).2 :=
    step_mono (fun _ _ => trivial) (step_initPuppeteer H E m)
  rcases h1 : initPuppeteer H E m with ⟨r1, m1⟩
  rw [h1] at s1
  cases r1 with
  | error e => exact s1
  | ok u =>
    dsimp only
    have s2 : Step (fun _ => True) m1 (loginWithRetry H E 3 m1).2 :=
      step_mono (fun _ _ => trivial) (step_loginWithRetryFrom H E 3 3 0 m1)
    rcases h2 : loginWithRetry H E 3 m1 with ⟨r2, m2⟩
    rw [h2] at s2
    cases r2 with
    | error e => exact step_trans s1 s2
    | ok u =>
      dsimp only
      have s3 : Step (fun _ => True) m2 (fetchUserInfo H E 4 m2).2 :=
        step_fetchUserInfoFrom H E 4 4 0 m2
      rcases h3 : fetchUserInfo H E 4 m2 with ⟨r3, m3⟩
      rw [h3] at s3
      cases r3 with
      | error e => exact step_trans s1 (step_trans s2 s3)
      | ok u => exact step_trans s1 (step_trans s2 (step_trans s3 (step_fetchIpAddress H E m3)))

/-- The part of `start` before `initPuppeteer`: the first log line, the
connection check, and the downgrade when the check fails. -/
theorem step_connect (H : Host) (E : Env) (m : NexusMiner) :
    Step (fun e => e.isProbe = true) m
      (if !(checkConnection H E 3 (addLog H (chalkCyan ("Booting account [" ++ toString m.id
          ++ "] session...")) m)).1 then
        { addLog H (chalkYellow (tag (checkConnection H E 3 (addLog H (chalkCyan
              ("Booting account [" ++ toString m.id ++ "] session...")) m)).2
              ++ "Initial connection check failed. Using direct connection..."))
            (checkConnection H E 3 (addLog H (chalkCyan ("Booting account [" ++ toString m.id
              ++ "] session...")) m)).2 with
          proxy := "None"
          userInfo := { (addLog H (chalkYellow (tag (checkConnection H E 3 (addLog H (chalkCyan
              ("Booting account [" ++ toString m.id ++ "] session...")) m)).2
              ++ "Initial connection check failed. Using direct connection..."))
            (checkConnection H E 3 (addLog H (chalkCyan ("Booting account [" ++ toString m.id
              ++ "] session...")) m)).2).userInfo with proxy := "None" } }
      else (checkConnection H E 3 (addLog H (chalkCyan ("Booting account [" ++ toString m.id
          ++ "] session...")) m)).2) := by
  have s1 := step_trans (step_addLog (fun e => e.isProbe = true) H
    (chalkCyan ("Booting account [" ++ toString m.id ++ "] session...")) m)
    (step_checkConnectionFrom H E 3 3 0 _)
  split
  · exact step_trans s1 (step_of_downgrade _ rfl rfl rfl)
  · exact s1

theorem step_start (H : Host) (E : Env) (m : NexusMiner) :
    Step (fun _ => True) m (start H E m).2 := by
  have s1 : Step (fun _ => True) m _ := step_mono (fun _ _ => trivial) (step_connect H E m)
  unfold start
  dsimp only
  generalize (if !(checkConnection H E 3 (addLog H (chalkCyan ("Booting account ["
    ++ toString m.id ++ "] session...")) m)).1 then _ else _ : NexusMiner) = mc at s1 ⊢
  have s2 := step_bootSession H E mc
  rcases h : bootSession H E mc with ⟨r, m1⟩
  rw [h] at s2
  cases r with
  | error e => exact step_trans s1 s2
  | ok u => exact step_trans s1 (step_trans s2 (step_addLog _ H _ _))

theorem step_refreshAccount (H : Host) (E : Env) (m : NexusMiner) :
    Step (fun _ => True) m (refreshAccount H E m) := by
  unfold refreshAccount
  dsimp only
  have s1 : Step (fun _ => True) m (closeBrowser H E (stopMining H (addLog H
      (chalkCyan (tag m ++ "Refreshing account...")) m))) :=
    step_trans (step_addLog _ H _ m) (step_trans (step_stopMining H _) (step_closeBrowser H E _))
  generalize closeBrowser H E (stopMining H (addLog H
      (chalkCyan (tag m ++ "Refreshing account...")) m)) = mc at s1 ⊢
  have s2 := step_bootSession H E mc
  rcases h : bootSession H E mc with ⟨r, m1⟩
  rw [h] at s2
  cases r with
  | error e => exact step_trans s1 (step_trans s2 (step_addLog _ H _ _))
  | ok u => exact step_trans s1 (step_trans s2 (step_addLog _ H _ _))

theorem step_run (H : Host) (op : Op) (m : NexusMiner) : Step (fun _ => True) m (op.run H m) := by
  cases op with
  | start E => exact step_start H E m
  | refreshAccount E => exact step_refreshAccount H E m
  | startMining E => exact step_startMining H E m
  | stopMining => exact step_stopMining H m
  | closeBrowser E => exact step_closeBrowser H E m
  | fetchIpAddress E => exact step_fetchIpAddress H E m

theorem step_runOps (H : Host) (ops : List Op) :
    ∀ m : NexusMiner, Step (fun _ => True) m (runOps H ops m) := by
  induction ops with
  | nil => intro m; exact step_refl _ m
  | cons op rest ih =>
    intro m
    exact step_trans (step_run H op m) (ih _)

/-! ### Calls on a page behind the proxy -/

theorem pageStep_refl (R : Effect → Prop) (m : NexusMiner) : PageStep R m m :=
  ⟨rfl, [], by simp, by simp, fun _ => rfl⟩

theorem pageStep_trans {R : Effect → Prop} {m s u : NexusMiner} (h1 : PageStep R m s)
    (h2 : PageStep R s u) : PageStep R m u := by
  obtain ⟨p1, t1, e1, r1, q1⟩ := h1
  obtain ⟨p2, t2, e2, r2, q2⟩ := h2
  refine ⟨p2.trans p1, t1 ++ t2, by rw [e2, e1, List.append_assoc], ?_, ?_⟩
  · intro e he
    rcases List.mem_append.1 he with h | h
    · exact r1 e h
    · exact r2 e h
  · intro hm
    rw [q1 hm, q2 (p1.trans hm)]
    rfl

theorem pageStep_mono {R R2 : Effect → Prop} {m s : NexusMiner} (h : ∀ e, R e → R2 e)
    (h1 : PageStep R m s) : PageStep R2 m s := by
  obtain ⟨p1, t1, e1, r1, q1⟩ := h1
  exact ⟨p1, t1, e1, fun e he => h e (r1 e he), q1⟩

/-- A change that leaves the page and the calls made behind the proxy as they are. -/
theorem pageStep_of_same (R : Effect → Prop) {m s : NexusMiner}
    (hp : s.pageProxied = m.pageProxied) (hc : s.proxiedCalls = m.proxiedCalls) :
    PageStep R m s :=
  ⟨hp, [], by simp [hc], by simp, fun _ => rfl⟩

/-- A method that makes no call on the page leaves `proxiedCalls` as it is. -/
theorem pageStep_quiet {m s : NexusMiner} (h : PageStep (fun _ => False) m s) :
    s.proxiedCalls = m.proxiedCalls := by
  obtain ⟨-, u, e1, r1, -⟩ := h
  cases u with
  | nil => simpa using e1
  | cons e rest => exact absurd (r1 e (List.mem_cons_self _ _)) id

/-- No call is made behind the proxy on a page that is not behind it. -/
theorem pageStep_clean {R : Effect → Prop} {m s : NexusMiner} (h : PageStep R m s)
    (hm : m.pageProxied = false) : s.pageProxied = false ∧ s.proxiedCalls = m.proxiedCalls := by
  obtain ⟨p, u, e1, -, q⟩ := h
  refine ⟨p.trans hm, ?_⟩
  rw [e1, q hm, List.append_nil]

theorem pageStep_addLog (R : Effect → Prop) (H : Host) (msg : String) (m : NexusMiner) :
    PageStep R m (addLog H msg m) :=
  pageStep_of_same R rfl rfl

theorem pageStep_emit (R : Effect → Prop) (e : Effect) (m : NexusMiner) :
    PageStep R m (emit e m) :=
  pageStep_of_same R rfl rfl

theorem pageStep_pageCall {R : Effect → Prop} (e : Effect) (m : NexusMiner) (hR : R e) :
    PageStep R m (pageCall e m) := by
  cases hp : m.pageProxied
  · exact pageStep_of_same R rfl (by simp [pageCall, hp])
  · exact ⟨rfl, [e], by simp [pageCall, hp], by simpa using hR, by simp [hp]⟩

theorem pageStep_parseProxy (R : Effect → Prop) (H : Host) (p : String) (m : NexusMiner) :
    PageStep R m (parseProxy H p m).2 := by
  unfold parseProxy
  cases H.parseURL p with
  | ok u => exact pageStep_refl R m
  | error msg => exact pageStep_addLog R H _ m

theorem pageStep_checkConnectionFrom (R : Effect → Prop) (H : Host) (E : Env)
    (maxRetries fuel : Nat) :
    ∀ (retries : Nat) (m : NexusMiner),
      PageStep R m (checkConnectionFrom H E maxRetries fuel retries m).2 := by
  induction fuel with
  | zero => intro retries m; exact pageStep_refl _ m
  | succ fuel ih =>
    intro retries m
    rw [checkConnectionFrom]
    split
    · generalize hm1 : addLog H (chalkCyan (tag m ++ "Checking network connectivity (Attempt "
        ++ toString (retries + 1) ++ ")...")) m = m1
      have s1 : PageStep R m m1 := hm1 ▸ pageStep_addLog _ H _ m
      have s2 : PageStep R m1
          (emit (.httpGet "https://app.nexus.xyz/"
            (if m1.proxy ≠ "None" then ((parseProxy H m1.proxy m1).1 |> some, (parseProxy H m1.proxy m1).2)
              else (none, m1)).1)
            (if m1.proxy ≠ "None" then ((parseProxy H m1.proxy m1).1 |> some, (parseProxy H m1.proxy m1).2)
              else (none, m1)).2) := by
        by_cases hp : m1.proxy = "None"
        · simp only [hp, ne_eq, not_true_eq_false, if_false]
          exact pageStep_emit _ _ _
        · simp only [hp, ne_eq, not_false_eq_true, if_true]
          exact pageStep_trans (pageStep_parseProxy _ H _ m1) (pageStep_emit _ _ _)
      have s12 := pageStep_trans s1 s2
      dsimp only
      cases E.net retries with
      | none => exact pageStep_trans s12 (pageStep_addLog _ H _ _)
      | some msg =>
        dsimp only
        split
        · exact pageStep_trans s12 (pageStep_addLog _ H _ _)
        · exact pageStep_trans (pageStep_trans s12 (pageStep_addLog _ H _ _)) (ih _ _)
    · exact pageStep_refl _ m

theorem pageStep_prepareLaunch (R : Effect → Prop) (H : Host) (E : Env) (m : NexusMiner) :
    PageStep R m (prepareLaunch H E m).2 := by
  unfold prepareLaunch
  by_cases hp : m.proxy = "None"
  · simp only [hp, ne_eq, not_true_eq_false, if_false]
    exact pageStep_refl _ m
  · simp only [hp, ne_eq, not_false_eq_true, if_true]
    cases E.anonymize with
    | ok endpoint => exact pageStep_of_same _ rfl rfl
    | error msg => exact pageStep_of_same _ rfl rfl

/-- The method `initPuppeteer` makes no call on the page it finds, and when the
proxy is `None` and it returns, the page it leaves belongs to a browser
launched without a `--proxy-server` argument. -/
theorem initPuppeteer_page (H : Host) (E : Env) (m : NexusMiner) :
    (initPuppeteer H E m).2.proxiedCalls = m.proxiedCalls
    ∧ (m.proxy = "None" → ∀ u, (initPuppeteer H E m).1 = .ok u →
        (initPuppeteer H E m).2.pageProxied = false) := by
  have hq : (prepareLaunch H E m).2.proxiedCalls = m.proxiedCalls :=
    pageStep_quiet (pageStep_prepareLaunch _ H E m)
  have hargs := (step_prepareLaunch H E m).2
  unfold initPuppeteer
  dsimp only
  cases E.launch with
  | ok =>
    refine ⟨hq, fun hp _ _ => ?_⟩
    show launchedWithProxy (prepareLaunch H E m).1 = false
    rw [hargs hp]
    rfl
  | launchFails msg => exact ⟨hq, fun _ u h => by cases h⟩
  | pageFails msg => exact ⟨hq, fun _ u h => by cases h⟩
  | setupFails msg => exact ⟨hq, fun _ u h => by cases h⟩

/-- The calls that `closeBrowser` makes on a page behind the proxy are its
closing calls. -/
theorem closeBrowser_page (H : Host) (E : Env) (m : NexusMiner) :
    ∃ u, (closeBrowser H E m).proxiedCalls = m.proxiedCalls ++ u
      ∧ ∀ e ∈ u, e = Effect.browserClose := by
  unfold closeBrowser
  cases hb : m.browser <;> cases hc : E.close <;> cases ha : m.anonymizedProxy <;>
    cases hp : m.pageProxied
  all_goals simp only [Bool.false_eq_true, if_false, if_true, ha, hp, emit, pageCall, addLog]
  all_goals try split
  all_goals first
    | (refine ⟨[], ?_, ?_⟩ <;> solve | simp)
    | (refine ⟨[.browserClose], ?_, ?_⟩ <;> solve | simp)

theorem pageStep_loginAttempt (H : Host) (a : LoginAttempt) (m : NexusMiner) :
    PageStep (fun _ => True) m (loginAttempt H a m).2 := by
  unfold loginAttempt
  have s1 : PageStep (fun _ => True) m
      (pageCall .goto (addLog H (chalkCyan (tag m ++ "Accessing Nexus miner panel...")) m)) :=
    pageStep_trans (pageStep_addLog _ H _ m) (pageStep_pageCall _ _ trivial)
  dsimp only
  cases a.goto with
  | some msg => exact s1
  | none =>
    dsimp only
    split
    · have s2 := pageStep_trans s1 (pageStep_trans (pageStep_addLog _ H
        (chalkRed (tag (pageCall .goto (addLog H (chalkCyan (tag m ++ "Accessing Nexus miner panel...")) m))
          ++ "CAPTCHA or access error detected")) _)
        (pageStep_pageCall (.screenshot "error-captcha") _ trivial))
      cases a.shot <;> exact s2
    · have s2 := pageStep_trans s1 (pageStep_trans (pageStep_addLog _ H
        (chalkCyan (tag (pageCall .goto (addLog H (chalkCyan (tag m ++ "Accessing Nexus miner panel...")) m))
          ++ "Processing login credentials...")) _)
        (pageStep_pageCall .inject _ trivial))
      cases a.inject with
      | some msg => exact s2
      | none =>
        dsimp only
        split
        · have s3 := pageStep_trans s2 (pageStep_trans (pageStep_addLog _ H
            (chalkRed (tag (pageCall .inject (addLog H (chalkCyan (tag (pageCall .goto (addLog H
              (chalkCyan (tag m ++ "Accessing Nexus miner panel...")) m))
              ++ "Processing login credentials...")) (pageCall .goto (addLog H
              (chalkCyan (tag m ++ "Accessing Nexus miner panel...")) m))))
              ++ "Dashboard elements not found")) _)
            (pageStep_pageCall (.screenshot "error-dashboard") _ trivial))
          cases a.shot <;> exact s3
        · exact pageStep_trans s2 (pageStep_addLog _ H _ _)

theorem pageStep_loginWithRetryFrom (H : Host) (E : Env) (maxRetries fuel : Nat) :
    ∀ (retries : Nat) (m : NexusMiner),
      PageStep (fun _ => True) m (loginWithRetryFrom H E maxRetries fuel retries m).2 := by
  induction fuel with
  | zero => intro retries m; exact pageStep_refl _ m
  | succ fuel ih =>
    intro retries m
    rw [loginWithRetryFrom]
    split
    · have s1 := pageStep_loginAttempt H (E.login retries) m
      rcases hr : loginAttempt H (E.login retries) m with ⟨r, m1⟩
      rw [hr] at s1
      cases r with
      | ok u => exact s1
      | error msg =>
        dsimp only
        split
        · have s2 := pageStep_trans s1 (pageStep_trans (pageStep_addLog _ H (chalkRed (tag m1
            ++ "Login attempt " ++ toString (retries + 1) ++ " failed: " ++ msg)) m1)
            (pageStep_trans (pageStep_addLog _ H (chalkRed (tag (addLog H (chalkRed (tag m1
              ++ "Login attempt " ++ toString (retries + 1) ++ " failed: " ++ msg)) m1)
              ++ "Max login retries reached. Please check token or network.")) _)
              (pageStep_pageCall (.screenshot "error-login") _ trivial)))
          cases E.loginShot <;> exact s2
        · exact pageStep_trans s1 (pageStep_trans (pageStep_addLog _ H (chalkRed (tag m1
            ++ "Login attempt " ++ toString (retries + 1) ++ " failed: " ++ msg)) m1)
            (pageStep_trans (pageStep_addLog _ H (chalkYellow (tag (addLog H (chalkRed (tag m1
              ++ "Login attempt " ++ toString (retries + 1) ++ " failed: " ++ msg)) m1)
              ++ "Retrying login...")) _) (ih _ _)))
    · exact pageStep_refl _ m

theorem pageStep_readPoints (texts : String → Option String) (sels : List String) :
    ∀ (points : String) (m : NexusMiner),
      PageStep (fun _ => True) m (readPoints texts sels points m).2 := by
  induction sels with
  | nil => intro points m; exact pageStep_refl _ m
  | cons sel rest ih =>
    intro points m
    rw [readPoints]
    have s1 : PageStep (fun _ => True) m (pageCall (.readText sel) m) :=
      pageStep_pageCall _ _ trivial
    cases texts sel with
    | none => exact pageStep_trans s1 (ih _ _)
    | some t =>
      dsimp only
      split
      · exact s1
      · exact pageStep_trans s1 (ih _ _)

theorem pageStep_fetchAttempt (H : Host) (a : FetchAttempt) (m : NexusMiner) :
    PageStep (fun _ => True) m (fetchAttempt H a m).2 := by
  unfold fetchAttempt
  have s1 : PageStep (fun _ => True) m
      (pageCall .goto (addLog H (chalkCyan (tag m ++ "Fetching user points...")) m)) :=
    pageStep_trans (pageStep_addLog _ H _ m) (pageStep_pageCall _ _ trivial)
  dsimp only
  cases a.goto with
  | some msg => exact s1
  | none =>
    dsimp only
    have s2 := pageStep_trans s1 (pageStep_readPoints a.texts pointsSelectors "-" _)
    split
    · exact s2
    · exact pageStep_trans s2 (pageStep_trans (pageStep_of_same _ rfl rfl) (pageStep_addLog _ H
        (chalkGreen (tag (readPoints a.texts pointsSelectors "-" (pageCall .goto (addLog H
          (chalkCyan (tag m ++ "Fetching user points...")) m))).2 ++ "Points fetched successfully")) _))

theorem pageStep_fetchUserInfoFrom (H : Host) (E : Env) (maxRetries fuel : Nat) :
    ∀ (retries : Nat) (m : NexusMiner),
      PageStep (fun _ => True) m (fetchUserInfoFrom H E maxRetries fuel retries m).2 := by
  induction fuel with
  | zero => intro retries m; exact pageStep_refl _ m
  | succ fuel ih =>
    intro retries m
    rw [fetchUserInfoFrom]
    split
    · have s1 := pageStep_fetchAttempt H (E.fetch retries) m
      rcases hr : fetchAttempt H (E.fetch retries) m with ⟨r, m1⟩
      rw [hr] at s1
      cases r with
      | ok u => exact s1
      | error msg =>
        dsimp only
        have s2 := pageStep_trans s1 (pageStep_addLog _ H (chalkRed (tag m1
            ++ "Fetch points attempt " ++ toString (retries + 1) ++ " failed: " ++ msg)) m1)
        split
        · have s3 := pageStep_trans s2 (pageStep_trans (pageStep_addLog _ H (chalkRed (tag (addLog H
            (chalkRed (tag m1 ++ "Fetch points attempt " ++ toString (retries + 1) ++ " failed: "
              ++ msg)) m1)
            ++ "Max retries for fetching points. Points set to \"-\".")) _)
            (pageStep_trans (pageStep_of_same _ rfl rfl)
              (pageStep_pageCall (.screenshot "error-fetchpoints") _ trivial)))
          cases E.fetchShot <;> exact s3
        · exact pageStep_trans s2 (ih _ _)
    · exact pageStep_refl _ m

theorem pageStep_fetchIpDirect (R : Effect → Prop) (H : Host) (E : Env) (m : NexusMiner) :
    PageStep R m (fetchIpDirect H E m) := by
  unfold fetchIpDirect
  dsimp only
  cases E.ipDirect with
  | ok ip => exact pageStep_of_same _ rfl rfl
  | error msg => exact pageStep_of_same _ rfl rfl

theorem pageStep_fetchIpAddress (R : Effect → Prop) (H : Host) (E : Env) (m : NexusMiner) :
    PageStep R m (fetchIpAddress H E m) := by
  unfold fetchIpAddress
  by_cases hp : m.proxy = "None"
  · simp only [hp, ne_eq, not_true_eq_false, if_false]
    exact pageStep_fetchIpDirect R H E m
  · simp only [hp, ne_eq, not_false_eq_true, if_true]
    have s1 : PageStep R m (emit (.httpGet "https://api.ipify.org?format=json"
        (some (parseProxy H m.proxy m).1)) (parseProxy H m.proxy m).2) :=
      pageStep_trans (pageStep_parseProxy _ H _ m) (pageStep_emit _ _ _)
    cases E.ipProxied with
    | ok ip => exact pageStep_trans s1 (pageStep_of_same _ rfl rfl)
    | error msg =>
      exact pageStep_trans s1 (pageStep_trans (pageStep_addLog _ H (chalkRed (tag (emit
        (.httpGet "https://api.ipify.org?format=json" (some (parseProxy H m.proxy m).1))
        (parseProxy H m.proxy m).2) ++ "Failed to fetch IP with proxy: " ++ msg)) _)
        (pageStep_fetchIpDirect R H E _))

theorem pageStep_startMiningFrom (H : Host) (E : Env) (fuel : Nat) :
    ∀ (retries : Nat) (found : Bool) (m : NexusMiner),
      PageStep (fun e => e = .evalToggle) m (startMiningFrom H E fuel retries found m) := by
  induction fuel with
  | zero => intro retries found m; exact pageStep_refl _ m
  | succ fuel ih =>
    intro retries found m
    rw [startMiningFrom]
    split
    · have s1 : PageStep (fun e => e = .evalToggle) m (pageCall .evalToggle m) :=
        pageStep_pageCall _ _ rfl
      have fail : ∀ msg : String, PageStep (fun e => e = .evalToggle) m
          (if retries + 1 = 3 then
            refreshDisplay
              { addLog H (chalkRed (tag (addLog H (chalkRed (tag (pageCall .evalToggle m)
                    ++ "Start mining attempt " ++ toString (retries + 1) ++ " failed: " ++ msg))
                    (pageCall .evalToggle m)) ++ "Max retries reached for start mining."))
                  (addLog H (chalkRed (tag (pageCall .evalToggle m) ++ "Start mining attempt "
                    ++ toString (retries + 1) ++ " failed: " ++ msg)) (pageCall .evalToggle m)) with
                userInfo :=
                  { (addLog H (chalkRed (tag (addLog H (chalkRed (tag (pageCall .evalToggle m)
                      ++ "Start mining attempt " ++ toString (retries + 1) ++ " failed: " ++ msg))
                      (pageCall .evalToggle m)) ++ "Max retries reached for start mining."))
                    (addLog H (chalkRed (tag (pageCall .evalToggle m) ++ "Start mining attempt "
                      ++ toString (retries + 1) ++ " failed: " ++ msg))
                      (pageCall .evalToggle m))).userInfo with status := "INACTIVE" } }
          else startMiningFrom H E fuel (retries + 1) found
            (addLog H (chalkRed (tag (pageCall .evalToggle m) ++ "Start mining attempt "
              ++ toString (retries + 1) ++ " failed: " ++ msg)) (pageCall .evalToggle m))) := by
        intro msg
        have s2 := pageStep_trans s1 (pageStep_addLog _ H (chalkRed (tag (pageCall .evalToggle m)
          ++ "Start mining attempt " ++ toString (retries + 1) ++ " failed: " ++ msg)) _)
        split
        · exact pageStep_trans s2 (pageStep_of_same _ rfl rfl)
        · exact pageStep_trans s2 (ih _ _ _)
      dsimp only
      cases E.toggle retries with
      | found wasOff =>
        dsimp only
        rw [startMiningFrom_found]
        exact pageStep_trans s1 (pageStep_of_same _ rfl rfl)
      | notFound => exact fail "Toggle button not found"
      | rejects msg => exact fail msg
    · exact pageStep_refl _ m

theorem pageStep_startMining (H : Host) (E : Env) (m : NexusMiner) :
    PageStep (fun e => e = .evalToggle) m (startMining H E m) := by
  unfold startMining
  split
  · exact pageStep_addLog _ H _ m
  · exact pageStep_trans (pageStep_addLog _ H _ m) (pageStep_startMiningFrom H E 3 0 false _)

theorem pageStep_stopMining (R : Effect → Prop) (H : Host) (m : NexusMiner) :
    PageStep R m (stopMining H m) := by
  unfold stopMining
  split
  · exact pageStep_addLog _ H _ m
  · refine pageStep_of_same _ ?_ ?_ <;>
      cases h1 : m.miningInterval <;> cases h2 : m.toggleCheckInterval <;>
      simp [h1, h2, addLog, clearInterval, refreshDisplay]

/-- With the proxy at `None`, the steps from `initPuppeteer` on make no call on
a page behind the proxy: they end in `initPuppeteer`, or go on in the page of
the browser it has launched without a `--proxy-server` argument. -/
theorem bootSession_page (H : Host) (E : Env) (m : NexusMiner) (hp : m.proxy = "None") :
    (bootSession H E m).2.proxiedCalls = m.proxiedCalls := by
  unfold bootSession
  obtain ⟨c1, q1⟩ := initPuppeteer_page H E m
  rcases h1 : initPuppeteer H E m with ⟨r1, m1⟩
  rw [h1] at c1 q1
  cases r1 with
  | error e => exact c1
  | ok u =>
    dsimp only
    have f1 : m1.pageProxied = false := q1 hp u rfl
    have s2 : PageStep (fun _ => True) m1 (loginWithRetry H E 3 m1).2 :=
      pageStep_loginWithRetryFrom H E 3 3 0 m1
    rcases h2 : loginWithRetry H E 3 m1 with ⟨r2, m2⟩
    rw [h2] at s2
    obtain ⟨f2, c2⟩ := pageStep_clean s2 f1
    cases r2 with
    | error e => exact c2.trans c1
    | ok u =>
      dsimp only
      have s3 : PageStep (fun _ => True) m2 (fetchUserInfo H E 4 m2).2 :=
        pageStep_fetchUserInfoFrom H E 4 4 0 m2
      rcases h3 : fetchUserInfo H E 4 m2 with ⟨r3, m3⟩
      rw [h3] at s3
      obtain ⟨f3, c3⟩ := pageStep_clean s3 f2
      cases r3 with
      | error e => exact (c3.trans c2).trans c1
      | ok u =>
        have c4 : (fetchIpAddress H E m3).proxiedCalls = m3.proxiedCalls :=
          pageStep_quiet (pageStep_fetchIpAddress _ H E m3)
        exact ((c4.trans c3).trans c2).trans c1

/-- A step that ends with the proxy at `None` when it began so. -/
theorem step_keeps_none {R : Effect → Prop} {m s : NexusMiner} (h : Step R m s)
    (hp : m.proxy = "None") : s.proxy = "None" := by
  rcases h.1 with ⟨a, _⟩ | ⟨a, _⟩
  · rw [a, hp]
  · exact a

theorem start_page (H : Host) (E : Env) (m : NexusMiner) (hp : m.proxy = "None") :
    (start H E m).2.proxiedCalls = m.proxiedCalls := by
  have s1 := step_connect H E m
  have q1 : PageStep (fun _ => False) m
      (if !(checkConnection H E 3 (addLog H (chalkCyan ("Booting account [" ++ toString m.id
          ++ "] session...")) m)).1 then
        { addLog H (chalkYellow (tag (checkConnection H E 3 (addLog H (chalkCyan
              ("Booting account [" ++ toString m.id ++ "] session...")) m)).2
              ++ "Initial connection check failed. Using direct connection..."))
            (checkConnection H E 3 (addLog H (chalkCyan ("Booting account [" ++ toString m.id
              ++ "] session...")) m)).2 with
          proxy := "None"
          userInfo := { (addLog H (chalkYellow (tag (checkConnection H E 3 (addLog H (chalkCyan
              ("Booting account [" ++ toString m.id ++ "] session...")) m)).2
              ++ "Initial connection check failed. Using direct connection..."))
            (checkConnection H E 3 (addLog H (chalkCyan ("Booting account [" ++ toString m.id
              ++ "] session...")) m)).2).userInfo with proxy := "None" } }
      else (checkConnection H E 3 (addLog H (chalkCyan ("Booting account [" ++ toString m.id
          ++ "] session...")) m)).2) := by
    have a := pageStep_trans (pageStep_addLog (fun _ => False) H
      (chalkCyan ("Booting account [" ++ toString m.id ++ "] session...")) m)
      (pageStep_checkConnectionFrom _ H E 3 3 0 _)
    split
    · exact pageStep_trans a (pageStep_of_same _ rfl rfl)
    · exact a
  unfold start
  dsimp only
  generalize (if !(checkConnection H E 3 (addLog H (chalkCyan ("Booting account ["
    ++ toString m.id ++ "] session...")) m)).1 then _ else _ : NexusMiner) = mc at s1 q1 ⊢
  have c1 := pageStep_quiet q1
  have c2 := bootSession_page H E mc (step_keeps_none s1 hp)
  rcases h : bootSession H E mc with ⟨r, m1⟩
  rw [h] at c2
  cases r with
  | error e => exact c2.trans c1
  | ok u => exact c2.trans c1

theorem refreshAccount_page (H : Host) (E : Env) (m : NexusMiner) (hp : m.proxy = "None") :
    ∃ u, (refreshAccount H E m).proxiedCalls = m.proxiedCalls ++ u
      ∧ ∀ e ∈ u, e = Effect.browserClose := by
  unfold refreshAccount
  dsimp only
  have s1 : Step (fun _ => True) m (closeBrowser H E (stopMining H (addLog H
      (chalkCyan (tag m ++ "Refreshing account...")) m))) :=
    step_trans (step_addLog _ H _ m) (step_trans (step_stopMining H _) (step_closeBrowser H E _))
  have c0 : (stopMining H (addLog H (chalkCyan (tag m ++ "Refreshing account...")) m)).proxiedCalls
      = m.proxiedCalls :=
    pageStep_quiet (pageStep_trans (pageStep_addLog _ H _ m) (pageStep_stopMining _ H _))
  obtain ⟨u, c1, hu⟩ := closeBrowser_page H E (stopMining H (addLog H
      (chalkCyan (tag m ++ "Refreshing account...")) m))
  rw [c0] at c1
  generalize closeBrowser H E (stopMining H (addLog H
      (chalkCyan (tag m ++ "Refreshing account...")) m)) = mc at s1 c1 ⊢
  have c2 := bootSession_page H E mc (step_keeps_none s1 hp)
  rcases h : bootSession H E mc with ⟨r, m1⟩
  rw [h] at c2
  cases r with
  | error e => exact ⟨u, c2.trans c1, hu⟩
  | ok v => exact ⟨u, c2.trans c1, hu⟩

/-- With the proxy at `None`, the calls that an operation makes on a page behind
the proxy are toggle evaluations and closing calls. -/
theorem run_page (H : Host) (op : Op) (m : NexusMiner) (hp : m.proxy = "None") :
    ∃ u, (op.run H m).proxiedCalls = m.proxiedCalls ++ u
      ∧ ∀ e ∈ u, e = Effect.evalToggle ∨ e = Effect.browserClose := by
  cases op with
  | start E => exact ⟨[], by simpa using start_page H E m hp, by simp⟩
  | refreshAccount E =>
    obtain ⟨u, c, hu⟩ := refreshAccount_page H E m hp
    exact ⟨u, c, fun e he => Or.inr (hu e he)⟩
  | startMining E =>
    obtain ⟨-, u, c, hu, -⟩ := pageStep_startMining H E m
    exact ⟨u, c, fun e he => Or.inl (hu e he)⟩
  | stopMining =>
    exact ⟨[], by simpa using pageStep_quiet (pageStep_stopMining _ H m), by simp⟩
  | closeBrowser E =>
    obtain ⟨u, c, hu⟩ := closeBrowser_page H E m
    exact ⟨u, c, fun e he => Or.inr (hu e he)⟩
  | fetchIpAddress E =>
    exact ⟨[], by simpa using pageStep_quiet (pageStep_fetchIpAddress _ H E m), by simp⟩

theorem runOps_page (H : Host) (ops : List Op) :
    ∀ m : NexusMiner, m.proxy = "None" →
      ∃ u, (runOps H ops m).proxiedCalls = m.proxiedCalls ++ u
        ∧ ∀ e ∈ u, e = Effect.evalToggle ∨ e = Effect.browserClose := by
  induction ops with
  | nil => intro m _; exact ⟨[], by simp [runOps], by simp⟩
  | cons op rest ih =>
    intro m hp
    obtain ⟨u1, c1, h1⟩ := run_page H op m hp
    obtain ⟨u2, c2, h2⟩ := ih (op.run H m) (step_keeps_none (step_run H op m) hp)
    refine ⟨u1 ++ u2, ?_, ?_⟩
    · show (runOps H rest (op.run H m)).proxiedCalls = _
      rw [c2, c1, List.append_assoc]
    · intro e he
      rcases List.mem_append.1 he with h | h
      · exact h1 e h
      · exact h2 e h

/-- C8, as the claim states it, fails: a session with a proxy starts through
it, so its page belongs to a browser launched with `--proxy-server`; a second
`start` whose connection check fails sets both proxy fields to `None`, and its
`initPuppeteer` throws when the launch is rejected, so `page` is still that
page; the `startMining` that follows evaluates (and clicks) the toggle in it:
a call on a page behind the proxy, made after the downgrade. -/
theorem startMining_behind_proxy_after_downgrade :
    (start sampleHost unreachableEnv (runOps sampleHost [.start sampleEnv] proxyMiner)).1
      = .error "Failed to launch the browser process"
    ∧ downgradedOnProxiedPage.proxy = "None"
    ∧ downgradedOnProxiedPage.userInfo.proxy = "None"
    ∧ downgradedOnProxiedPage.page = true
    ∧ downgradedOnProxiedPage.pageProxied = true
    ∧ downgradedOnProxiedPage.anonymizedProxy = some "http://127.0.0.1:8000"
    ∧ downgradedOnProxiedPage.trace.filter Effect.isLaunch
        = [.anonymize "http://user:pw@10.0.0.1:8080",
           .launch (baseArgs ++ ["--proxy-server=http://127.0.0.1:8000"]),
           .launch baseArgs]
    ∧ (runOps sampleHost [.startMining sampleEnv] downgradedOnProxiedPage).trace
        = downgradedOnProxiedPage.trace ++ [.evalToggle]
    ∧ (runOps sampleHost [.startMining sampleEnv] downgradedOnProxiedPage).proxiedCalls
        = downgradedOnProxiedPage.proxiedCalls ++ [.evalToggle] :=
  ⟨rfl, by decide, by decide, by decide, by decide, by decide, by decide, by decide, by decide⟩

/-- C8, amended: for a session as the constructor makes it and any calls of its
methods, once `proxy` is `None` (after the calls `before`), `userInfo.proxy` is
`None` too, both stay `None` after any further calls `after`, none of the
outside calls made during `after` names the proxy (no anonymisation request, no
request with a proxy configuration, no browser launch with a proxy server), and
the only calls made during `after` on a page of a browser that was launched
through the proxy are toggle evaluations of `startMining` and closing calls of
`closeBrowser`: no navigation, no login, no reading of points and no
screenshot is made on such a page. -/
theorem proxy_downgrade_monotonic (H : Host) (account : List (String × JSON)) (id : Nat)
    (proxy proxyIp : Option String) (before after : List Op)
    (h : (runOps H before (NexusMiner.new account id proxy proxyIp)).proxy = "None") :
    (runOps H before (NexusMiner.new account id proxy proxyIp)).userInfo.proxy = "None"
    ∧ (runOps H after (runOps H before (NexusMiner.new account id proxy proxyIp))).proxy = "None"
    ∧ (runOps H after (runOps H before (NexusMiner.new account id proxy proxyIp))).userInfo.proxy
        = "None"
    ∧ (∃ t, (runOps H after (runOps H before (NexusMiner.new account id proxy proxyIp))).trace
          = (runOps H before (NexusMiner.new account id proxy proxyIp)).trace ++ t
        ∧ ∀ e ∈ t, e.namesProxy = false)
    ∧ ∃ u, (runOps H after (runOps H before (NexusMiner.new account id proxy proxyIp))).proxiedCalls
          = (runOps H before (NexusMiner.new account id proxy proxyIp)).proxiedCalls ++ u
        ∧ ∀ e ∈ u, e = Effect.evalToggle ∨ e = Effect.browserClose := by
  obtain ⟨p1, -⟩ := step_runOps H before (NexusMiner.new account id proxy proxyIp)
  obtain ⟨p2, t, ht, -, hq⟩ := step_runOps H after
    (runOps H before (NexusMiner.new account id proxy proxyIp))
  have hu : (runOps H before (NexusMiner.new account id proxy proxyIp)).userInfo.proxy = "None" := by
    rcases p1 with ⟨a, b⟩ | ⟨_, b⟩
    · have hnew : (NexusMiner.new account id proxy proxyIp).userInfo.proxy
          = (NexusMiner.new account id proxy proxyIp).proxy := rfl
      rw [b, hnew, ← a, h]
    · exact b
  refine ⟨hu, ?_, ?_, ⟨t, ht, hq h⟩, runOps_page H after _ h⟩
  · rcases p2 with ⟨a, _⟩ | ⟨a, _⟩
    · rw [a, h]
    · exact a
  · rcases p2 with ⟨_, b⟩ | ⟨_, b⟩
    · rw [b, hu]
    · exact b

/-- C8, amended, at an instance: the session that was downgraded while its page
was behind the proxy, then a `startMining` and a refresh. -/
theorem proxy_downgrade_monotonic_witness :
    (runOps sampleHost [.start sampleEnv, .start unreachableEnv]
      (NexusMiner.new sampleAccount 1 (some "http://user:pw@10.0.0.1:8080") none)).proxy = "None"
    ∧ (runOps sampleHost [.startMining sampleEnv, .refreshAccount sampleEnv]
        (runOps sampleHost [.start sampleEnv, .start unreachableEnv]
          (NexusMiner.new sampleAccount 1 (some "http://user:pw@10.0.0.1:8080") none))).proxy = "None"
    ∧ ∃ u, (runOps sampleHost [.startMining sampleEnv, .refreshAccount sampleEnv]
          (runOps sampleHost [.start sampleEnv, .start unreachableEnv]
            (NexusMiner.new sampleAccount 1 (some "http://user:pw@10.0.0.1:8080") none))).proxiedCalls
          = (runOps sampleHost [.start sampleEnv, .start unreachableEnv]
            (NexusMiner.new sampleAccount 1 (some "http://user:pw@10.0.0.1:8080") none)).proxiedCalls
            ++ u
        ∧ ∀ e ∈ u, e = Effect.evalToggle ∨ e = Effect.browserClose :=
  have h := proxy_downgrade_monotonic sampleHost sampleAccount 1
    (some "http://user:pw@10.0.0.1:8080") none [.start sampleEnv, .start unreachableEnv]
    [.startMining sampleEnv, .refreshAccount sampleEnv] (by decide)
  ⟨by decide, h.2.1, h.2.2.2.2⟩

/-! ### The connection check -/

theorem sameButLog_refl (m : NexusMiner) : SameButLog m m := rfl

theorem sameButLog_trans {m s u : NexusMiner} (h1 : SameButLog m s) (h2 : SameButLog s u) :
    SameButLog m u := by
  unfold SameButLog at *
  rw [h2, h1]

theorem sameButLog_addLog (H : Host) (msg : String) (m : NexusMiner) :
    SameButLog m (addLog H msg m) := rfl

theorem sameButLog_emit (e : Effect) (m : NexusMiner) : SameButLog m (emit e m) := rfl

theorem sameButLog_parseProxy (H : Host) (p : String) (m : NexusMiner) :
    SameButLog m (parseProxy H p m).2 := by
  unfold parseProxy
  cases H.parseURL p <;> rfl

theorem sameButLog_checkConnectionFrom (H : Host) (E : Env) (maxRetries fuel : Nat) :
    ∀ (retries : Nat) (m : NexusMiner),
      SameButLog m (checkConnectionFrom H E maxRetries fuel retries m).2 := by
  induction fuel with
  | zero => intro retries m; rfl
  | succ fuel ih =>
    intro retries m
    rw [checkConnectionFrom]
    split
    · generalize hm1 : addLog H (chalkCyan (tag m ++ "Checking network connectivity (Attempt "
        ++ toString (retries + 1) ++ ")...")) m = m1
      have s1 : SameButLog m m1 := hm1 ▸ sameButLog_addLog H _ m
      have s2 : SameButLog m
          (emit (.httpGet "https://app.nexus.xyz/"
            (if m1.proxy ≠ "None" then ((parseProxy H m1.proxy m1).1 |> some, (parseProxy H m1.proxy m1).2)
              else (none, m1)).1)
            (if m1.proxy ≠ "None" then ((parseProxy H m1.proxy m1).1 |> some, (parseProxy H m1.proxy m1).2)
              else (none, m1)).2) := by
        refine sameButLog_trans s1 (sameButLog_trans ?_ (sameButLog_emit _ _))
        split
        · exact sameButLog_parseProxy H _ _
        · rfl
      dsimp only
      cases E.net retries with
      | none => exact sameButLog_trans s2 (sameButLog_addLog H _ _)
      | some msg =>
        dsimp only
        split
        · exact sameButLog_trans s2 (sameButLog_addLog H _ _)
        · exact sameButLog_trans (sameButLog_trans s2 (sameButLog_addLog H _ _)) (ih _ _)
    · rfl

/-- The state after the request of one pass of `checkConnection`: one more
outside call, a request to the service root. -/
theorem probe_trace (H : Host) (m1 : NexusMiner) :
    (emit (.httpGet "https://app.nexus.xyz/"
        (if m1.proxy ≠ "None" then ((parseProxy H m1.proxy m1).1 |> some, (parseProxy H m1.proxy m1).2)
          else (none, m1)).1)
        (if m1.proxy ≠ "None" then ((parseProxy H m1.proxy m1).1 |> some, (parseProxy H m1.proxy m1).2)
          else (none, m1)).2).trace
      = m1.trace ++ [.httpGet "https://app.nexus.xyz/"
        (if m1.proxy ≠ "None" then some (parseProxy H m1.proxy m1).1 else none)] := by
  have hp : (parseProxy H m1.proxy m1).2.trace = m1.trace := by
    have := sameButLog_parseProxy H m1.proxy m1
    unfold parseProxy at *
    cases H.parseURL m1.proxy <;> rfl
  by_cases h : m1.proxy = "None"
  · simp [h, emit]
  · simp [h, emit, hp]

theorem checkConnectionFrom_spec (H : Host) (E : Env) (maxRetries fuel : Nat) :
    ∀ (retries : Nat) (m : NexusMiner), retries + fuel = maxRetries →
      (∀ i, retries ≤ i → i < maxRetries → E.net i = none →
        (∀ j, retries ≤ j → j < i → E.net j ≠ none) →
        (checkConnectionFrom H E maxRetries fuel retries m).1 = true
        ∧ ∃ t, (checkConnectionFrom H E maxRetries fuel retries m).2.trace = m.trace ++ t
            ∧ t.length = i + 1 - retries ∧ ∀ e ∈ t, e.isProbe = true)
      ∧ ((∀ i, retries ≤ i → i < maxRetries → E.net i ≠ none) →
        (checkConnectionFrom H E maxRetries fuel retries m).1 = false
        ∧ ∃ t, (checkConnectionFrom H E maxRetries fuel retries m).2.trace = m.trace ++ t
            ∧ t.length = maxRetries - retries ∧ ∀ e ∈ t, e.isProbe = true) := by
  induction fuel with
  | zero =>
    intro retries m hr
    refine ⟨fun i h1 h2 => by omega, fun _ => ⟨rfl, [], by simp [checkConnectionFrom], by simp; omega,
      by simp⟩⟩
  | succ fuel ih =>
    intro retries m hr
    have hlt : retries < maxRetries := by omega
    rw [checkConnectionFrom]
    simp only [hlt, if_true]
    generalize hm1 : addLog H (chalkCyan (tag m ++ "Checking network connectivity (Attempt "
        ++ toString (retries + 1) ++ ")...")) m = m1
    have ht1 : m1.trace = m.trace := by rw [← hm1]; rfl
    have hreq := probe_trace H m1
    generalize hm2 : (emit (.httpGet "https://app.nexus.xyz/"
        (if m1.proxy ≠ "None" then ((parseProxy H m1.proxy m1).1 |> some, (parseProxy H m1.proxy m1).2)
          else (none, m1)).1)
        (if m1.proxy ≠ "None" then ((parseProxy H m1.proxy m1).1 |> some, (parseProxy H m1.proxy m1).2)
          else (none, m1)).2) = m2 at hreq ⊢
    rw [ht1] at hreq
    cases hn : E.net retries with
    | none =>
      dsimp only
      refine ⟨fun i h1 h2 h3 h4 => ⟨by simp, _, hreq, ?_, by simp [Effect.isProbe]⟩, fun hall => ?_⟩
      · have : i = retries := by
          by_contra hne
          exact h4 retries (le_refl _) (by omega) hn
        simp [this]
      · exact absurd hn (hall retries (le_refl _) hlt)
    | some msg =>
      dsimp only
      by_cases hlast : retries + 1 = maxRetries
      · simp only [hlast, if_true]
        refine ⟨fun i h1 h2 h3 h4 => ?_, fun _ => ⟨by simp, _, hreq, by simp; omega,
          by simp [Effect.isProbe]⟩⟩
        have : i = retries := by omega
        rw [this, hn] at h3
        cases h3
      · simp only [hlast, if_false]
        obtain ⟨ih1, ih2⟩ := ih (retries + 1) (addLog H (chalkRed (tag m2
          ++ "Network connection attempt " ++ toString (retries + 1) ++ " failed: " ++ msg)) m2)
          (by omega)
        have hlog : (addLog H (chalkRed (tag m2 ++ "Network connection attempt "
            ++ toString (retries + 1) ++ " failed: " ++ msg)) m2).trace = m2.trace := rfl
        constructor
        · intro i h1 h2 h3 h4
          have hi : retries + 1 ≤ i := by
            rcases Nat.lt_or_ge retries i with h | h
            · exact h
            · have : i = retries := by omega
              rw [this, hn] at h3
              cases h3
          obtain ⟨r, t, ht, hl, hp⟩ := ih1 i hi h2 h3 (fun j hj1 hj2 => h4 j (by omega) hj2)
          refine ⟨r, _ :: t, by rw [ht, hlog, hreq, List.append_assoc]; rfl, by simp [hl]; omega, ?_⟩
          intro e he
          rcases List.mem_cons.1 he with h | h
          · rw [h]; rfl
          · exact hp e h
        · intro hall
          obtain ⟨r, t, ht, hl, hp⟩ := ih2 (fun i h1 h2 => hall i (by omega) h2)
          refine ⟨r, _ :: t, by rw [ht, hlog, hreq, List.append_assoc]; rfl, by simp [hl]; omega, ?_⟩
          intro e he
          rcases List.mem_cons.1 he with h | h
          · rw [h]; rfl
          · exact hp e h

/-- C7: `checkConnection` is a total function to a boolean (every call that can
throw sits in its `try`), for every `maxRetries` and all answers of the network
and of the proxy parser.  It returns `true` iff one of the first `maxRetries`
requests succeeds; when the first success is at request `i + 1` it has made
exactly `i + 1` requests; when none succeeds it returns `false` after exactly
`maxRetries` requests; and the session differs afterwards at most in the log
(with its clock count) and the record of the requests. -/
theorem checkConnection_total (H : Host) (E : Env) (maxRetries : Nat) (m : NexusMiner) :
    ((checkConnection H E maxRetries m).1 = true ↔ ∃ i, i < maxRetries ∧ E.net i = none)
    ∧ (∀ i, i < maxRetries → E.net i = none → (∀ j, j < i → E.net j ≠ none) →
        (checkConnection H E maxRetries m).1 = true
        ∧ ∃ t, (checkConnection H E maxRetries m).2.trace = m.trace ++ t
            ∧ t.length = i + 1 ∧ ∀ e ∈ t, e.isProbe = true)
    ∧ ((∀ i, i < maxRetries → E.net i ≠ none) →
        (checkConnection H E maxRetries m).1 = false
        ∧ ∃ t, (checkConnection H E maxRetries m).2.trace = m.trace ++ t
            ∧ t.length = maxRetries ∧ ∀ e ∈ t, e.isProbe = true)
    ∧ (checkConnection H E maxRetries m).2
        = { m with logs := (checkConnection H E maxRetries m).2.logs
                   clockReads := (checkConnection H E maxRetries m).2.clockReads
                   trace := (checkConnection H E maxRetries m).2.trace } := by
  obtain ⟨h1, h2⟩ := checkConnectionFrom_spec H E maxRetries maxRetries 0 m (by omega)
  have first : ∀ i, i < maxRetries → E.net i = none → (∀ j, j < i → E.net j ≠ none) →
      (checkConnection H E maxRetries m).1 = true
      ∧ ∃ t, (checkConnection H E maxRetries m).2.trace = m.trace ++ t
          ∧ t.length = i + 1 ∧ ∀ e ∈ t, e.isProbe = true := by
    intro i hi hs hj
    simpa [checkConnection] using h1 i (Nat.zero_le _) hi hs (fun j _ hji => hj j hji)
  have never : (∀ i, i < maxRetries → E.net i ≠ none) →
      (checkConnection H E maxRetries m).1 = false
      ∧ ∃ t, (checkConnection H E maxRetries m).2.trace = m.trace ++ t
          ∧ t.length = maxRetries ∧ ∀ e ∈ t, e.isProbe = true := by
    intro hall
    simpa [checkConnection] using h2 (fun i _ hi => hall i hi)
  refine ⟨⟨fun ht => ?_, fun hex => ?_⟩, first, never, sameButLog_checkConnectionFrom H E _ _ 0 m⟩
  · by_contra hno
    have hall : ∀ i, i < maxRetries → E.net i ≠ none := fun i hi hs => hno ⟨i, hi, hs⟩
    rw [(never hall).1] at ht
    cases ht
  · classical
    have hmin := Nat.find_spec hex
    exact (first (Nat.find hex) hmin.1 hmin.2 (fun j hj hs =>
      Nat.find_min hex hj ⟨lt_trans hj hmin.1, hs⟩)).1

/-- C7, at an instance: two requests fail and the third succeeds, through a
proxy string that the `URL` constructor rejects. -/
theorem checkConnection_total_witness :
    (checkConnection sampleHost
        { sampleEnv with net := fun i => if i < 2 then some "timeout" else none } 3
        (NexusMiner.new sampleAccount 1 (some "not a url") none)).1 = true
    ∧ ∃ t, (checkConnection sampleHost
        { sampleEnv with net := fun i => if i < 2 then some "timeout" else none } 3
        (NexusMiner.new sampleAccount 1 (some "not a url") none)).2.trace
          = (NexusMiner.new sampleAccount 1 (some "not a url") none).trace ++ t
        ∧ t.length = 2 + 1 ∧ ∀ e ∈ t, e.isProbe = true :=
  (checkConnection_total sampleHost
    { sampleEnv with net := fun i => if i < 2 then some "timeout" else none } 3
    (NexusMiner.new sampleAccount 1 (some "not a url") none)).2.1 2 (by decide) (by decide)
    (by decide)

/-! ### Login retries -/

theorem miningState_of_sameButLog {m s : NexusMiner} (h : SameButLog m s) :
    miningState s = miningState m := by
  unfold SameButLog at h
  rw [h]
  rfl

theorem sameButCalls_refl (m : NexusMiner) : SameButCalls m m := rfl

theorem sameButCalls_trans {m s u : NexusMiner} (h1 : SameButCalls m s) (h2 : SameButCalls s u) :
    SameButCalls m u := by
  unfold SameButCalls at *
  rw [h2, h1]

theorem sameButCalls_addLog (H : Host) (msg : String) (m : NexusMiner) :
    SameButCalls m (addLog H msg m) := rfl

theorem sameButCalls_pageCall (e : Effect) (m : NexusMiner) : SameButCalls m (pageCall e m) := rfl

theorem miningState_of_sameButCalls {m s : NexusMiner} (h : SameButCalls m s) :
    miningState s = miningState m := by
  unfold SameButCalls at h
  rw [h]
  rfl

theorem loginAttempt_goto (H : Host) (a : LoginAttempt) (m : NexusMiner) :
    (loginAttempt H a m).2.trace.count .goto = m.trace.count .goto + 1
    ∧ SameButCalls m (loginAttempt H a m).2
    ∧ (a.fails = true → ∃ msg, (loginAttempt H a m).1 = .error msg) := by
  unfold loginAttempt LoginAttempt.fails
  cases hg : a.goto with
  | some msg => simp [emit, pageCall, addLog, SameButCalls]
  | none =>
    cases hb : blockDetected a.content with
    | true => cases hs : a.shot <;> simp [emit, pageCall, addLog, SameButCalls]
    | false =>
      cases hi : a.inject with
      | some msg => simp [emit, pageCall, addLog, SameButCalls]
      | none =>
        cases hd : a.dashboard with
        | true => simp [emit, pageCall, addLog, SameButCalls]
        | false => cases hs : a.shot <;> simp [emit, pageCall, addLog, SameButCalls]

theorem loginWithRetryFrom_exhausted (H : Host) (E : Env) (maxRetries fuel : Nat) :
    ∀ (retries : Nat) (m : NexusMiner), retries + fuel = maxRetries →
      SameButCalls m (loginWithRetryFrom H E maxRetries fuel retries m).2
      ∧ (0 < fuel → (∀ i, retries ≤ i → i < maxRetries → (E.login i).fails = true) →
        (∃ msg, (loginWithRetryFrom H E maxRetries fuel retries m).1 = .error msg)
        ∧ (loginWithRetryFrom H E maxRetries fuel retries m).2.trace.count .goto
            = m.trace.count .goto + (maxRetries - retries)) := by
  induction fuel with
  | zero => intro retries m _; exact ⟨rfl, fun h => absurd h (lt_irrefl 0)⟩
  | succ fuel ih =>
    intro retries m hr
    have hlt : retries < maxRetries := by omega
    rw [loginWithRetryFrom]
    simp only [hlt, if_true]
    obtain ⟨hc, hs, hf⟩ := loginAttempt_goto H (E.login retries) m
    rcases hat : loginAttempt H (E.login retries) m with ⟨r, m1⟩
    rw [hat] at hc hs hf
    cases r with
    | ok u =>
      refine ⟨hs, fun _ hall => ?_⟩
      obtain ⟨msg, hmsg⟩ := hf (hall retries (le_refl _) hlt)
      cases hmsg
    | error msg =>
      dsimp only
      by_cases hlast : retries + 1 = maxRetries
      · simp only [hlast, if_true]
        have hsame : ∀ r : Except String Unit, SameButCalls m
            (r, pageCall (.screenshot "error-login") (addLog H (chalkRed (tag (addLog H (chalkRed
              (tag m1 ++ "Login attempt " ++ toString maxRetries ++ " failed: " ++ msg)) m1)
              ++ "Max login retries reached. Please check token or network."))
              (addLog H (chalkRed (tag m1 ++ "Login attempt " ++ toString maxRetries
                ++ " failed: " ++ msg)) m1))).2 := fun _ => sameButCalls_trans hs rfl
        cases E.loginShot with
        | none =>
          refine ⟨hsame (.ok ()), fun _ _ => ⟨⟨_, rfl⟩, ?_⟩⟩
          simp only [emit, pageCall, addLog] at hc ⊢
          simp [hc]; omega
        | some e =>
          refine ⟨hsame (.ok ()), fun _ _ => ⟨⟨_, rfl⟩, ?_⟩⟩
          simp only [emit, pageCall, addLog] at hc ⊢
          simp [hc]; omega
      · simp only [hlast, if_false]
        obtain ⟨ih1, ih2⟩ := ih (retries + 1) (addLog H (chalkYellow (tag (addLog H (chalkRed
          (tag m1 ++ "Login attempt " ++ toString (retries + 1) ++ " failed: " ++ msg)) m1)
          ++ "Retrying login...")) (addLog H (chalkRed (tag m1 ++ "Login attempt "
          ++ toString (retries + 1) ++ " failed: " ++ msg)) m1)) (by omega)
        refine ⟨sameButCalls_trans hs (sameButCalls_trans (sameButCalls_trans (sameButCalls_addLog H _ m1)
          (sameButCalls_addLog H _ _)) ih1), fun _ hall => ?_⟩
        obtain ⟨he, hcount⟩ := ih2 (by omega) (fun i h1 h2 => hall i (by omega) h2)
        refine ⟨he, ?_⟩
        rw [hcount]
        simp only [addLog] at hc ⊢
        rw [hc]; omega

theorem count_goto_of_step {R : Effect → Prop} {m s : NexusMiner} (h : Step R m s)
    (hR : ∀ e, R e → e ≠ .goto) : s.trace.count .goto = m.trace.count .goto := by
  obtain ⟨-, t, ht, hr, -⟩ := h
  rw [ht, List.count_append]
  have : t.count .goto = 0 := List.count_eq_zero.2 (fun hmem => hR _ (hr _ hmem) rfl)
  omega

theorem miningState_prepareLaunch (H : Host) (E : Env) (m : NexusMiner) :
    miningState (prepareLaunch H E m).2 = miningState m := by
  unfold prepareLaunch
  split
  · cases E.anonymize <;> rfl
  · rfl

theorem initPuppeteer_facts (H : Host) (E : Env) (m : NexusMiner) :
    miningState (initPuppeteer H E m).2 = miningState m
    ∧ (initPuppeteer H E m).1 = (match E.launch with
        | .ok => .ok ()
        | .launchFails msg => .error msg
        | .pageFails msg => .error msg
        | .setupFails msg => .error msg) := by
  have h := miningState_prepareLaunch H E m
  unfold initPuppeteer
  cases E.launch <;> exact ⟨h, rfl⟩

/-- The state of `start` before `initPuppeteer` keeps the mining fields. -/
theorem miningState_connect (H : Host) (E : Env) (m : NexusMiner) :
    miningState
      (if !(checkConnection H E 3 (addLog H (chalkCyan ("Booting account [" ++ toString m.id
          ++ "] session...")) m)).1 then
        { addLog H (chalkYellow (tag (checkConnection H E 3 (addLog H (chalkCyan
              ("Booting account [" ++ toString m.id ++ "] session...")) m)).2
              ++ "Initial connection check failed. Using direct connection..."))
            (checkConnection H E 3 (addLog H (chalkCyan ("Booting account [" ++ toString m.id
              ++ "] session...")) m)).2 with
          proxy := "None"
          userInfo := { (addLog H (chalkYellow (tag (checkConnection H E 3 (addLog H (chalkCyan
              ("Booting account [" ++ toString m.id ++ "] session...")) m)).2
              ++ "Initial connection check failed. Using direct connection..."))
            (checkConnection H E 3 (addLog H (chalkCyan ("Booting account [" ++ toString m.id
              ++ "] session...")) m)).2).userInfo with proxy := "None" } }
      else (checkConnection H E 3 (addLog H (chalkCyan ("Booting account [" ++ toString m.id
          ++ "] session...")) m)).2) = miningState m := by
  have h : miningState (checkConnection H E 3 (addLog H (chalkCyan ("Booting account ["
      ++ toString m.id ++ "] session...")) m)).2 = miningState m :=
    miningState_of_sameButLog (sameButLog_trans (sameButLog_addLog H _ m)
      (sameButLog_checkConnectionFrom H E 3 3 0 _))
  split
  · exact h
  · exact h

/-- C4: if each of the three passes of `loginWithRetry` fails, the method makes
exactly three attempts (three navigations) and throws; `start` then throws as
well, makes none of the outside calls of the stat fetch or of the IP fetch (its
only navigations are the three of the login, when the browser came up at all),
and leaves the timers, `miningInterval`, `isMining`, the points and the IP of
the session as they were. -/
theorem login_exhausted_is_fatal (H : Host) (E : Env) (m : NexusMiner)
    (hall : ∀ i, i < 3 → (E.login i).fails = true) :
    (∃ msg, (loginWithRetry H E 3 m).1 = .error msg)
    ∧ (loginWithRetry H E 3 m).2.trace.count .goto = m.trace.count .goto + 3
    ∧ (∃ msg, (start H E m).1 = .error msg)
    ∧ (∃ t, (start H E m).2.trace = m.trace ++ t ∧ ∀ e ∈ t, e.isFetchOnly = false)
    ∧ (start H E m).2.trace.count .goto
        = m.trace.count .goto + (match E.launch with | .ok => 3 | _ => 0)
    ∧ (start H E m).2.timers = m.timers
    ∧ (start H E m).2.miningInterval = m.miningInterval
    ∧ (start H E m).2.isMining = m.isMining
    ∧ (start H E m).2.userInfo.points = m.userInfo.points
    ∧ (start H E m).2.userInfo.ip = m.userInfo.ip := by
  have login : ∀ s : NexusMiner, (∃ msg, (loginWithRetry H E 3 s).1 = .error msg)
      ∧ (loginWithRetry H E 3 s).2.trace.count .goto = s.trace.count .goto + 3
      ∧ SameButCalls s (loginWithRetry H E 3 s).2 := by
    intro s
    obtain ⟨h1, h2⟩ := loginWithRetryFrom_exhausted H E 3 3 0 s (by omega)
    obtain ⟨h3, h4⟩ := h2 (by omega) (fun i _ hi => hall i hi)
    exact ⟨h3, h4, h1⟩
  have quiet : ∀ e : Effect, (e.isProbe = true ∨ e.isLaunch = true ∨ e.isLogin = true) →
      e.isFetchOnly = false := by
    intro e he
    cases e with
    | screenshot name =>
      simp only [Effect.isProbe, Effect.isLaunch, Effect.isLogin, Effect.isFetchOnly] at he ⊢
      by_contra hc
      have hn : name = "error-fetchpoints" := by simpa using hc
      subst hn
      revert he
      decide
    | httpGet url cfg =>
      simp only [Effect.isProbe, Effect.isLaunch, Effect.isLogin, Effect.isFetchOnly] at he ⊢
      by_contra hc
      have hn : url = "https://api.ipify.org?format=json" := by simpa using hc
      subst hn
      revert he
      decide
    | _ => simp_all [Effect.isProbe, Effect.isLaunch, Effect.isLogin, Effect.isFetchOnly]
  -- the state before `initPuppeteer`
  have c1 := step_connect H E m
  have c2 := miningState_connect H E m
  -- the whole of `start`
  have main : (∃ msg, (start H E m).1 = .error msg)
      ∧ Step (fun e => e.isProbe = true ∨ e.isLaunch = true ∨ e.isLogin = true) m (start H E m).2
      ∧ (start H E m).2.trace.count .goto
          = m.trace.count .goto + (match E.launch with | .ok => 3 | _ => 0)
      ∧ miningState (start H E m).2 = miningState m := by
    unfold start
    dsimp only
    generalize (if !(checkConnection H E 3 (addLog H (chalkCyan ("Booting account ["
      ++ toString m.id ++ "] session...")) m)).1 then _ else _ : NexusMiner) = mc at c1 c2 ⊢
    have g1 := count_goto_of_step c1 (by intro e he h; rw [h] at he; cases he)
    have i1 := step_initPuppeteer H E mc
    have g2 := count_goto_of_step i1 (by intro e he h; rw [h] at he; cases he)
    obtain ⟨i2, i3⟩ := initPuppeteer_facts H E mc
    unfold bootSession
    rcases hi : initPuppeteer H E mc with ⟨r1, m1⟩
    rw [hi] at i1 g2 i2 i3
    have s1 : Step (fun e => e.isProbe = true ∨ e.isLaunch = true ∨ e.isLogin = true) m m1 :=
      step_trans (step_mono (fun _ h => Or.inl h) c1) (step_mono (fun _ h => Or.inr (Or.inl h)) i1)
    cases r1 with
    | error e =>
      refine ⟨⟨e, rfl⟩, s1, ?_, i2.trans c2⟩
      dsimp only at i3 g2 ⊢
      cases hl : E.launch <;> rw [hl] at i3 <;> simp_all
    | ok u =>
      dsimp only
      obtain ⟨⟨msg, l1⟩, l2, l3⟩ := login m1
      rcases hlog : loginWithRetry H E 3 m1 with ⟨r2, m2⟩
      rw [hlog] at l1 l2 l3
      have l4 : Step (fun e => e.isLogin = true) m1 m2 := by
        have := step_loginWithRetryFrom H E 3 3 0 m1
        rw [show loginWithRetryFrom H E 3 3 0 m1 = (r2, m2) from hlog] at this
        exact this
      dsimp only at l1
      subst l1
      refine ⟨⟨msg, rfl⟩, step_trans s1 (step_mono (fun _ h => Or.inr (Or.inr h)) l4), ?_,
        ((miningState_of_sameButCalls l3).trans i2).trans c2⟩
      dsimp only at i3 g2 l2 ⊢
      cases hl : E.launch <;> rw [hl] at i3 <;> simp_all
  obtain ⟨m1, ⟨-, t, ht, hr, -⟩, m3, m4⟩ := main
  simp only [miningState, Prod.mk.injEq] at m4
  exact ⟨(login m).1, (login m).2.1, m1, ⟨t, ht, fun e he => quiet e (hr e he)⟩, m3,
    m4.1, m4.2.2.1, m4.2.2.2.2.1, m4.2.2.2.2.2.1, m4.2.2.2.2.2.2⟩

/-- C4, at an instance: no dashboard element appears on any of the three passes. -/
theorem login_exhausted_is_fatal_witness :
    (start sampleHost { sampleEnv with login := fun _ => loginNoDashboard } sampleMiner).1
      = .error "Login failed after maximum retries"
    ∧ (start sampleHost { sampleEnv with login := fun _ => loginNoDashboard } sampleMiner).2.timers
      = sampleMiner.timers :=
  ⟨rfl, (login_exhausted_is_fatal sampleHost
    { sampleEnv with login := fun _ => loginNoDashboard } sampleMiner
    (fun _ _ => rfl)).2.2.2.2.2.1⟩

/-! ### Errors that leave `fetchUserInfo` and `runAutomation` -/

theorem readPoints_goto (texts : String → Option String) (sels : List String) :
    ∀ (points : String) (m : NexusMiner),
      (readPoints texts sels points m).2.trace.count .goto = m.trace.count .goto := by
  intro points m
  exact count_goto_of_step (R := fun e => ∃ sel, e = .readText sel)
    (by
      induction sels generalizing points m with
      | nil => exact step_refl _ m
      | cons sel rest ih =>
        rw [readPoints]
        have s1 : Step (fun e => ∃ sel, e = .readText sel) m (pageCall (.readText sel) m) :=
          step_emit _ _ ⟨sel, rfl⟩ (fun _ => rfl)
        cases texts sel with
        | none => exact step_trans s1 (ih _ _)
        | some t =>
          dsimp only
          split
          · exact s1
          · exact step_trans s1 (ih _ _))
    (by rintro e ⟨sel, rfl⟩ h; cases h)

theorem fetchAttempt_goto (H : Host) (a : FetchAttempt) (m : NexusMiner) :
    (fetchAttempt H a m).2.trace.count .goto = m.trace.count .goto + 1
    ∧ ((∀ s, a.fails s = true) → ∃ msg, (fetchAttempt H a m).1 = .error msg) := by
  unfold fetchAttempt
  dsimp only
  cases hg : a.goto with
  | some msg => simp [emit, pageCall, addLog]
  | none =>
    dsimp only
    have hc := readPoints_goto a.texts pointsSelectors "-"
      (pageCall .goto (addLog H (chalkCyan (tag m ++ "Fetching user points...")) m))
    have hc2 : (pageCall .goto (addLog H (chalkCyan (tag m ++ "Fetching user points...")) m)).trace.count
        .goto = m.trace.count .goto + 1 := by simp [emit, pageCall, addLog]
    split
    · exact ⟨by rw [hc, hc2], fun _ => ⟨_, rfl⟩⟩
    · rename_i hne
      refine ⟨(show (addLog H _ _).trace.count .goto = _ from hc.trans hc2), fun hf => ?_⟩
      have := hf (pageCall .goto (addLog H (chalkCyan (tag m ++ "Fetching user points...")) m))
      simp only [FetchAttempt.fails, hg, Option.isSome_none, Bool.false_or, beq_iff_eq] at this
      exact absurd this hne

/-- When every pass of `fetchUserInfo` fails: as many navigations as passes, the
points end as `-`, and the method returns normally exactly when the screenshot
after the last pass resolves. -/
theorem fetchUserInfoFrom_exhausted (H : Host) (E : Env) (maxRetries fuel : Nat) :
    ∀ (retries : Nat) (m : NexusMiner), retries + fuel = maxRetries → 0 < fuel →
      (∀ i, retries ≤ i → i < maxRetries → ∀ s, (E.fetch i).fails s = true) →
      (fetchUserInfoFrom H E maxRetries fuel retries m).2.trace.count .goto
          = m.trace.count .goto + (maxRetries - retries)
      ∧ (fetchUserInfoFrom H E maxRetries fuel retries m).2.userInfo.points = "-"
      ∧ (fetchUserInfoFrom H E maxRetries fuel retries m).1
          = (match E.fetchShot with
            | some e => .error e
            | none => .ok ()) := by
  induction fuel with
  | zero => intro retries m _ h; exact absurd h (lt_irrefl 0)
  | succ fuel ih =>
    intro retries m hr _ hall
    have hlt : retries < maxRetries := by omega
    rw [fetchUserInfoFrom]
    simp only [hlt, if_true]
    obtain ⟨hc, hf⟩ := fetchAttempt_goto H (E.fetch retries) m
    rcases hat : fetchAttempt H (E.fetch retries) m with ⟨r, m1⟩
    rw [hat] at hc hf
    cases r with
    | ok u =>
      obtain ⟨msg, hmsg⟩ := hf (hall retries (le_refl _) hlt)
      cases hmsg
    | error msg =>
      dsimp only at hc ⊢
      by_cases hlast : retries + 1 = maxRetries
      · simp only [hlast, if_true]
        cases E.fetchShot with
        | none =>
          refine ⟨?_, rfl, rfl⟩
          simp only [refreshDisplay, emit, pageCall, addLog]
          simp [hc]; omega
        | some e =>
          refine ⟨?_, rfl, rfl⟩
          simp only [emit, pageCall, addLog]
          simp [hc]; omega
      · simp only [hlast, if_false]
        obtain ⟨h1, h2, h3⟩ := ih (retries + 1) (addLog H (chalkRed (tag m1
          ++ "Fetch points attempt " ++ toString (retries + 1) ++ " failed: " ++ msg)) m1)
          (by omega) (by omega) (fun i hi1 hi2 => hall i (by omega) hi2)
        refine ⟨?_, h2, h3⟩
        rw [h1]
        simp only [addLog]
        rw [hc]; omega

/-- C5: on a session whose browser is up, with no points element on any of the
four passes and a final screenshot that rejects, `fetchUserInfo` makes four
attempts and sets the points to `-`, but then throws the rejection of the
screenshot; `start` with the same answers throws it too, so it does not reach
the IP fetch or its last log line. -/
theorem fetchUserInfo_throws_on_screenshot_failure :
    (fetchUserInfo sampleHost screenshotFailsEnv 4 (initPuppeteer sampleHost sampleEnv sampleMiner).2).1
      = .error "Protocol error (Page.captureScreenshot): Target closed"
    ∧ (fetchUserInfo sampleHost screenshotFailsEnv 4
        (initPuppeteer sampleHost sampleEnv sampleMiner).2).2.trace.count .goto = 4
    ∧ (fetchUserInfo sampleHost screenshotFailsEnv 4
        (initPuppeteer sampleHost sampleEnv sampleMiner).2).2.userInfo.points = "-"
    ∧ (∀ i, i < 4 → (screenshotFailsEnv.fetch i).fails sampleMiner = true)
    ∧ (start sampleHost screenshotFailsEnv sampleMiner).1
      = .error "Protocol error (Page.captureScreenshot): Target closed"
    ∧ (start sampleHost screenshotFailsEnv sampleMiner).2.userInfo.ip = "Unknown"
    ∧ (start sampleHost screenshotFailsEnv sampleMiner).2.logs.getLast?
      = some "[14] \x1b[31m[1] Max retries for fetching points. Points set to \"-\".\x1b[39m" := by
  refine ⟨rfl, by decide, by decide, by decide, rfl, by decide, by decide⟩

/-- C6: the batch "start all" over two sessions, where the login of the first
fails three times: `runAutomation` throws the login error, the second session
is not started (it is as the constructor left it: no log line, no outside
call), and the last line in the first session's log is the one of the login
failure and no line holds the end marker of the batch; when every call
succeeds the same batch returns normally. -/
theorem runAutomation_throws_on_failed_start :
    (runAutomation sampleHost failFirstEnvs 1 [sampleMiner, secondMiner]).1
      = .error "Login failed after maximum retries"
    ∧ ((runAutomation sampleHost failFirstEnvs 1 [sampleMiner, secondMiner]).2.map
        (fun s => (s.id, s.logs.length, s.trace.length, s.browser))).get? 1
      = some (2, 0, 0, false)
    ∧ ((runAutomation sampleHost failFirstEnvs 1 [sampleMiner, secondMiner]).2.head?.bind
        (fun s => s.logs.getLast?))
      = some "[18] \x1b[31m[1] Max login retries reached. Please check token or network.\x1b[39m"
    ∧ (∀ line ∈ ((runAutomation sampleHost failFirstEnvs 1 [sampleMiner, secondMiner]).2.map
            (fun s => s.logs)).flatten, includes line "ALL ACCOUNTS STARTED" = false)
    ∧ (runAutomation sampleHost (fun _ => sampleEnv) 1 [sampleMiner, secondMiner]).1 = .ok () := by
  refine ⟨rfl, by decide, by decide, by decide, rfl⟩

/-! ### Loading the accounts and creating the sessions -/

theorem checkAccount_error_iff (record : JSON) :
    (∃ e, checkAccount record = .error e)
      ↔ requiredKeys.any (fun key => missingOrFalsy record key) = true := by
  cases record with
  | obj fields =>
    simp only [checkAccount, requiredKeys, missingOrFalsy, ownFields, List.any_cons, List.any_nil,
      Bool.or_false]
    cases fieldTruthy fields "address" <;> cases fieldTruthy fields "auth_token" <;>
      cases fieldTruthy fields "min_auth_token" <;> simp
  | _ => simp [checkAccount, requiredKeys, missingOrFalsy, ownFields, fieldTruthy, getField]

theorem checkAccounts_error_iff (items : List JSON) :
    (∃ e, checkAccounts items = .error e)
      ↔ items.any (fun record => requiredKeys.any (fun key => missingOrFalsy record key)) = true := by
  induction items with
  | nil => simp [checkAccounts]
  | cons r rest ih =>
    rw [checkAccounts, List.any_cons, Bool.or_eq_true, ← ih, ← checkAccount_error_iff]
    cases h : checkAccount r with
    | error e => simp
    | ok u => simp

theorem checkAccounts_cases (items : List JSON) :
    checkAccounts items = .ok () ∨ ∃ e, checkAccounts items = .error e := by
  cases h : checkAccounts items with
  | error e => exact Or.inr ⟨e, rfl⟩
  | ok u => exact Or.inl rfl

theorem mapWithId_length (items : List JSON) : ∀ index, (mapWithId index items).length = items.length := by
  induction items with
  | nil => intro _; rfl
  | cons a rest ih => intro index; simp [mapWithId, ih]

theorem mapWithId_get (items : List JSON) :
    ∀ (index i : Nat) (record : JSON), items.get? i = some record →
      (mapWithId index items).get? i = some (withId (index + i) record) := by
  induction items with
  | nil => intro _ i _ h; cases h
  | cons a rest ih =>
    intro index i record h
    cases i with
    | zero =>
      simp only [List.get?_cons_zero, Option.some.injEq] at h
      simp [mapWithId, h]
    | succ i =>
      simp only [List.get?_cons_succ] at h
      have := ih (index + 1) i record h
      simp only [mapWithId, List.get?_cons_succ, this]
      congr 2
      omega

/-- C9, as the claim states it, fails: a record whose address is the number 0
has all three properties, none of them empty, and yet loading throws. -/
theorem loadAccounts_rejects_zero_address :
    loadAccounts zeroAddressFile
      = .error "Failed to load account.json: Account missing required fields"
    ∧ loadRejects missingOrEmpty zeroAddressFile = false :=
  ⟨rfl, by decide⟩

/-- C9, amended: `loadAccounts` throws (it returns no list) iff the file is
unreadable or unparsable, the parsed value is not a non-empty list, or some
record has a missing or falsy (`null`, `false`, `0`, empty string) `address`,
`auth_token` or `min_auth_token`; every message it throws begins with
`Failed to load account.json: `; otherwise it returns one record per entry of
the list, in the order of the list, the record at position `i` being
`{ id: i + 1, ...entry }`. -/
theorem loadAccounts_atomic (file : AccountFile) :
    ((∃ msg, loadAccounts file = .error msg) ↔ loadRejects missingOrFalsy file = true)
    ∧ (∀ msg, loadAccounts file = .error msg →
        ∃ rest, msg = "Failed to load account.json: " ++ rest)
    ∧ (loadRejects missingOrFalsy file = false →
        ∃ items, file = .parsed (.arr items) ∧ loadAccounts file = .ok (mapWithId 0 items)
          ∧ (mapWithId 0 items).length = items.length
          ∧ ∀ i record, items.get? i = some record →
              (mapWithId 0 items).get? i = some (withId i record)) := by
  have pre : ∀ msg, loadAccounts file = .error msg →
      ∃ rest, msg = "Failed to load account.json: " ++ rest := by
    intro msg h
    unfold loadAccounts at h
    cases hb : loadAccountsBody file with
    | ok accounts => rw [hb] at h; cases h
    | error e =>
      rw [hb] at h
      simp only [Except.error.injEq] at h
      exact ⟨e, h.symm⟩
  have body : ∀ items : List JSON,
      ((∃ msg, loadAccounts (.parsed (.arr items)) = .error msg)
        ↔ loadRejects missingOrFalsy (.parsed (.arr items)) = true)
      ∧ (loadRejects missingOrFalsy (.parsed (.arr items)) = false →
          loadAccounts (.parsed (.arr items)) = .ok (mapWithId 0 items)) := by
    intro items
    cases items with
    | nil => simp [loadAccounts, loadAccountsBody, loadRejects]
    | cons a rest =>
      have hne : (a :: rest).length ≠ 0 := by simp
      have hiff := checkAccounts_error_iff (a :: rest)
      rcases checkAccounts_cases (a :: rest) with hok | ⟨e, he⟩
      · have hno : ¬ ∃ e, checkAccounts (a :: rest) = .error e := by
          rintro ⟨e, he⟩; rw [hok] at he; cases he
        have hany : (a :: rest).any (fun record =>
            requiredKeys.any (fun key => missingOrFalsy record key)) = false := by
          cases hb : (a :: rest).any (fun record =>
            requiredKeys.any (fun key => missingOrFalsy record key)) with
          | false => rfl
          | true => exact absurd (hiff.2 hb) hno
        have hload : loadAccounts (.parsed (.arr (a :: rest))) = .ok (mapWithId 0 (a :: rest)) := by
          simp only [loadAccounts, loadAccountsBody, hne, if_false, hok]
        refine ⟨⟨fun ⟨msg, h⟩ => ?_, fun h => ?_⟩, fun _ => hload⟩
        · rw [hload] at h; cases h
        · simp only [loadRejects, List.isEmpty_cons, Bool.false_or] at h
          rw [hany] at h; cases h
      · have hany := hiff.1 ⟨e, he⟩
        have hload : loadAccounts (.parsed (.arr (a :: rest)))
            = .error ("Failed to load account.json: " ++ e) := by
          simp only [loadAccounts, loadAccountsBody, hne, if_false, he]
        refine ⟨⟨fun _ => ?_, fun _ => ⟨_, hload⟩⟩, fun h => ?_⟩
        · simp only [loadRejects, List.isEmpty_cons, Bool.false_or]; exact hany
        · simp only [loadRejects, List.isEmpty_cons, Bool.false_or] at h
          rw [hany] at h; cases h
  refine ⟨?_, pre, ?_⟩
  · cases file with
    | unreadable msg => simp [loadAccounts, loadAccountsBody, loadRejects]
    | unparsable msg => simp [loadAccounts, loadAccountsBody, loadRejects]
    | parsed v =>
      cases v with
      | arr items => exact (body items).1
      | _ => simp [loadAccounts, loadAccountsBody, loadRejects]
  · intro h
    cases file with
    | unreadable msg => cases h
    | unparsable msg => cases h
    | parsed v =>
      cases v with
      | arr items =>
        exact ⟨items, rfl, (body items).2 h, mapWithId_length items 0, fun i record hi => by
          simpa using mapWithId_get items 0 i record hi⟩
      | _ => cases h

/-- C9 amended, at an instance: a file with two valid records is loaded. -/
theorem loadAccounts_atomic_witness :
    ∃ items, twoAccountsFile = .parsed (.arr items)
      ∧ loadAccounts twoAccountsFile = .ok (mapWithId 0 items)
      ∧ (mapWithId 0 items).length = items.length
      ∧ ∀ i record, items.get? i = some record →
          (mapWithId 0 items).get? i = some (withId i record) :=
  (loadAccounts_atomic twoAccountsFile).2.2 (by decide)

theorem getField_cons (kv : String × JSON) (rest : List (String × JSON)) (key : String) :
    getField (kv :: rest) key = if kv.1 = key then some kv.2 else getField rest key := by
  unfold getField
  by_cases h : kv.1 = key
  · simp [List.find?_cons, h]
  · simp [List.find?_cons, h]

theorem getField_append_singleton (o : List (String × JSON)) (k key : String) (v : JSON)
    (hno : o.any (fun kv => kv.1 == k) = false) :
    getField (o ++ [(k, v)]) key
      = if k = key then some v else getField o key := by
  induction o with
  | nil => simp [getField_cons, getField]
  | cons a rest ih =>
    simp only [List.any_cons, Bool.or_eq_false_iff, beq_eq_false_iff_ne, ne_eq] at hno
    rw [List.cons_append, getField_cons, getField_cons, ih hno.2]
    by_cases hk : k = key
    · have : ¬ a.1 = key := by rw [← hk]; exact hno.1
      simp [hk, this]
    · simp [hk]

theorem getField_map_other (o : List (String × JSON)) (k key : String) (v : JSON)
    (hk : ¬ k = key) :
    getField (o.map (fun kv => if kv.1 == k then (k, v) else kv)) key = getField o key := by
  induction o with
  | nil => rfl
  | cons a rest ih =>
    rw [List.map_cons, getField_cons, getField_cons, ih]
    by_cases ha : a.1 = k
    · have : ¬ a.1 = key := by rw [ha]; exact hk
      simp [ha, hk, this]
    · have hb : (a.1 == k) = false := by simpa using ha
      simp [hb]

theorem getField_map_same (o : List (String × JSON)) (k : String) (v : JSON)
    (hyes : o.any (fun kv => kv.1 == k) = true) :
    getField (o.map (fun kv => if kv.1 == k then (k, v) else kv)) k = some v := by
  induction o with
  | nil => simp at hyes
  | cons a rest ih =>
    rw [List.map_cons, getField_cons]
    by_cases ha : a.1 = k
    · simp [ha]
    · have hrest : rest.any (fun kv => kv.1 == k) = true := by
        simpa [List.any_cons, ha] using hyes
      have hb : (a.1 == k) = false := by simpa using ha
      simp only [hb, Bool.false_eq_true, if_false, ha]
      exact ih hrest

theorem getField_map_set (o : List (String × JSON)) (k key : String) (v : JSON)
    (hyes : o.any (fun kv => kv.1 == k) = true) :
    getField (o.map (fun kv => if kv.1 == k then (k, v) else kv)) key
      = if k = key then some v else getField o key := by
  by_cases hk : k = key
  · subst hk
    rw [getField_map_same o k v hyes]
    simp
  · rw [getField_map_other o k key v hk]
    simp [hk]

/-- Reading a property after `setField`. -/
theorem getField_setField (o : List (String × JSON)) (k key : String) (v : JSON) :
    getField (setField o k v) key = if k = key then some v else getField o key := by
  unfold setField
  cases h : o.any (fun kv => kv.1 == k) with
  | true => simpa using getField_map_set o k key v h
  | false => simpa using getField_append_singleton o k key v h

/-- Reading a property of `{ ...o, ...fields }`: the last own property of that
name in `fields`, else the one of `o`. -/
theorem getField_spread (fields : List (String × JSON)) (key : String) :
    ∀ o : List (String × JSON),
      getField (fields.foldl (fun o kv => setField o kv.1 kv.2) o) key
        = match getField fields.reverse key with
          | some v => some v
          | none => getField o key := by
  induction fields using List.reverseRecOn with
  | nil => intro o; simp [getField]
  | append_singleton xs x ih =>
    intro o
    rw [List.foldl_append, List.foldl_cons, List.foldl_nil, getField_setField, ih,
      List.reverse_append, List.reverse_singleton, List.singleton_append, getField_cons]
    by_cases hx : x.1 = key
    · simp [hx]
    · simp [hx]

theorem withId_id (index : Nat) (record : JSON) :
    getField (withId index record) "id"
      = some ((getField (ownFields record).reverse "id").getD (.num (index + 1))) := by
  cases record with
  | obj fields =>
    simp only [withId, ownFields, getField_spread]
    cases getField fields.reverse "id" <;> simp [getField]
  | _ => simp [withId, ownFields, getField]

theorem createMiners_ids (accounts : List (List (String × JSON))) :
    ∀ index, (createMiners index accounts).map (fun s => s.id)
        = List.range' (index + 1) accounts.length
      ∧ (createMiners index accounts).map (fun s => s.account) = accounts := by
  induction accounts with
  | nil => intro _; exact ⟨rfl, rfl⟩
  | cons a rest ih =>
    intro index
    obtain ⟨h1, h2⟩ := ih (index + 1)
    refine ⟨?_, ?_⟩
    · simp only [createMiners, List.map_cons, h1, List.length_cons, List.range'_succ]
      rfl
    · simp only [createMiners, List.map_cons, h2]
      rfl

/-- What `loadAccounts` returns comes from a parsed list, entry by entry. -/
theorem loadAccounts_ok (file : AccountFile) (accounts : List (List (String × JSON)))
    (h : loadAccounts file = .ok accounts) :
    ∃ items, file = .parsed (.arr items) ∧ accounts = mapWithId 0 items := by
  unfold loadAccounts at h
  cases hb : loadAccountsBody file with
  | error e => rw [hb] at h; cases h
  | ok r =>
    rw [hb] at h
    simp only [Except.ok.injEq] at h
    subst h
    cases file with
    | unreadable msg => cases hb
    | unparsable msg => cases hb
    | parsed v =>
      cases v with
      | arr items =>
        refine ⟨items, rfl, ?_⟩
        simp only [loadAccountsBody] at hb
        split at hb
        · cases hb
        · cases hc : checkAccounts items with
          | error e => rw [hc] at hb; cases hb
          | ok u =>
            rw [hc] at hb
            simp only [Except.ok.injEq] at hb
            exact hb.symm
      | _ => cases hb

/-- C10, as the claim states it, fails: a valid record that brings its own `id`
keeps it (the spread comes after `id: index + 1`), so the record at position 1
carries id 7 while the session created for it carries id 1. -/
theorem loadAccounts_keeps_own_id :
    loadAccounts ownIdFile
      = .ok [[("id", .num 7), ("address", .str "0xabc"), ("auth_token", .str "t1"),
          ("min_auth_token", .str "u1")]]
    ∧ (match getField [("id", JSON.num 7), ("address", .str "0xabc"), ("auth_token", .str "t1"),
          ("min_auth_token", .str "u1")] "id" with
        | some (.num n) => n
        | _ => 0) = 7
    ∧ (mainInit ownIdFile).map (fun sup => sup.miners.map (fun s => s.id)) = some [1] :=
  ⟨rfl, by decide, by decide⟩

/-- C10, amended: when `loadAccounts` accepts the file, the file holds a list of
some length `N`, loading yields `N` records and `main` creates `N` sessions, in
the order of the list: the session at position `i` (from 1) has id `i` and
holds the record at position `i`; that record has the properties of the input
record and carries id `i` unless the input record has an own `id` property,
whose value it then keeps. -/
theorem sessions_sequential_ids (file : AccountFile) (accounts : List (List (String × JSON)))
    (h : loadAccounts file = .ok accounts) :
    ∃ items sup, file = .parsed (.arr items) ∧ accounts.length = items.length
      ∧ mainInit file = some sup
      ∧ sup.activeIndex = 0
      ∧ sup.miners.length = items.length
      ∧ sup.miners.map (fun s => s.id) = List.range' 1 items.length
      ∧ sup.miners.map (fun s => s.account) = accounts
      ∧ ∀ i record, items.get? i = some record →
          accounts.get? i = some (withId i record)
          ∧ getField (withId i record) "id"
              = some ((getField (ownFields record).reverse "id").getD (.num (i + 1)))
          ∧ ∀ key, key ≠ "id" →
              getField (withId i record) key = getField (ownFields record).reverse key := by
  obtain ⟨items, hfile, hacc⟩ := loadAccounts_ok file accounts h
  have hlen := mapWithId_length items 0
  have hget : ∀ i record, items.get? i = some record →
      (mapWithId 0 items).get? i = some (withId i record) := fun i record hi => by
    simpa using mapWithId_get items 0 i record hi
  obtain ⟨hid, hac⟩ := createMiners_ids accounts 0
  have hmain : mainInit file = some
      { miners := match createMiners 0 accounts with
          | [] => []
          | first :: rest => refreshDisplay { first with isDisplayed := true } :: rest
        activeIndex := 0 } := by
    simp only [mainInit, h]
  have hmap : ∀ l : List NexusMiner,
      (match l with
        | [] => []
        | first :: rest => refreshDisplay { first with isDisplayed := true } :: rest : List NexusMiner).map
          (fun s => s.id) = l.map (fun s => s.id)
      ∧ (match l with
        | [] => []
        | first :: rest => refreshDisplay { first with isDisplayed := true } :: rest : List NexusMiner).map
          (fun s => s.account) = l.map (fun s => s.account) := by
    intro l
    cases l <;> exact ⟨rfl, rfl⟩
  refine ⟨items, _, hfile, by rw [hacc, hlen], hmain, rfl, ?_, ?_, ?_, ?_⟩
  · have := congrArg List.length (hmap (createMiners 0 accounts)).1
    simp only [List.length_map] at this
    rw [this]
    have := congrArg List.length hid
    simp only [List.length_map, List.length_range'] at this
    rw [this, hacc, hlen]
  · rw [(hmap _).1, hid, hacc, hlen]
  · rw [(hmap _).2, hac]
  · intro i record hi
    refine ⟨by rw [hacc]; exact hget i record hi, withId_id i record, fun key hkey => ?_⟩
    cases record with
    | obj fields =>
      simp only [withId, ownFields, getField_spread]
      cases getField fields.reverse key with
      | some v => rfl
      | none =>
        have : ¬ "id" = key := fun e => hkey e.symm
        simp [getField_cons, this, getField]
    | _ =>
      have : ¬ "id" = key := fun e => hkey e.symm
      simp [withId, ownFields, getField_cons, this, getField]

/-- C10 amended, at an instance: two valid records without an `id`. -/
theorem sessions_sequential_ids_witness :
    ∃ items sup, twoAccountsFile = .parsed (.arr items)
      ∧ (mapWithId 0 [.obj [("address", .str "0xabc"), ("auth_token", .str "t1"),
            ("min_auth_token", .str "u1")],
          .obj [("address", .str "0xdef"), ("auth_token", .str "t2"),
            ("min_auth_token", .str "u2")]]).length = items.length
      ∧ mainInit twoAccountsFile = some sup
      ∧ sup.miners.map (fun s => s.id) = List.range' 1 items.length :=
  have ⟨items, sup, h1, h2, h3, _, _, h6, _⟩ := sessions_sequential_ids twoAccountsFile
    (mapWithId 0 [.obj [("address", .str "0xabc"), ("auth_token", .str "t1"),
        ("min_auth_token", .str "u1")],
      .obj [("address", .str "0xdef"), ("auth_token", .str "t2"), ("min_auth_token", .str "u2")]])
    rfl
  ⟨items, sup, h1, h2, h3, h6⟩

/-! ### The toggle is absent on every attempt -/

theorem tag_addLog (H : Host) (msg : String) (m : NexusMiner) : tag (addLog H msg m) = tag m := rfl
theorem userInfo_addLog (H : Host) (msg : String) (m : NexusMiner) :
    (addLog H msg m).userInfo = m.userInfo := rfl
theorem tag_pageCall (e : Effect) (m : NexusMiner) : tag (pageCall e m) = tag m := rfl
theorem userInfo_pageCall (e : Effect) (m : NexusMiner) :
    (pageCall e m).userInfo = m.userInfo := rfl

theorem startMiningFrom_absent (H : Host) (E : Env) (fuel retries : Nat) (m : NexusMiner)
    (hlt : retries < 3) (h : E.toggle retries = .notFound) :
    startMiningFrom H E (fuel + 1) retries false m
      = if retries + 1 = 3 then
          { addLog H (maxRetriesLine m) (addLog H (toggleFailureLine m (retries + 1))
              (pageCall .evalToggle m)) with
            userInfo := { m.userInfo with status := "INACTIVE" } }
        else startMiningFrom H E fuel (retries + 1) false
          (addLog H (toggleFailureLine m (retries + 1)) (pageCall .evalToggle m)) := by
  rw [startMiningFrom]
  simp only [hlt, h, true_and, if_true]
  rfl

theorem startMining_absent_eq (H : Host) (E : Env) (m : NexusMiner) (hm : m.isMining = false)
    (habs : ∀ i, i < 3 → E.toggle i = .notFound) :
    startMining H E m
      = { addLog H (maxRetriesLine m) (addLog H (toggleFailureLine m 3) (pageCall .evalToggle
          (addLog H (toggleFailureLine m 2) (pageCall .evalToggle (addLog H (toggleFailureLine m 1)
          (pageCall .evalToggle (addLog H (activatingLine m) m))))))) with
          userInfo := { m.userInfo with status := "INACTIVE" } } := by
  unfold startMining
  simp only [hm, Bool.false_eq_true, if_false]
  rw [startMiningFrom_absent H E 2 0 _ (by omega) (habs 0 (by omega)),
    if_neg (by omega),
    startMiningFrom_absent H E 1 1 _ (by omega) (habs 1 (by omega)),
    if_neg (by omega),
    startMiningFrom_absent H E 0 2 _ (by omega) (habs 2 (by omega)),
    if_pos (by omega)]
  simp only [toggleFailureLine, maxRetriesLine, activatingLine, tag_addLog, tag_pageCall,
    userInfo_addLog, userInfo_pageCall]

theorem addLogs_logs_small (H : Host) (msgs : List String) :
    ∀ m : NexusMiner, m.logs.length + msgs.length ≤ 200 →
      (addLogs H msgs m).logs = m.logs ++ recordsFrom H m.clockReads msgs := by
  induction msgs with
  | nil => intro m _; simp [addLogs, recordsFrom]
  | cons x xs ih =>
    intro m h
    simp only [List.length_cons] at h
    have h1 : (addLog H x m).logs = m.logs ++ [logRecord (H.now m.clockReads) x] := by
      simp only [addLog, List.length_append, List.length_singleton]
      rw [if_neg (by omega)]
    have h2 : (addLog H x m).clockReads = m.clockReads + 1 := rfl
    have := ih (addLog H x m) (by rw [h1]; simp; omega)
    simp only [addLogs, List.foldl_cons] at this ⊢
    rw [this, h1, h2]
    simp [recordsFrom]

theorem digitChar_ne_brace (n : Nat) (h : n < 10) : Nat.digitChar n ≠ '\x7b' := by
  interval_cases n <;> decide

theorem toDigitsCore_noBrace (fuel : Nat) :
    ∀ (n : Nat) (ds : List Char), '\x7b' ∉ ds → '\x7b' ∉ Nat.toDigitsCore 10 fuel n ds := by
  induction fuel with
  | zero => intro n ds h; simpa [Nat.toDigitsCore] using h
  | succ fuel ih =>
    intro n ds h
    have hd : '\x7b' ∉ Nat.digitChar (n % 10) :: ds := by
      intro hmem
      rcases List.mem_cons.1 hmem with e | e
      · exact digitChar_ne_brace _ (Nat.mod_lt _ (by omega)) e.symm
      · exact h e
    rw [Nat.toDigitsCore]
    split
    · exact hd
    · exact ih _ _ hd

theorem toString_noBrace (n : Nat) : '\x7b' ∉ (toString n).data := by
  show '\x7b' ∉ (Nat.repr n).data
  exact toDigitsCore_noBrace _ _ _ (by simp)

theorem stripTagsAux_noBrace (fuel : Nat) :
    ∀ cs : List Char, '\x7b' ∉ cs → stripTagsAux fuel cs = cs := by
  induction fuel with
  | zero => intro cs _; rfl
  | succ fuel ih =>
    intro cs h
    cases cs with
    | nil => rfl
    | cons c rest =>
      have hc : ¬ c = '\x7b' := fun e => h (by simp [e])
      have hr : '\x7b' ∉ rest := fun e => h (List.mem_cons_of_mem _ e)
      simp only [stripTagsAux, hc, if_false, ih rest hr]

theorem stripTags_noBrace (s : String) (h : '\x7b' ∉ s.data) : stripTags s = s := by
  unfold stripTags
  rw [stripTagsAux_noBrace _ _ h]

theorem toggleFailureLine_noBrace (m : NexusMiner) (n : Nat) :
    '\x7b' ∉ (toggleFailureLine m n).data := by
  simp only [toggleFailureLine, chalkRed, tag, esc, String.data_append, List.mem_append, not_or]
  have h1 := toString_noBrace m.id
  have h2 := toString_noBrace n
  repeat' (refine And.intro ?_ ?_)
  all_goals first
    | exact h1
    | exact h2
    | decide

/-- Two stored records of lines that agree up to one character at the same
place are different, whatever their timestamps. -/
theorem record_ne_of_char (t1 t2 : String) (pre post : List Char) (c1 c2 : Char) (hc : c1 ≠ c2)
    (s1 s2 : String) (h1 : s1.data = pre ++ c1 :: post) (h2 : s2.data = pre ++ c2 :: post) :
    "[" ++ t1 ++ "] " ++ s1 ≠ "[" ++ t2 ++ "] " ++ s2 := by
  intro h
  have hd := congrArg String.data h
  simp only [String.data_append, h1, h2] at hd
  have hlen := congrArg List.length hd
  simp only [List.length_append, List.length_cons] at hlen
  have hl : ("[".data ++ t1.data).length = ("[".data ++ t2.data).length := by
    simp only [List.length_append]; omega
  rw [List.append_assoc, List.append_assoc ("[".data ++ t2.data)] at hd
  have h3 := (List.append_inj hd hl).2
  have h4 := List.append_cancel_left h3
  have h5 := List.append_cancel_left h4
  simp only [List.cons.injEq] at h5
  exact hc h5.1

theorem toggleFailureLine_data (m : NexusMiner) (n : Nat) (c : Char)
    (hn : (toString n).data = [c]) :
    (toggleFailureLine m n).data
      = (esc ++ "31m" ++ (tag m ++ "Start mining attempt ")).data
        ++ c :: (" failed: " ++ "Toggle button not found" ++ esc ++ "39m").data := by
  simp only [toggleFailureLine, chalkRed, String.data_append, hn, List.append_assoc,
    List.singleton_append]
  rfl

theorem toggleFailure_record_ne_of_digit (m : NexusMiner) (t1 t2 : String) (a b : Nat)
    (c1 c2 : Char) (ha : (toString a).data = [c1]) (hb : (toString b).data = [c2])
    (hc : c1 ≠ c2) :
    logRecord t1 (toggleFailureLine m a) ≠ logRecord t2 (toggleFailureLine m b) := by
  unfold logRecord
  rw [stripTags_noBrace _ (toggleFailureLine_noBrace m a),
    stripTags_noBrace _ (toggleFailureLine_noBrace m b)]
  exact record_ne_of_char t1 t2 (esc ++ "31m" ++ (tag m ++ "Start mining attempt ")).data
    (" failed: " ++ "Toggle button not found" ++ esc ++ "39m").data c1 c2 hc _ _
    (toggleFailureLine_data m a c1 ha) (toggleFailureLine_data m b c2 hb)

theorem ne_of_data (s1 s2 : String) (pre p1 p2 : List Char) (c1 c2 : Char) (hc : c1 ≠ c2)
    (h1 : s1.data = pre ++ c1 :: p1) (h2 : s2.data = pre ++ c2 :: p2) : s1 ≠ s2 := by
  intro h
  rw [h, h2] at h1
  have := List.append_cancel_left h1
  simp only [List.cons.injEq] at this
  exact hc this.1.symm

theorem addLog_pageCall (H : Host) (msg : String) (e : Effect) (s : NexusMiner) :
    addLog H msg (pageCall e s) = pageCall e (addLog H msg s) := rfl

theorem logs_pageCall (e : Effect) (s : NexusMiner) : (pageCall e s).logs = s.logs := rfl

theorem maxRetriesLine_ne (m : NexusMiner) (n : Nat) :
    maxRetriesLine m ≠ toggleFailureLine m n ∧ maxRetriesLine m ≠ activatingLine m
    ∧ activatingLine m ≠ toggleFailureLine m n := by
  refine ⟨?_, ?_, ?_⟩
  · refine ne_of_data _ _ (esc ++ "31m" ++ tag m).data
      ("ax retries reached for start mining." ++ esc ++ "39m").data
      ("tart mining attempt " ++ toString n ++ " failed: " ++ "Toggle button not found"
        ++ esc ++ "39m").data 'M' 'S' (by decide) ?_ ?_
    · simp only [maxRetriesLine, chalkRed, String.data_append, List.append_assoc]
      rfl
    · simp only [toggleFailureLine, chalkRed, String.data_append, List.append_assoc]
      rfl
  · refine ne_of_data _ _ (esc ++ "3").data
      ("m" ++ (tag m ++ "Max retries reached for start mining.") ++ esc ++ "39m").data
      ("m" ++ (tag m ++ "Activating Mining Process...") ++ esc ++ "39m").data
      '1' '6' (by decide) ?_ ?_
    · simp only [maxRetriesLine, chalkRed, String.data_append, List.append_assoc]
      rfl
    · simp only [activatingLine, chalkCyan, String.data_append, List.append_assoc]
      rfl
  · refine ne_of_data _ _ (esc ++ "3").data
      ("m" ++ (tag m ++ "Activating Mining Process...") ++ esc ++ "39m").data
      ("m" ++ (tag m ++ "Start mining attempt " ++ toString n ++ " failed: "
        ++ "Toggle button not found") ++ esc ++ "39m").data '6' '1' (by decide) ?_ ?_
    · simp only [activatingLine, chalkCyan, String.data_append, List.append_assoc]
      rfl
    · simp only [toggleFailureLine, chalkRed, String.data_append, List.append_assoc]
      rfl

theorem addLogs_fields (H : Host) (msgs : List String) :
    ∀ m : NexusMiner, (addLogs H msgs m).timers = m.timers
      ∧ (addLogs H msgs m).isMining = m.isMining
      ∧ (addLogs H msgs m).userInfo = m.userInfo
      ∧ (addLogs H msgs m).miningInterval = m.miningInterval
      ∧ (addLogs H msgs m).toggleCheckInterval = m.toggleCheckInterval
      ∧ (addLogs H msgs m).nextTimer = m.nextTimer := by
  induction msgs with
  | nil => intro m; simp [addLogs]
  | cons x xs ih =>
    intro m
    have h := ih (addLog H x m)
    have a := addLog_fields H x m
    simp only [addLogs, List.foldl_cons] at h ⊢
    exact ⟨h.1.trans a.1, h.2.1.trans a.2.1, h.2.2.1.trans a.2.2.1, h.2.2.2.1.trans a.2.2.2.1,
      h.2.2.2.2.1.trans a.2.2.2.2.1, h.2.2.2.2.2.trans a.2.2.2.2.2⟩

/-- The state after a `startMining` that finds no toggle on any attempt: five
lines appended, three evaluations in the page, status `INACTIVE`. -/
theorem startMining_absent_state (H : Host) (E : Env) (m : NexusMiner) (hm : m.isMining = false)
    (habs : ∀ i, i < 3 → E.toggle i = .notFound) :
    startMining H E m
      = { pageCall .evalToggle (pageCall .evalToggle (pageCall .evalToggle
            (addLogs H [activatingLine m, toggleFailureLine m 1, toggleFailureLine m 2,
              toggleFailureLine m 3, maxRetriesLine m] m))) with
          userInfo := { m.userInfo with status := "INACTIVE" } } := by
  rw [startMining_absent_eq H E m hm habs]
  simp only [addLog_pageCall, addLogs, List.foldl_cons, List.foldl_nil]

/-- C11: on a session that is not mining, when the toggle is absent on each of
the three attempts, `startMining` returns normally with status `INACTIVE` and
`isMining` false, registers no timer, and has made exactly five appends to the
log: the opening line, the three failure lines with attempt numbers 1, 2, 3
(stored as three different records, and different from the other two lines)
and one "max retries" line. -/
theorem startMining_toggle_absent (H : Host) (E : Env) (m : NexusMiner)
    (hm : m.isMining = false) (habs : ∀ i, i < 3 → E.toggle i = .notFound) :
    (startMining H E m).userInfo.status = "INACTIVE"
    ∧ (startMining H E m).isMining = false
    ∧ (startMining H E m).timers = m.timers
    ∧ (startMining H E m).miningInterval = m.miningInterval
    ∧ (startMining H E m).nextTimer = m.nextTimer
    ∧ (startMining H E m).clockReads = m.clockReads + 5
    ∧ (startMining H E m).logs
        = (addLogs H [activatingLine m, toggleFailureLine m 1, toggleFailureLine m 2,
            toggleFailureLine m 3, maxRetriesLine m] m).logs
    ∧ (m.logs.length + 5 ≤ 200 →
        (startMining H E m).logs
          = m.logs ++ [logRecord (H.now m.clockReads) (activatingLine m),
              logRecord (H.now (m.clockReads + 1)) (toggleFailureLine m 1),
              logRecord (H.now (m.clockReads + 2)) (toggleFailureLine m 2),
              logRecord (H.now (m.clockReads + 3)) (toggleFailureLine m 3),
              logRecord (H.now (m.clockReads + 4)) (maxRetriesLine m)])
    ∧ (∀ t1 t2 t3 : String, [logRecord t1 (toggleFailureLine m 1),
          logRecord t2 (toggleFailureLine m 2), logRecord t3 (toggleFailureLine m 3)].Nodup)
    ∧ (∀ n, maxRetriesLine m ≠ toggleFailureLine m n ∧ maxRetriesLine m ≠ activatingLine m
          ∧ activatingLine m ≠ toggleFailureLine m n) := by
  have heq := startMining_absent_state H E m hm habs
  generalize hs : addLogs H [activatingLine m, toggleFailureLine m 1, toggleFailureLine m 2,
    toggleFailureLine m 3, maxRetriesLine m] m = s at heq
  have f := addLogs_fields H [activatingLine m, toggleFailureLine m 1, toggleFailureLine m 2,
    toggleFailureLine m 3, maxRetriesLine m] m
  have c := addLogs_clockReads H [activatingLine m, toggleFailureLine m 1, toggleFailureLine m 2,
    toggleFailureLine m 3, maxRetriesLine m] m
  rw [hs] at f c
  have hlogs : (startMining H E m).logs = s.logs := by rw [heq]; rfl
  have d1 : (toString 1).data = ['1'] := by decide
  have d2 : (toString 2).data = ['2'] := by decide
  have d3 : (toString 3).data = ['3'] := by decide
  refine ⟨by rw [heq], ?_, ?_, ?_, ?_, ?_, hlogs, ?_, ?_, maxRetriesLine_ne m⟩
  · rw [heq]; exact f.2.1.trans hm
  · rw [heq]; exact f.1
  · rw [heq]; exact f.2.2.2.1
  · rw [heq]; exact f.2.2.2.2.2
  · rw [heq]; exact c
  · intro hsmall
    rw [hlogs, ← hs, addLogs_logs_small H _ m (by simpa using hsmall)]
    rfl
  · intro t1 t2 t3
    simp only [List.nodup_cons, List.mem_cons, List.mem_singleton, List.not_mem_nil, not_or,
      not_false_eq_true, List.nodup_nil, and_true]
    exact ⟨⟨toggleFailure_record_ne_of_digit m t1 t2 1 2 '1' '2' d1 d2 (by decide),
      toggleFailure_record_ne_of_digit m t1 t3 1 3 '1' '3' d1 d3 (by decide)⟩,
      toggleFailure_record_ne_of_digit m t2 t3 2 3 '2' '3' d2 d3 (by decide)⟩

/-- C11, at an instance: the new sample session, no toggle on the page. -/
theorem startMining_toggle_absent_witness :
    (startMining sampleHost { sampleEnv with toggle := fun _ => .notFound } sampleMiner).userInfo.status
      = "INACTIVE"
    ∧ (startMining sampleHost { sampleEnv with toggle := fun _ => .notFound } sampleMiner).timers = []
    ∧ (startMining sampleHost { sampleEnv with toggle := fun _ => .notFound } sampleMiner).logs
      = ["[0] \x1b[36m[1] Activating Mining Process...\x1b[39m",
         "[1] \x1b[31m[1] Start mining attempt 1 failed: Toggle button not found\x1b[39m",
         "[2] \x1b[31m[1] Start mining attempt 2 failed: Toggle button not found\x1b[39m",
         "[3] \x1b[31m[1] Start mining attempt 3 failed: Toggle button not found\x1b[39m",
         "[4] \x1b[31m[1] Max retries reached for start mining.\x1b[39m"] :=
  have h := startMining_toggle_absent sampleHost { sampleEnv with toggle := fun _ => .notFound }
    sampleMiner rfl (fun _ _ => rfl)
  ⟨h.1, h.2.2.1, by decide⟩

/-! ### The selector loop of `fetchUserInfo` -/

theorem readPoints_all_reject (texts : String → Option String) (sels : List String) :
    ∀ (points : String) (m : NexusMiner), (∀ sel ∈ sels, texts sel = none) →
      (readPoints texts sels points m).1 = points := by
  induction sels with
  | nil => intro _ _ _; rfl
  | cons sel rest ih =>
    intro points m h
    rw [readPoints]
    simp only [h sel (List.mem_cons_self _ _)]
    exact ih _ _ (fun s hs => h s (List.mem_cons_of_mem _ hs))

theorem readPoints_stays_empty (texts : String → Option String) (sels : List String) :
    ∀ m : NexusMiner, (∀ sel ∈ sels, texts sel = none ∨ texts sel = some "") →
      (readPoints texts sels "" m).1 = "" := by
  induction sels with
  | nil => intro _ _; rfl
  | cons sel rest ih =>
    intro m h
    rw [readPoints]
    rcases h sel (List.mem_cons_self _ _) with h0 | h0
    · simp only [h0]
      exact ih _ (fun s hs => h s (List.mem_cons_of_mem _ hs))
    · simp only [h0, ne_eq, not_true_eq_false, if_false]
      exact ih _ (fun s hs => h s (List.mem_cons_of_mem _ hs))

/-- The value of `points` after the selector loop when no selector yields a
non-empty text: the sentinel `-` if every selector rejects, the empty string as
soon as one of them resolves. -/
theorem readPoints_no_text (texts : String → Option String) (sels : List String) :
    ∀ (points : String) (m : NexusMiner),
      (∀ sel ∈ sels, texts sel = none ∨ texts sel = some "") →
      (∃ sel ∈ sels, texts sel = some "") →
      (readPoints texts sels points m).1 = "" := by
  induction sels with
  | nil => intro _ _ _ ⟨sel, hs, _⟩; cases hs
  | cons sel rest ih =>
    intro points m h ⟨s0, hs0, he0⟩
    rw [readPoints]
    have hrest : ∀ s ∈ rest, texts s = none ∨ texts s = some "" :=
      fun s hs => h s (List.mem_cons_of_mem _ hs)
    rcases h sel (List.mem_cons_self _ _) with h0 | h0
    · simp only [h0]
      rcases List.mem_cons.1 hs0 with e | e
      · rw [e, h0] at he0; cases he0
      · exact ih _ _ hrest ⟨s0, e, he0⟩
    · simp only [h0, ne_eq, not_true_eq_false, if_false]
      exact readPoints_stays_empty texts rest _ hrest

theorem sameButCalls_readPoints (texts : String → Option String) (sels : List String) :
    ∀ (points : String) (m : NexusMiner), SameButCalls m (readPoints texts sels points m).2 := by
  induction sels with
  | nil => intro _ m; exact sameButCalls_refl m
  | cons sel rest ih =>
    intro points m
    rw [readPoints]
    have s1 := sameButCalls_pageCall (.readText sel) m
    cases texts sel with
    | none => exact sameButCalls_trans s1 (ih _ _)
    | some t =>
      dsimp only
      split
      · exact s1
      · exact sameButCalls_trans s1 (ih _ _)

/-- What a pass of `fetchUserInfo` does when navigation resolves and no selector
yields a non-empty text: it fails (and leaves `userInfo` alone) if every
selector rejects, but it returns with the empty string stored as the points if
some selector resolves to the empty string. -/
theorem fetchAttempt_no_text (H : Host) (a : FetchAttempt) (m : NexusMiner) (hg : a.goto = none)
    (hno : ∀ sel ∈ pointsSelectors, a.texts sel = none ∨ a.texts sel = some "") :
    ((∀ sel ∈ pointsSelectors, a.texts sel = none) →
        (fetchAttempt H a m).1 = .error "Points data Not Found"
        ∧ (fetchAttempt H a m).2.userInfo = m.userInfo)
    ∧ ((∃ sel ∈ pointsSelectors, a.texts sel = some "") →
        (fetchAttempt H a m).1 = .ok ()
        ∧ (fetchAttempt H a m).2.userInfo.points = "") := by
  constructor
  · intro hall
    have hp := readPoints_all_reject a.texts pointsSelectors "-"
      (pageCall .goto (addLog H (chalkCyan (tag m ++ "Fetching user points...")) m)) hall
    have hs := sameButCalls_trans (sameButCalls_trans (sameButCalls_addLog H
      (chalkCyan (tag m ++ "Fetching user points...")) m) (sameButCalls_pageCall .goto _))
      (sameButCalls_readPoints a.texts pointsSelectors "-"
        (pageCall .goto (addLog H (chalkCyan (tag m ++ "Fetching user points...")) m)))
    have hu := congrArg NexusMiner.userInfo hs
    unfold fetchAttempt
    simp only [hg, hp, if_true]
    exact ⟨trivial, hu⟩
  · intro hex
    have hp := readPoints_no_text a.texts pointsSelectors "-"
      (pageCall .goto (addLog H (chalkCyan (tag m ++ "Fetching user points...")) m)) hno hex
    unfold fetchAttempt
    have hne : ¬ ("" : String) = "-" := by decide
    simp only [hg, hp, hne, if_false]
    exact ⟨trivial, rfl⟩

/-- C12: a pass of `fetchUserInfo` in which the first selector resolves to the
empty string and the other two reject yields no non-empty text, yet the method
returns at once: the empty string is stored as the points, the success line is
logged and there is no second pass. -/
theorem fetchUserInfo_accepts_empty_text :
    (∀ sel ∈ pointsSelectors, fetchEmptyText.texts sel = none ∨ fetchEmptyText.texts sel = some "")
    ∧ (fetchUserInfo sampleHost emptyTextEnv 4 (initPuppeteer sampleHost sampleEnv sampleMiner).2).1
      = .ok ()
    ∧ (fetchUserInfo sampleHost emptyTextEnv 4
        (initPuppeteer sampleHost sampleEnv sampleMiner).2).2.userInfo.points = ""
    ∧ (fetchUserInfo sampleHost emptyTextEnv 4
        (initPuppeteer sampleHost sampleEnv sampleMiner).2).2.trace.count .goto = 1
    ∧ (fetchUserInfo sampleHost emptyTextEnv 4
        (initPuppeteer sampleHost sampleEnv sampleMiner).2).2.logs
      = ["[0] \x1b[36m[1] Fetching user points...\x1b[39m",
         "[1] \x1b[32m[1] Points fetched successfully\x1b[39m"] := by
  refine ⟨by decide, rfl, by decide, by decide, by decide⟩

/-! ### Block markers in the page content -/

theorem includes_iff (s sub : String) : includes s sub = true ↔ sub.data <:+: s.data := by
  unfold includes
  rw [List.any_eq_true, List.infix_iff_prefix_suffix]
  constructor
  · rintro ⟨t, ht, hp⟩
    exact ⟨t, List.isPrefixOf_iff_prefix.1 hp, (List.mem_tails _ _).1 ht⟩
  · rintro ⟨t, hp, ht⟩
    exact ⟨t, (List.mem_tails _ _).2 ht, List.isPrefixOf_iff_prefix.2 hp⟩

theorem blockDetected_iff (content : String) :
    blockDetected content = true ↔ ∃ marker ∈ blockMarkers, marker.data <:+: content.data := by
  simp only [blockDetected, Bool.or_eq_true, includes_iff, blockMarkers, List.mem_cons,
    List.mem_singleton, List.not_mem_nil, or_false, exists_eq_or_imp, exists_eq_left]
  tauto

/-- C13, as the claim states it, fails: a page whose content has the marker
`captcha` in capitals is not detected; the pass writes the tokens to the page
and ends as a successful login. -/
theorem loginAttempt_misses_capital_marker :
    includesIgnoringCase loginCapitalCaptcha.content "captcha" = true
    ∧ blockDetected loginCapitalCaptcha.content = false
    ∧ (loginAttempt sampleHost loginCapitalCaptcha
        (initPuppeteer sampleHost sampleEnv sampleMiner).2).1 = .ok ()
    ∧ Effect.inject ∈ (loginAttempt sampleHost loginCapitalCaptcha
        (initPuppeteer sampleHost sampleEnv sampleMiner).2).2.trace := by
  refine ⟨by decide, by decide, rfl, by decide⟩

/-- C13, amended: the marker detection of `loginWithRetry` is a case-sensitive
substring match.  The page is detected exactly when its content contains one
of the four markers as written; for every such page the pass fails (it throws,
so the retry count goes up) and the tokens are not written to the page on that
pass; when navigation and the screenshot go through, the error is
`CAPTCHA or access error`. -/
theorem loginAttempt_blocked (H : Host) (a : LoginAttempt) (m : NexusMiner)
    (h : ∃ marker ∈ blockMarkers, marker.data <:+: a.content.data) :
    blockDetected a.content = true
    ∧ (∃ msg, (loginAttempt H a m).1 = .error msg)
    ∧ Effect.inject ∉ (loginAttempt H a m).2.trace.drop m.trace.length
    ∧ (loginAttempt H a m).2.trace.count .inject = m.trace.count .inject
    ∧ (a.goto = none → a.shot = none →
        (loginAttempt H a m).1 = .error "CAPTCHA or access error") := by
  have hb := (blockDetected_iff a.content).2 h
  unfold loginAttempt
  cases hg : a.goto with
  | some msg =>
    refine ⟨hb, ⟨msg, rfl⟩, ?_, ?_, fun h0 => by cases h0⟩
    · simp [emit, pageCall, addLog]
    · simp [emit, pageCall, addLog]
  | none =>
    cases hs : a.shot with
    | some msg =>
      refine ⟨hb, ⟨msg, by simp [hb]⟩, ?_, ?_, fun _ h0 => by cases h0⟩
      · simp [hb, emit, pageCall, addLog]
      · simp [hb, emit, pageCall, addLog]
    | none =>
      refine ⟨hb, ⟨"CAPTCHA or access error", by simp [hb]⟩, ?_, ?_, fun _ _ => by simp [hb]⟩
      · simp [hb, emit, pageCall, addLog]
      · simp [hb, emit, pageCall, addLog]

/-- C13 amended, at an instance: a page that contains `Access Denied`. -/
theorem loginAttempt_blocked_witness :
    (loginAttempt sampleHost { loginOk with content := "<h1>Access Denied</h1>" } sampleMiner).1
      = .error "CAPTCHA or access error" :=
  (loginAttempt_blocked sampleHost { loginOk with content := "<h1>Access Denied</h1>" } sampleMiner
    ((blockDetected_iff _).1 (by decide))).2.2.2.2 rfl rfl

/-! ### Selection of the displayed session -/

theorem setDisplayed_spec (value : Bool) (l : List NexusMiner) :
    ∀ index, index < l.length →
      ∃ l2, setDisplayed index value l = some l2 ∧ l2.length = l.length
        ∧ ∀ j, (l2.get? j).map (fun x => x.isDisplayed)
            = if j = index then some value else (l.get? j).map (fun x => x.isDisplayed) := by
  induction l with
  | nil => intro index h; cases h
  | cons first rest ih =>
    intro index h
    cases index with
    | zero =>
      refine ⟨_, rfl, rfl, fun j => ?_⟩
      cases j with
      | zero => rfl
      | succ j => simp
    | succ i =>
      obtain ⟨r2, h1, h2, h3⟩ := ih i (by simpa using h)
      refine ⟨first :: r2, by simp [setDisplayed, h1], by simp [h2], fun j => ?_⟩
      cases j with
      | zero => simp
      | succ j => simpa using h3 j

/-- One call of `switchAccount` with a position of the list keeps the invariant. -/
theorem switchAccount_selected (newIndex : Nat) (s : Supervisor) (hs : Selected s)
    (hn : newIndex < s.miners.length) :
    (switchAccount newIndex s).1 = .ok ()
    ∧ (switchAccount newIndex s).2.activeIndex = newIndex
    ∧ (switchAccount newIndex s).2.miners.length = s.miners.length
    ∧ Selected (switchAccount newIndex s).2 := by
  obtain ⟨ha, hflags⟩ := hs
  obtain ⟨l1, e1, len1, f1⟩ := setDisplayed_spec false s.miners s.activeIndex ha
  obtain ⟨l2, e2, len2, f2⟩ := setDisplayed_spec true l1 newIndex (by rw [len1]; exact hn)
  have hne : ¬ s.miners.length = 0 := by omega
  have hsw : switchAccount newIndex s = (.ok (), { miners := l2, activeIndex := newIndex }) := by
    simp only [switchAccount, hne, if_false, e1, e2]
  rw [hsw]
  refine ⟨rfl, rfl, by simp [len2, len1], ?_, ?_⟩
  · simp only [len2, len1]; exact hn
  · intro i hi
    simp only [len2, len1] at hi
    simp only [f2, f1]
    by_cases h1 : i = newIndex
    · rw [if_pos h1]
      simp [h1]
    · rw [if_neg h1]
      by_cases h2 : i = s.activeIndex
      · rw [if_pos h2]
        simp [h1]
      · rw [if_neg h2, hflags i hi]
        simp [h1, h2]

theorem pressKey_selected (key : Key) (s : Supervisor) (hs : Selected s) :
    (pressKey key s).1 = .ok ()
    ∧ (pressKey key s).2.miners.length = s.miners.length
    ∧ Selected (pressKey key s).2
    ∧ (pressKey key s).2.activeIndex
        = (match key with
          | .right => (s.activeIndex + 1) % s.miners.length
          | .left => (s.activeIndex + s.miners.length - 1) % s.miners.length) := by
  have hpos : 0 < s.miners.length := by have := hs.1; omega
  cases key with
  | right =>
    obtain ⟨h1, h2, h3, h4⟩ := switchAccount_selected ((s.activeIndex + 1) % s.miners.length) s hs
      (Nat.mod_lt _ hpos)
    exact ⟨h1, h3, h4, h2⟩
  | left =>
    obtain ⟨h1, h2, h3, h4⟩ := switchAccount_selected
      ((s.activeIndex + s.miners.length - 1) % s.miners.length) s hs (Nat.mod_lt _ hpos)
    exact ⟨h1, h3, h4, h2⟩

theorem pressKeys_selected (keys : List Key) :
    ∀ s : Supervisor, Selected s →
      Selected (pressKeys keys s) ∧ (pressKeys keys s).miners.length = s.miners.length := by
  induction keys with
  | nil => intro s hs; exact ⟨hs, rfl⟩
  | cons key rest ih =>
    intro s hs
    obtain ⟨-, h2, h3, -⟩ := pressKey_selected key s hs
    obtain ⟨i1, i2⟩ := ih _ h3
    exact ⟨i1, i2.trans h2⟩

theorem right_then_left (a n : Nat) (ha : a < n) : ((a + 1) % n + n - 1) % n = a := by
  by_cases h : a + 1 = n
  · have h1 : (a + 1) % n = 0 := by rw [h]; exact Nat.mod_self n
    rw [h1, Nat.zero_add, Nat.mod_eq_of_lt (by omega)]
    omega
  · have h1 : (a + 1) % n = a + 1 := Nat.mod_eq_of_lt (by omega)
    rw [h1]
    have : a + 1 + n - 1 = a + n := by omega
    rw [this, Nat.add_mod_right, Nat.mod_eq_of_lt ha]

theorem createMiners_hidden (accounts : List (List (String × JSON))) :
    ∀ index, (createMiners index accounts).length = accounts.length
      ∧ ∀ x ∈ createMiners index accounts, x.isDisplayed = false := by
  induction accounts with
  | nil => intro _; exact ⟨rfl, fun x hx => by cases hx⟩
  | cons a rest ih =>
    intro index
    obtain ⟨h1, h2⟩ := ih (index + 1)
    refine ⟨by simp [createMiners, h1], fun x hx => ?_⟩
    rcases List.mem_cons.1 hx with e | e
    · rw [e]; rfl
    · exact h2 x e

theorem loadAccounts_nonempty (file : AccountFile) (accounts : List (List (String × JSON)))
    (h : loadAccounts file = .ok accounts) : accounts ≠ [] := by
  obtain ⟨items, hfile, hacc⟩ := loadAccounts_ok file accounts h
  subst hfile
  cases items with
  | nil => simp [loadAccounts, loadAccountsBody] at h
  | cons a rest => rw [hacc]; simp [mapWithId]

/-- The state in which `main` starts the interface satisfies the invariant. -/
theorem mainInit_selected (file : AccountFile) (s0 : Supervisor) (h : mainInit file = some s0) :
    Selected s0 := by
  unfold mainInit at h
  cases hl : loadAccounts file with
  | error e => rw [hl] at h; cases h
  | ok accounts =>
    rw [hl] at h
    simp only [Option.some.injEq] at h
    subst h
    have hne := loadAccounts_nonempty file accounts hl
    obtain ⟨hlen, hhid⟩ := createMiners_hidden accounts 0
    cases hc : createMiners 0 accounts with
    | nil =>
      rw [hc] at hlen
      exact absurd (List.length_eq_zero.1 hlen.symm) hne
    | cons first rest =>
      rw [hc] at hhid
      refine ⟨by simp, fun i hi => ?_⟩
      cases i with
      | zero => rfl
      | succ j =>
        simp only [List.length_cons, refreshDisplay] at hi
        have hj : j < rest.length := by omega
        have hmem : rest[j] ∈ first :: rest := List.mem_cons_of_mem _ (List.getElem_mem _)
        simp [List.getElem?_eq_getElem hj, hhid _ hmem]

/-- C14: in every state that a sequence of left and right keys reaches from the
state in which `main` starts the interface, the number of sessions is the same
(at least one), `activeIndex` is a position of the list, the session at a
position has `isDisplayed` true exactly when the position is `activeIndex`, no
key handler throws, and a `right` followed by a `left` returns to the same
`activeIndex`. -/
theorem selection_invariant (file : AccountFile) (s0 : Supervisor) (keys : List Key)
    (h : mainInit file = some s0) :
    1 ≤ s0.miners.length
    ∧ (pressKeys keys s0).miners.length = s0.miners.length
    ∧ (pressKeys keys s0).activeIndex < s0.miners.length
    ∧ (∀ i, i < s0.miners.length →
        ((pressKeys keys s0).miners.get? i).map (fun x => x.isDisplayed)
          = some (decide (i = (pressKeys keys s0).activeIndex)))
    ∧ (∀ key, (pressKey key (pressKeys keys s0)).1 = .ok ())
    ∧ (pressKey .left (pressKey .right (pressKeys keys s0)).2).2.activeIndex
        = (pressKeys keys s0).activeIndex := by
  have h0 := mainInit_selected file s0 h
  obtain ⟨hs, hlen⟩ := pressKeys_selected keys s0 h0
  have hr := pressKey_selected .right (pressKeys keys s0) hs
  have hl := pressKey_selected .left (pressKey .right (pressKeys keys s0)).2 hr.2.2.1
  refine ⟨by have := h0.1; omega, hlen, by rw [← hlen]; exact hs.1, ?_,
    fun key => (pressKey_selected key _ hs).1, ?_⟩
  · intro i hi
    exact hs.2 i (by rw [hlen]; exact hi)
  · rw [hl.2.2.2, hr.2.2.2, hr.2.1]
    exact right_then_left _ _ hs.1

/-- C14, at an instance: two sessions, the keys left, left, right. -/
theorem selection_invariant_witness :
    ∃ s0, mainInit twoAccountsFile = some s0
      ∧ (pressKeys [.left, .left, .right] s0).activeIndex < s0.miners.length
      ∧ (pressKeys [.left, .left, .right] s0).activeIndex = 1 :=
  ⟨_, rfl, (selection_invariant twoAccountsFile _ [.left, .left, .right] rfl).2.2.1, by decide⟩

end NexusBot
